import Mathlib

/-!
# Verification of the cards.py page-view controller script

This development gives a shallow embedding of the browser-side script of the
cards.py repository (`cards/templates/base/js/index.js`, together with the
later revision that adds `removeCutGuidesOnCover` and the cover-card
subtraction in `updatePageNumbers`), and proves or refutes the testable
properties stated in the specification.

The DOM is modelled as a forest of elements.  Each element carries a unique
node identifier `nid` (standing for JavaScript object identity), an optional
`id` attribute, a `className` string, the style properties the script reads
and writes (`visibility`, `display`, `opacity`, `pointerEvents`), an
`innerHTML` string and a bounding client rectangle.  `getElementsByClassName`
is modelled as a preorder traversal filtered by class token; since the real
DOM collection is *live*, every loop of the script re-runs the query at each
step exactly where the source re-reads the collection.  `removeChild`
detaches a node together with its subtree.  Machine reals returned by
`getBoundingClientRect` are modelled as integers; the script only compares
them.  A thrown JavaScript `TypeError` (dereferencing a `null` returned by
`getElementById`) is modelled by `Except.error` carrying the document state
at the moment of the throw.
-/

/-- JS `String.prototype.split(" ")` (single-space separator), written over
the character list so that it evaluates inside the kernel: `"a  b"` splits
to `["a", "", "b"]` and `""` to `[""]`, exactly as in JS. -/
def splitSpAux : List Char → List Char → List String
  | [], acc => [String.mk acc.reverse]
  | c :: rest, acc =>
      if c = ' ' then String.mk acc.reverse :: splitSpAux rest []
      else splitSpAux rest (c :: acc)

/-- JS `className.split(" ")`. -/
def jsSplitSpace (s : String) : List String := splitSpAux s.data []

/-- JS `array.indexOf(s) != -1` over a string array. -/
def strMem (s : String) : List String → Bool
  | [] => false
  | t :: ts => if s = t then true else strMem s ts

/-- A JS class-token test: `className.split(" ").indexOf(cls) != -1`.
This is also how `getElementsByClassName` membership is modelled. -/
def hasClassToken (className cls : String) : Bool :=
  strMem cls (jsSplitSpace className)

/-- JS `String.prototype.trim()`: strip leading and trailing whitespace. -/
def jsTrim (s : String) : String :=
  String.mk (((s.data.dropWhile Char.isWhitespace).reverse.dropWhile
    Char.isWhitespace).reverse)

/-- The style properties that the script reads or writes.  The empty string
stands for an unset inline style (falsy in JS). -/
structure Style where
  visibility : String := ""
  display : String := ""
  opacity : String := ""
  pointerEvents : String := ""
deriving Repr, DecidableEq

/-- A bounding client rectangle, as returned by `getBoundingClientRect`. -/
structure Rect where
  left : Int := 0
  top : Int := 0
  right : Int := 0
  bottom : Int := 0
deriving Repr, DecidableEq

/-- The data of a single DOM element.  `nid` models JS object identity. -/
structure ElemData where
  nid : Nat
  idAttr : Option String := none
  className : String := ""
  style : Style := {}
  innerHTML : String := ""
  rect : Rect := {}
deriving Repr, DecidableEq

/-- A DOM element: its data together with its children, in order. -/
inductive Elem where
  | node (data : ElemData) (children : List Elem)
deriving Repr

/-- A document is a forest of elements (the children of the root). -/
abbrev Doc := List Elem

def Elem.data : Elem → ElemData
  | .node d _ => d

def Elem.children : Elem → List Elem
  | .node _ cs => cs

@[simp] theorem Elem.data_node (d : ElemData) (cs : List Elem) :
    (Elem.node d cs).data = d := rfl

@[simp] theorem Elem.children_node (d : ElemData) (cs : List Elem) :
    (Elem.node d cs).children = cs := rfl

mutual
/-- Decidable equality of elements (not derivable for the nested type). -/
def decEqElem : (a b : Elem) → Decidable (a = b)
  | .node d cs, .node d' cs' =>
      match decEq d d', decEqForest cs cs' with
      | isTrue h1, isTrue h2 => isTrue (by rw [h1, h2])
      | isFalse h1, _ => isFalse (by intro h; cases h; exact h1 rfl)
      | _, isFalse h2 => isFalse (by intro h; cases h; exact h2 rfl)

/-- Decidable equality of forests. -/
def decEqForest : (a b : List Elem) → Decidable (a = b)
  | [], [] => isTrue rfl
  | [], _ :: _ => isFalse (by simp)
  | _ :: _, [] => isFalse (by simp)
  | x :: xs, y :: ys =>
      match decEqElem x y, decEqForest xs ys with
      | isTrue h1, isTrue h2 => isTrue (by rw [h1, h2])
      | isFalse h1, _ => isFalse (by intro h; cases h; exact h1 rfl)
      | _, isFalse h2 => isFalse (by intro h; cases h; exact h2 rfl)
end

instance : DecidableEq Elem := decEqElem

mutual
/-- Preorder traversal of a subtree, projected to data. -/
def flattenDataT : Elem → List ElemData
  | .node d cs => d :: flattenData cs

/-- Preorder (document-order) traversal of a forest, projected to data. -/
def flattenData : Doc → List ElemData
  | [] => []
  | e :: es => flattenDataT e ++ flattenData es
end

mutual
/-- Elements of a subtree (including its root) with class `cls`, preorder. -/
def collectClassT (cls : String) : Elem → List Elem
  | .node d cs =>
      if hasClassToken d.className cls then
        .node d cs :: collectClass cls cs
      else
        collectClass cls cs

/-- `document.getElementsByClassName(cls)`, in document order.  The script's
collections are live; loops below re-run this query wherever the source
re-reads the collection. -/
def collectClass (cls : String) : Doc → List Elem
  | [] => []
  | e :: es => collectClassT cls e ++ collectClass cls es
end

/-- `element.getElementsByClassName(cls)`: descendants only, in order. -/
def Elem.byClass (e : Elem) (cls : String) : List Elem :=
  collectClass cls e.children

mutual
/-- First element with `id` attribute `s` in a subtree, preorder. -/
def getElementByIdT (s : String) : Elem → Option Elem
  | .node d cs =>
      if d.idAttr = some s then some (.node d cs)
      else getElementById s cs

/-- `document.getElementById(s)`: the first element in document order whose
`id` attribute is `s`, or `none`. -/
def getElementById (s : String) : Doc → Option Elem
  | [] => none
  | e :: es =>
      match getElementByIdT s e with
      | some r => some r
      | none => getElementById s es
end

mutual
/-- The node with identity `n` in a subtree, if present. -/
def findNidT (n : Nat) : Elem → Option Elem
  | .node d cs =>
      if d.nid = n then some (.node d cs)
      else findNid n cs

/-- The element with node identity `n`, if attached. -/
def findNid (n : Nat) : Doc → Option Elem
  | [] => none
  | e :: es =>
      match findNidT n e with
      | some r => some r
      | none => findNid n es
end

/-- The data of the attached element with node identity `n`. -/
def dataOfNid (n : Nat) (doc : Doc) : Option ElemData :=
  (findNid n doc).map Elem.data

mutual
/-- Remove the node with identity `n` inside a subtree (not its root). -/
def removeNidT (n : Nat) : Elem → Elem
  | .node d cs => .node d (removeNid n cs)

/-- `node.parentNode.removeChild(node)`: detach the element with identity
`n`, together with its whole subtree. -/
def removeNid (n : Nat) : Doc → Doc
  | [] => []
  | .node d cs :: es =>
      if d.nid = n then es
      else removeNidT n (.node d cs) :: removeNid n es
end

mutual
/-- Apply `f` to the data of the node with identity `n` in a subtree. -/
def updateDataAtT (n : Nat) (f : ElemData → ElemData) : Elem → Elem
  | .node d cs =>
      .node (if d.nid = n then f d else d) (updateDataAt n f cs)

/-- Apply `f` to the data of the element with identity `n` (an in-place
style or `innerHTML` assignment). -/
def updateDataAt (n : Nat) (f : ElemData → ElemData) : Doc → Doc
  | [] => []
  | e :: es => updateDataAtT n f e :: updateDataAt n f es
end

/-- `element.style.display = v`. -/
def setDisplay (n : Nat) (v : String) : Doc → Doc :=
  updateDataAt n (fun d => { d with style := { d.style with display := v } })

/-- `element.style.visibility = v`. -/
def setVisibility (n : Nat) (v : String) : Doc → Doc :=
  updateDataAt n (fun d => { d with style := { d.style with visibility := v } })

/-- `element.innerHTML = s`. -/
def setInnerHTML (n : Nat) (s : String) : Doc → Doc :=
  updateDataAt n (fun d => { d with innerHTML := s })

/-!
## The script's functions

Each definition below translates one function of the page-view controller
script.  Loops whose termination depends on the shrinking live collection
take an explicit fuel argument; the wrapper passes a fuel that is provably
sufficient (the collection can only shrink, and the loop counter moves by
one per step), see the `fuel` lemmas further down.
-/

/-- The overlap test of `removeOverlappingCutGuides`:
`!(a.right < b.left || a.left > b.right || a.bottom < b.top || a.top > b.bottom)`. -/
def overlap (a b : Rect) : Bool :=
  !(a.right < b.left || a.left > b.right || a.bottom < b.top || a.top > b.bottom)

/-- Inner `for (var j ...)` loop of `removeOverlappingCutGuides`.  `i` and
`frame` are the captured outer index and `elementFrame`; the collection is
re-queried at every step because it is live. -/
def removeOverlappingInner (i : Nat) (frame : Rect) : Nat → Nat → Doc → Doc
  | _, 0, doc => doc
  | j, fuel + 1, doc =>
      let elements := collectClass "cut-guide" doc
      if h : j < elements.length then
        if i = j then
          removeOverlappingInner i frame (j + 1) fuel doc
        else
          let otherElement := elements.get ⟨j, h⟩
          if overlap frame otherElement.data.rect then
            removeOverlappingInner i frame (j + 1) fuel
              (removeNid otherElement.data.nid doc)
          else
            removeOverlappingInner i frame (j + 1) fuel doc
      else doc

/-- Outer `for (var i ...)` loop of `removeOverlappingCutGuides`. -/
def removeOverlappingOuter : Nat → Nat → Doc → Doc
  | _, 0, doc => doc
  | i, fuel + 1, doc =>
      let elements := collectClass "cut-guide" doc
      if h : i < elements.length then
        let element := elements.get ⟨i, h⟩
        let doc' := removeOverlappingInner i element.data.rect 0
          (elements.length + 1) doc
        removeOverlappingOuter (i + 1) fuel doc'
      else doc

/-- `removeOverlappingCutGuides()` (identical in every revision of the
script). -/
def removeOverlappingCutGuides (doc : Doc) : Doc :=
  let elements := collectClass "cut-guide" doc
  if elements.length > 0 then
    removeOverlappingOuter 0 (elements.length + 1) doc
  else doc

/-- The `while ((cutGuideElement = cutGuideElements[0]))` loop of
`removeCutGuidesOnCover`: repeatedly remove the first cut-guide descendant
of the (live) cover element with identity `cnid`. -/
def removeGuidesWhile (cnid : Nat) : Nat → Doc → Doc
  | 0, doc => doc
  | fuel + 1, doc =>
      match findNid cnid doc with
      | none => doc
      | some coverCardElement =>
          match coverCardElement.byClass "cut-guide" with
          | [] => doc
          | cutGuideElement :: _ =>
              removeGuidesWhile cnid fuel
                (removeNid cutGuideElement.data.nid doc)

/-- Outer `for (var i ...)` loop of `removeCutGuidesOnCover`, over the live
collection of `card-size-cover` elements. -/
def removeCutGuidesOnCoverLoop : Nat → Nat → Doc → Doc
  | _, 0, doc => doc
  | i, fuel + 1, doc =>
      let coverCardElements := collectClass "card-size-cover" doc
      if h : i < coverCardElements.length then
        let coverCardElement := coverCardElements.get ⟨i, h⟩
        let doc' := removeGuidesWhile coverCardElement.data.nid
          ((collectClass "cut-guide" doc).length + 1) doc
        removeCutGuidesOnCoverLoop (i + 1) fuel doc'
      else doc

/-- `removeCutGuidesOnCover()` (later revision of the script). -/
def removeCutGuidesOnCover (doc : Doc) : Doc :=
  let coverCardElements := collectClass "card-size-cover" doc
  if coverCardElements.length > 0 then
    removeCutGuidesOnCoverLoop 0 (coverCardElements.length + 1) doc
  else doc

/-- The body of `removeEmptyFooterTags`'s reverse loop at JS index `i`;
the argument counts down, so `i + 1` here stands for JS index `i`. -/
def removeEmptyFooterLoop : Nat → Doc → Doc
  | 0, doc => doc
  | i + 1, doc =>
      let footerContentElements := collectClass "page-footer-content" doc
      match footerContentElements.get? i with
      | some footerContentElement =>
          if jsTrim footerContentElement.data.innerHTML = "" then
            removeEmptyFooterLoop i
              (removeNid footerContentElement.data.nid doc)
          else
            removeEmptyFooterLoop i doc
      | none => removeEmptyFooterLoop i doc

/-- `removeEmptyFooterTags()` (the current `index.js` revision, which trims
the inner HTML before the emptiness test). -/
def removeEmptyFooterTags (doc : Doc) : Doc :=
  let footerContentElements := collectClass "page-footer-content" doc
  if footerContentElements.length > 0 then
    removeEmptyFooterLoop footerContentElements.length doc
  else doc

/-- One step of `toggleVisibility`'s loop: flip the `visibility` style of
the element with identity `n`, reading its previous (live) value. -/
def toggleVisibilityStep (doc : Doc) (n : Nat) : Doc :=
  updateDataAt n (fun d =>
    let previousVisibility := d.style.visibility
    { d with style := { d.style with visibility :=
        if previousVisibility = "" || previousVisibility = "visible" then
          "hidden"
        else "visible" } }) doc

/-- `toggleVisibility(className)`: flips every matched element and returns
the resulting visibility of the first matched element (`none` stands for
the JS `undefined` returned when no element matches). -/
def toggleVisibility (className : String) (doc : Doc) : Doc × Option String :=
  match collectClass className doc with
  | [] => (doc, none)
  | e0 :: rest =>
      let doc' := (e0 :: rest).foldl
        (fun dc element => toggleVisibilityStep dc element.data.nid) doc
      (doc', (dataOfNid e0.data.nid doc').map (fun d => d.style.visibility))

/-- One step of `toggleDisplay`'s loop for the element with identity `n`. -/
def toggleDisplayStep (isOn : Option Bool) (doc : Doc) (n : Nat) : Doc :=
  updateDataAt n (fun d =>
    let previousDisplay := d.style.display
    { d with style := { d.style with display :=
        match isOn with
        | some b => if b then "block" else "none"
        | none =>
            if previousDisplay = "" || previousDisplay = "block" then "none"
            else "block" } }) doc

/-- `toggleDisplay(className, on)`: `on = none` models the call without the
second argument (`on === undefined`). -/
def toggleDisplay (className : String) (isOn : Option Bool) (doc : Doc) :
    Doc × Option String :=
  match collectClass className doc with
  | [] => (doc, none)
  | e0 :: rest =>
      let doc' := (e0 :: rest).foldl
        (fun dc element => toggleDisplayStep isOn dc element.data.nid) doc
      (doc', (dataOfNid e0.data.nid doc').map (fun d => d.style.display))

/-- `toggleEnability(element, on)`: the CSSOM serialises the numbers
`1.0` and `0.2` as the strings `"1"` and `"0.2"`. -/
def toggleEnability (n : Nat) (isOn : Bool) : Doc → Doc :=
  updateDataAt n (fun d =>
    { d with style := { d.style with
        opacity := if isOn then "1" else "0.2",
        pointerEvents := if isOn then "auto" else "none" } })

/-- `toggleButtons(buttonOn, buttonOff, on)`.  The source dereferences the
two `getElementById` results without a guard: a missing `buttonOn` throws
before any mutation, a missing `buttonOff` throws after the first
assignment.  `Except.error` carries the document at the throw. -/
def toggleButtons (buttonOn buttonOff : String) (isOn : Bool) (doc : Doc) :
    Except Doc Doc :=
  match getElementById buttonOn doc, getElementById buttonOff doc with
  | none, _ => .error doc
  | some toggleButtonOn, none =>
      .error (setDisplay toggleButtonOn.data.nid
        (if isOn then "inline" else "none") doc)
  | some toggleButtonOn, some toggleButtonOff =>
      .ok (setDisplay toggleButtonOff.data.nid (if isOn then "none" else "inline")
        (setDisplay toggleButtonOn.data.nid (if isOn then "inline" else "none")
          doc))

/-- `toggleFooter()`. -/
def toggleFooter (doc : Doc) : Except Doc Doc :=
  let (doc1, vis) := toggleVisibility "page-footer" doc
  toggleButtons "toggle-footer-on" "toggle-footer-off" (vis = some "visible")
    doc1

/-- `toggleCutGuides()`. -/
def toggleCutGuides (doc : Doc) : Except Doc Doc :=
  let (doc1, vis) := toggleVisibility "cut-guide" doc
  toggleButtons "toggle-cut-guides-on" "toggle-cut-guides-off"
    (vis = some "visible") doc1

/-- `elementHasClass(element, cls)`; a null argument yields `false`. -/
def elementHasClass (element : Option ElemData) (cls : String) : Bool :=
  match element with
  | some e => hasClassToken e.className cls
  | none => false

/-- One iteration of `updatePageNumbers`'s loop over the visible pages:
`iv` is the pair of the loop index `i` and the identity of
`visiblePageElements[i]` (a live element reference); the accumulator is the
running `totalCardCount` (a JS number, so it may go negative) together with
the document.  Descendant queries go through the live document. -/
def updatePageNumbersVisit (totalPageCount : Nat) (st : Int × Doc)
    (iv : Nat × Nat) : Int × Doc :=
  let (totalCardCount, doc) := st
  match findNid iv.2 doc with
  | none => (totalCardCount, doc)
  | some visiblePageElement =>
      let pageNumberElements := visiblePageElement.byClass "page-number-tag"
      let totalCardCount' :=
        if !(elementHasClass (some visiblePageElement.data) "page-backs") then
          -- pages with backs do not count towards total card count
          let cardElements := visiblePageElement.byClass "card"
          if cardElements.length > 0 then
            -- `if (coverCardElements)` in the source is always truthy
            let coverCardElements :=
              visiblePageElement.byClass "card-size-cover"
            totalCardCount + cardElements.length - coverCardElements.length
          else totalCardCount
        else totalCardCount
      let doc' :=
        match pageNumberElements with
        | [] => doc
        | pageNumberElement :: _ =>
            setInnerHTML pageNumberElement.data.nid
              ("Page " ++ toString (iv.1 + 1) ++ " / " ++
                toString totalPageCount) doc
      (totalCardCount', doc')

/-- `updatePageNumbers()` (the revision that subtracts cover-sized cards
from the card count; the page-numbering part is identical in the current
`index.js`). -/
def updatePageNumbers (doc : Doc) : Doc :=
  let pageElements := collectClass "page" doc
  let (totalCardCount, totalPageCount, doc1) :=
    if pageElements.length > 0 then
      let visiblePageElements :=
        pageElements.filter (fun p => p.data.style.display ≠ "none")
      if visiblePageElements.length > 0 then
        let totalPageCount := visiblePageElements.length
        let (c, d) := ((visiblePageElements.map (fun p => p.data.nid)).enum).foldl
          (updatePageNumbersVisit totalPageCount) ((0 : Int), doc)
        (c, totalPageCount, d)
      else ((0 : Int), 0, doc)
    else ((0 : Int), 0, doc)
  match getElementById "ui-stats" doc1 with
  | some statsElement =>
      let cardsStat := toString totalCardCount ++ " cards"
      let pagesStat := toString totalPageCount ++ " pages"
      let cardsAndPagesContent := cardsStat ++ "<br />" ++ pagesStat
      setInnerHTML statsElement.data.nid cardsAndPagesContent doc1
  | none => doc1

/-- `toggleTwoSided(on)` (current `index.js` revision): toggles or forces
the `filler` pages, flips the two-sided button pair, then recomputes page
numbers.  A throw in `toggleButtons` skips `updatePageNumbers`. -/
def toggleTwoSided (isOn : Option Bool) (doc : Doc) : Except Doc Doc :=
  let (doc1, disp) := toggleDisplay "filler" isOn doc
  match toggleButtons "toggle-two-sided-on" "toggle-two-sided-off"
      (disp = some "block") doc1 with
  | .error d => .error d
  | .ok doc2 => .ok (updatePageNumbers doc2)

/-- `toggleCardBacks()` (current `index.js` revision).  The source comment
reads: "force the two-sided option to follow the backs option (both on and
off)". -/
def toggleCardBacks (doc : Doc) : Except Doc Doc :=
  let (doc1, disp) := toggleDisplay "page-backs" none doc
  let toggledOn := disp = some "block"
  match toggleButtons "toggle-card-backs-on" "toggle-card-backs-off"
      toggledOn doc1 with
  | .error d => .error d
  | .ok doc2 =>
      match toggleTwoSided (some toggledOn) doc2 with
      | .error d => .error d
      | .ok doc3 =>
          let doc4 :=
            match getElementById "toggle-two-sided" doc3 with
            | some toggleTwoSidedButton =>
                toggleEnability toggleTwoSidedButton.data.nid toggledOn doc3
            | none => doc3
          .ok (updatePageNumbers doc4)

/-- `disableActionsIfNecessary()`. -/
def disableActionsIfNecessary (doc : Doc) : Doc :=
  let pageElements := collectClass "page" doc
  if pageElements.length = 0 then
    match getElementById "ui-toolbar-inner" doc with
    | some innerToolbarElement =>
        (innerToolbarElement.byClass "ui-action").foldl
          (fun dc actionElement => toggleEnability actionElement.data.nid false dc)
          doc
    | none => doc
  else doc

/-- `toggleHelp(on)`: only the modal's display mutation is modelled; the
`window.onclick` handler installation has no effect on the document. -/
def toggleHelp (isOn : Bool) (doc : Doc) : Doc :=
  match getElementById "ui-modal-help" doc with
  | some modal => setDisplay modal.data.nid (if isOn then "block" else "none") doc
  | none => doc

/-- `determineBacksToggleVisibility()`: both `getElementById` lookups happen
before either assignment. -/
def determineBacksToggleVisibility (doc : Doc) : Doc :=
  let backsPageElements := collectClass "page-backs" doc
  let containsBacksPages := backsPageElements.length > 0
  if !containsBacksPages then
    let toggleBacksElement := getElementById "toggle-card-backs" doc
    let toggleTwoSidedElement := getElementById "toggle-two-sided" doc
    let doc1 :=
      match toggleBacksElement with
      | some e => setDisplay e.data.nid "none" doc
      | none => doc
    match toggleTwoSidedElement with
    | some e => setDisplay e.data.nid "none" doc1
    | none => doc1
  else doc

/-- `revealUI()`. -/
def revealUI (doc : Doc) : Doc :=
  match getElementById "toolbar" doc with
  | some toolbar =>
      updateDataAt toolbar.data.nid
        (fun d => { d with className := "ui-toolbar ui-toolbar-revealed do-not-print" })
        doc
  | none => doc

/-!
## Basic lemmas about the DOM model
-/

/-- Induction over a forest: the statement holds of `[]` and is preserved
when a node (with its children) is prepended. -/
theorem forestInd {P : Doc → Prop} (h0 : P [])
    (h1 : ∀ d cs es, P cs → P es → P (Elem.node d cs :: es)) :
    ∀ doc : Doc, P doc
  | [] => h0
  | .node d cs :: es => h1 d cs es (forestInd h0 h1 cs) (forestInd h0 h1 es)

@[simp] theorem flattenData_nil : flattenData [] = [] := rfl

@[simp] theorem flattenData_cons (d : ElemData) (cs : List Elem) (es : Doc) :
    flattenData (.node d cs :: es) = d :: (flattenData cs ++ flattenData es) := by
  rw [flattenData, flattenDataT]; simp

@[simp] theorem collectClass_nil (cls : String) : collectClass cls [] = [] := rfl

theorem collectClass_cons (cls : String) (d : ElemData) (cs : List Elem)
    (es : Doc) :
    collectClass cls (.node d cs :: es) =
      (if hasClassToken d.className cls then [Elem.node d cs] else []) ++
        (collectClass cls cs ++ collectClass cls es) := by
  rw [collectClass, collectClassT]
  by_cases h : hasClassToken d.className cls <;> simp [h]

@[simp] theorem getElementById_nil (s : String) :
    getElementById s [] = none := rfl

theorem getElementById_cons (s : String) (d : ElemData) (cs : List Elem)
    (es : Doc) :
    getElementById s (.node d cs :: es) =
      if d.idAttr = some s then some (.node d cs)
      else
        match getElementById s cs with
        | some e => some e
        | none => getElementById s es := by
  rw [getElementById, getElementByIdT]
  by_cases h : d.idAttr = some s <;> simp [h]

@[simp] theorem findNid_nil (n : Nat) : findNid n [] = none := rfl

theorem findNid_cons (n : Nat) (d : ElemData) (cs : List Elem) (es : Doc) :
    findNid n (.node d cs :: es) =
      if d.nid = n then some (.node d cs)
      else
        match findNid n cs with
        | some e => some e
        | none => findNid n es := by
  rw [findNid, findNidT]
  by_cases h : d.nid = n <;> simp [h]

@[simp] theorem removeNid_nil (n : Nat) : removeNid n [] = [] := rfl

@[simp] theorem removeNid_cons (n : Nat) (d : ElemData) (cs : List Elem)
    (es : Doc) :
    removeNid n (.node d cs :: es) =
      if d.nid = n then es
      else .node d (removeNid n cs) :: removeNid n es := by
  rw [removeNid, removeNidT]

@[simp] theorem updateDataAt_nil (n : Nat) (f : ElemData → ElemData) :
    updateDataAt n f [] = [] := rfl

@[simp] theorem updateDataAt_cons (n : Nat) (f : ElemData → ElemData)
    (d : ElemData) (cs : List Elem) (es : Doc) :
    updateDataAt n f (.node d cs :: es) =
      .node (if d.nid = n then f d else d) (updateDataAt n f cs) ::
        updateDataAt n f es := by
  rw [updateDataAt, updateDataAtT]

/-- The class query is the class filter of the document-order traversal. -/
theorem collectClass_data (cls : String) :
    ∀ doc : Doc, (collectClass cls doc).map Elem.data =
      (flattenData doc).filter (fun d => hasClassToken d.className cls) := by
  refine forestInd (by simp) ?_
  intro d cs es ihc ihe
  rw [collectClass_cons]
  by_cases h : hasClassToken d.className cls <;>
    simp [h, ihc, ihe, List.filter_append]

/-- The id lookup is the first id match of the document-order traversal. -/
theorem getElementById_data (s : String) :
    ∀ doc : Doc, (getElementById s doc).map Elem.data =
      (flattenData doc).find? (fun d => d.idAttr = some s) := by
  refine forestInd (by simp) ?_
  intro d cs es ihc ihe
  rw [getElementById_cons]
  by_cases h : d.idAttr = some s
  · simp [h]
  · simp only [h, if_false, flattenData_cons, List.find?_cons, List.find?_append]
    cases hc : getElementById s cs with
    | some e =>
        have := ihc
        rw [hc] at this
        simp [← this, h]
    | none =>
        have := ihc
        rw [hc] at this
        simp [← this, ihe, h]

/-- The identity lookup is the first identity match in document order. -/
theorem dataOfNid_find? (n : Nat) :
    ∀ doc : Doc, dataOfNid n doc =
      (flattenData doc).find? (fun d => d.nid = n) := by
  refine forestInd (by simp [dataOfNid]) ?_
  intro d cs es ihc ihe
  rw [dataOfNid, findNid_cons]
  by_cases h : d.nid = n
  · simp [h]
  · simp only [h, if_false, flattenData_cons, List.find?_cons, List.find?_append]
    cases hc : findNid n cs with
    | some e =>
        have := ihc
        rw [dataOfNid, hc] at this
        simp [← this, h]
    | none =>
        have := ihc
        rw [dataOfNid, hc] at this
        simp only [Option.map_none'] at this
        simp [← ihe, dataOfNid, h, ← this]

theorem findNid_eq_none_iff {n : Nat} {doc : Doc} :
    findNid n doc = none ↔ n ∉ (flattenData doc).map ElemData.nid := by
  constructor
  · intro h hmem
    obtain ⟨d, hd, hdn⟩ := List.mem_map.mp hmem
    have hfind := dataOfNid_find? n doc
    rw [dataOfNid, h] at hfind
    have : (flattenData doc).find? (fun x => x.nid = n) ≠ none := by
      intro hn
      rw [List.find?_eq_none] at hn
      exact absurd (by simpa using hdn) (by simpa using hn d hd)
    exact this hfind.symm
  · intro h
    have hfind : (flattenData doc).find? (fun d => d.nid = n) = none := by
      rw [List.find?_eq_none]
      intro d hd
      simp only [decide_eq_true_eq]
      intro hdn
      exact h (List.mem_map.mpr ⟨d, hd, hdn⟩)
    have := dataOfNid_find? n doc
    rw [hfind, dataOfNid] at this
    exact Option.map_eq_none'.mp this

theorem findNid_nid {n : Nat} :
    ∀ {doc : Doc} {e : Elem}, findNid n doc = some e → e.data.nid = n := by
  intro doc
  induction doc using forestInd with
  | h0 => simp
  | h1 d cs es ihc ihe =>
      intro e he
      rw [findNid_cons] at he
      by_cases h : d.nid = n
      · simp [h] at he; subst he; simpa using h
      · simp only [h, if_false] at he
        cases hc : findNid n cs with
        | some e' => rw [hc] at he; cases he; exact ihc hc
        | none => rw [hc] at he; exact ihe he

theorem removeNid_not_attached {n : Nat} :
    ∀ {doc : Doc}, n ∉ (flattenData doc).map ElemData.nid →
      removeNid n doc = doc := by
  intro doc
  induction doc using forestInd with
  | h0 => simp
  | h1 d cs es ihc ihe =>
      intro h
      simp only [flattenData_cons, List.map_cons, List.map_append,
        List.mem_cons, List.mem_append, not_or] at h
      obtain ⟨h1, h2, h3⟩ := h
      rw [removeNid_cons, if_neg (fun hv => h1 hv.symm), ihc h2, ihe h3]

theorem flattenData_removeNid_sublist (n : Nat) :
    ∀ doc : Doc,
      List.Sublist (flattenData (removeNid n doc)) (flattenData doc) := by
  refine forestInd (by simp) ?_
  intro d cs es ihc ihe
  rw [removeNid_cons]
  by_cases h : d.nid = n
  · simp only [h, if_true, flattenData_cons]
    exact (List.sublist_append_right _ _).trans (List.sublist_cons_self _ _)
  · simp only [h, if_false, flattenData_cons]
    exact List.Sublist.cons₂ d (List.Sublist.append ihc ihe)

/-- Removing an attached node removes exactly its (contiguous) subtree from
the document-order traversal. -/
theorem removeNid_decomp {n : Nat} :
    ∀ {doc : Doc}, ((flattenData doc).map ElemData.nid).Nodup →
      ∀ {e : Elem}, findNid n doc = some e →
        ∃ pre post, flattenData doc = pre ++ flattenDataT e ++ post ∧
          flattenData (removeNid n doc) = pre ++ post := by
  intro doc
  induction doc using forestInd with
  | h0 => simp
  | h1 d cs es ihc ihe =>
      intro hnd e he
      rw [findNid_cons] at he
      simp only [flattenData_cons, List.map_cons, List.map_append,
        List.nodup_cons, List.nodup_append] at hnd
      obtain ⟨hd1, hcs, hes, hdisj⟩ := hnd
      by_cases h : d.nid = n
      · simp only [h, if_true, Option.some.injEq] at he
        subst he
        refine ⟨[], flattenData es, ?_, ?_⟩
        · simp [flattenDataT]
        · rw [removeNid_cons, if_pos h]; simp
      · simp only [h, if_false] at he
        cases hc : findNid n cs with
        | some e' =>
            rw [hc] at he
            cases he
            obtain ⟨pre, post, hsplit, hrem⟩ := ihc hcs hc
            have hin : n ∈ (flattenData cs).map ElemData.nid := by
              have hnn := findNid_nid hc
              have hmm : e.data ∈ flattenData cs := by
                have h1 : e.data ∈ flattenDataT e := by
                  cases e with
                  | node dd ccs => simp [flattenDataT]
                rw [hsplit]
                simp only [List.mem_append]
                exact Or.inl (Or.inr h1)
              exact List.mem_map.mpr ⟨e.data, hmm, hnn⟩
            have hne : n ∉ (flattenData es).map ElemData.nid := fun hmem =>
              hdisj hin hmem
            refine ⟨d :: pre, post ++ flattenData es, ?_, ?_⟩
            · simp [hsplit]
            · rw [removeNid_cons, if_neg h, removeNid_not_attached hne]
              simp [hrem]
        | none =>
            rw [hc] at he
            obtain ⟨pre, post, hsplit, hrem⟩ := ihe hes he
            have hncs : n ∉ (flattenData cs).map ElemData.nid :=
              findNid_eq_none_iff.mp hc
            refine ⟨d :: (flattenData cs ++ pre), post, ?_, ?_⟩
            · simp [hsplit]
            · rw [removeNid_cons, if_neg h, removeNid_not_attached hncs]
              simp [hrem]

@[simp] theorem updateDataAtT_node (n : Nat) (f : ElemData → ElemData)
    (d : ElemData) (cs : List Elem) :
    updateDataAtT n f (.node d cs) =
      .node (if d.nid = n then f d else d) (updateDataAt n f cs) := by
  rw [updateDataAtT]

@[simp] theorem updateDataAtT_data (n : Nat) (f : ElemData → ElemData)
    (e : Elem) :
    (updateDataAtT n f e).data = if e.data.nid = n then f e.data else e.data := by
  cases e with
  | node d cs => simp

@[simp] theorem updateDataAtT_children (n : Nat) (f : ElemData → ElemData)
    (e : Elem) :
    (updateDataAtT n f e).children = updateDataAt n f e.children := by
  cases e with
  | node d cs => simp

theorem flattenData_updateDataAt (n : Nat) (f : ElemData → ElemData) :
    ∀ doc : Doc, flattenData (updateDataAt n f doc) =
      (flattenData doc).map (fun d => if d.nid = n then f d else d) := by
  refine forestInd (by simp) ?_
  intro d cs es ihc ihe
  simp [ihc, ihe]

theorem findNid_updateDataAt {f : ElemData → ElemData}
    (hn : ∀ d, (f d).nid = d.nid) (n m : Nat) :
    ∀ doc : Doc, findNid m (updateDataAt n f doc) =
      (findNid m doc).map (updateDataAtT n f) := by
  refine forestInd (by simp) ?_
  intro d cs es ihc ihe
  rw [updateDataAt_cons, findNid_cons, findNid_cons]
  have hnid : (if d.nid = n then f d else d).nid = d.nid := by
    by_cases h : d.nid = n <;> simp [h, hn]
  rw [hnid]
  by_cases h : d.nid = m
  · simp [h]
  · simp only [h, if_false, ihc, ihe]
    cases hc : findNid m cs with
    | some e => simp
    | none => simp

theorem dataOfNid_updateDataAt {f : ElemData → ElemData}
    (hn : ∀ d, (f d).nid = d.nid) (n m : Nat) (doc : Doc) :
    dataOfNid m (updateDataAt n f doc) =
      (dataOfNid m doc).map (fun d => if d.nid = n then f d else d) := by
  rw [dataOfNid, dataOfNid, findNid_updateDataAt hn]
  cases findNid m doc with
  | none => simp
  | some e => simp

theorem collectClass_updateDataAt {f : ElemData → ElemData}
    (hcn : ∀ d, (f d).className = d.className) (n : Nat) (cls : String) :
    ∀ doc : Doc, collectClass cls (updateDataAt n f doc) =
      (collectClass cls doc).map (updateDataAtT n f) := by
  refine forestInd (by simp) ?_
  intro d cs es ihc ihe
  rw [updateDataAt_cons, collectClass_cons, collectClass_cons]
  have hcls : hasClassToken (if d.nid = n then f d else d).className cls =
      hasClassToken d.className cls := by
    by_cases h : d.nid = n <;> simp [h, hcn]
  rw [hcls]
  by_cases h : hasClassToken d.className cls <;> simp [h, ihc, ihe]

theorem getElementById_updateDataAt {f : ElemData → ElemData}
    (hi : ∀ d, (f d).idAttr = d.idAttr) (n : Nat) (s : String) :
    ∀ doc : Doc, getElementById s (updateDataAt n f doc) =
      (getElementById s doc).map (updateDataAtT n f) := by
  refine forestInd (by simp) ?_
  intro d cs es ihc ihe
  rw [updateDataAt_cons, getElementById_cons, getElementById_cons]
  have hid : (if d.nid = n then f d else d).idAttr = d.idAttr := by
    by_cases h : d.nid = n <;> simp [h, hi]
  rw [hid]
  by_cases h : d.idAttr = some s
  · simp [h]
  · simp only [h, if_false, ihc, ihe]
    cases hc : getElementById s cs with
    | some e => simp
    | none => simp

theorem mem_flattenData_of_mem_collect {cls : String} {doc : Doc} {e : Elem}
    (h : e ∈ collectClass cls doc) :
    e.data ∈ flattenData doc ∧ hasClassToken e.data.className cls = true := by
  have hmem : e.data ∈ (collectClass cls doc).map Elem.data :=
    List.mem_map_of_mem _ h
  rw [collectClass_data] at hmem
  exact ⟨List.mem_of_mem_filter hmem, by simpa using List.of_mem_filter hmem⟩

theorem findNid_of_collect {cls : String} :
    ∀ {doc : Doc}, ((flattenData doc).map ElemData.nid).Nodup →
      ∀ {e : Elem}, e ∈ collectClass cls doc →
        findNid e.data.nid doc = some e := by
  intro doc
  induction doc using forestInd with
  | h0 => simp
  | h1 d cs es ihc ihe =>
      intro hnd e he
      simp only [flattenData_cons, List.map_cons, List.map_append,
        List.nodup_cons, List.nodup_append] at hnd
      obtain ⟨hd1, hcs, hes, hdisj⟩ := hnd
      have hmemcs : e ∈ collectClass cls cs → findNid e.data.nid
          (.node d cs :: es) = some e := by
        intro hincs
        have hmem := mem_flattenData_of_mem_collect hincs
        have hne : d.nid ≠ e.data.nid := by
          intro hv
          refine hd1 (List.mem_append.mpr (Or.inl ?_))
          rw [hv]
          exact List.mem_map.mpr ⟨e.data, hmem.1, rfl⟩
        rw [findNid_cons, if_neg hne, ihc hcs hincs]
      have hmemes : e ∈ collectClass cls es → findNid e.data.nid
          (.node d cs :: es) = some e := by
        intro hines
        have hmem := mem_flattenData_of_mem_collect hines
        have hne : d.nid ≠ e.data.nid := by
          intro hv
          refine hd1 (List.mem_append.mpr (Or.inr ?_))
          rw [hv]
          exact List.mem_map.mpr ⟨e.data, hmem.1, rfl⟩
        have hnone : findNid e.data.nid cs = none := by
          rw [findNid_eq_none_iff]
          intro hin
          exact hdisj hin (List.mem_map.mpr ⟨e.data, hmem.1, rfl⟩)
        rw [findNid_cons, if_neg hne, hnone, ihe hes hines]
      rw [collectClass_cons] at he
      by_cases hcl : hasClassToken d.className cls
      · rw [if_pos hcl] at he
        simp only [List.singleton_append, List.mem_cons, List.mem_append] at he
        rcases he with hhead | hincs | hines
        · subst hhead; rw [findNid_cons]; simp
        · exact hmemcs hincs
        · exact hmemes hines
      · rw [if_neg hcl] at he
        simp only [List.nil_append, List.mem_append] at he
        rcases he with hincs | hines
        · exact hmemcs hincs
        · exact hmemes hines

/-- In a document whose class-`cls` collection is exactly the pair `[a, b]`,
removing `b` leaves exactly `[a]` in the collection. -/
theorem collect_after_remove_second {cls : String} {doc : Doc} {a b : Elem}
    (hnd : ((flattenData doc).map ElemData.nid).Nodup)
    (hg : collectClass cls doc = [a, b]) :
    (collectClass cls (removeNid b.data.nid doc)).map Elem.data = [a.data] := by
  have hbmem : b ∈ collectClass cls doc := by rw [hg]; simp
  have hfind := findNid_of_collect hnd hbmem
  obtain ⟨pre, post, hsplit, hrem⟩ := removeNid_decomp hnd hfind
  have hfull : (flattenData doc).filter
      (fun d => hasClassToken d.className cls) = [a.data, b.data] := by
    rw [← collectClass_data, hg]; simp
  have hbcls : hasClassToken b.data.className cls = true :=
    (mem_flattenData_of_mem_collect hbmem).2
  obtain ⟨rest, hmid⟩ : ∃ rest,
      (flattenDataT b).filter (fun d => hasClassToken d.className cls) =
        b.data :: rest := by
    cases b with
    | node bd bcs =>
        refine ⟨(flattenData bcs).filter
          (fun d => hasClassToken d.className cls), ?_⟩
        rw [flattenDataT, List.filter_cons, if_pos (by simpa using hbcls)]
        simp
  have hanb : a.data.nid ≠ b.data.nid := by
    have hnd2 : (([a.data, b.data] : List ElemData).map ElemData.nid).Nodup := by
      rw [← hfull]
      exact ((List.filter_sublist _).map ElemData.nid).nodup hnd
    simpa using hnd2
  have hdec : (pre.filter (fun d => hasClassToken d.className cls)) ++
      (b.data :: rest) ++
      (post.filter (fun d => hasClassToken d.className cls)) =
      [a.data, b.data] := by
    rw [← hmid, ← List.filter_append, ← List.filter_append, ← hsplit, hfull]
  set A := pre.filter (fun d => hasClassToken d.className cls) with hA
  set C := post.filter (fun d => hasClassToken d.className cls) with hC
  have hgoal : A ++ C = [a.data] := by
    cases hAe : A with
    | nil =>
        exfalso
        rw [hAe] at hdec
        simp only [List.nil_append, List.cons_append, List.cons.injEq] at hdec
        exact hanb (congrArg ElemData.nid hdec.1).symm
    | cons x A' =>
        rw [hAe] at hdec
        simp only [List.cons_append, List.cons.injEq] at hdec
        obtain hxa := hdec.1
        obtain htail := hdec.2
        cases A' with
        | nil =>
            simp only [List.nil_append, List.cons_append, List.cons.injEq] at htail
            obtain ⟨hrest, hcnil⟩ := List.append_eq_nil.mp htail.2
            simp [hxa, hrest, hcnil]
        | cons y A'' =>
            exfalso
            simp only [List.cons_append, List.cons.injEq] at htail
            exact absurd htail.2 (by simp)
  rw [collectClass_data, hrem, List.filter_append, ← hA, ← hC, hgoal]

theorem removeOverlappingInner_zero (i : Nat) (frame : Rect) (j : Nat)
    (doc : Doc) : removeOverlappingInner i frame j 0 doc = doc := by
  rw [removeOverlappingInner]

theorem removeOverlappingInner_stop {i : Nat} {frame : Rect} {j : Nat}
    {doc : Doc} (fuel : Nat)
    (h : (collectClass "cut-guide" doc).length ≤ j) :
    removeOverlappingInner i frame j fuel doc = doc := by
  cases fuel with
  | zero => rw [removeOverlappingInner]
  | succ f =>
      rw [removeOverlappingInner]
      rw [dif_neg (by omega)]

theorem removeOverlappingInner_skip {i : Nat} {frame : Rect} {fuel : Nat}
    {doc : Doc} (h : i < (collectClass "cut-guide" doc).length) :
    removeOverlappingInner i frame i (fuel + 1) doc =
      removeOverlappingInner i frame (i + 1) fuel doc := by
  rw [removeOverlappingInner]
  rw [dif_pos h, if_pos rfl]

theorem removeOverlappingInner_hit {i : Nat} {frame : Rect} {j fuel : Nat}
    {doc : Doc} (h : j < (collectClass "cut-guide" doc).length) (hne : i ≠ j)
    (hov : overlap frame ((collectClass "cut-guide" doc).get ⟨j, h⟩).data.rect
      = true) :
    removeOverlappingInner i frame j (fuel + 1) doc =
      removeOverlappingInner i frame (j + 1) fuel
        (removeNid ((collectClass "cut-guide" doc).get ⟨j, h⟩).data.nid doc) := by
  rw [removeOverlappingInner]
  rw [dif_pos h, if_neg hne, if_pos hov]

theorem removeOverlappingInner_miss {i : Nat} {frame : Rect} {j fuel : Nat}
    {doc : Doc} (h : j < (collectClass "cut-guide" doc).length) (hne : i ≠ j)
    (hov : ¬ overlap frame
      ((collectClass "cut-guide" doc).get ⟨j, h⟩).data.rect = true) :
    removeOverlappingInner i frame j (fuel + 1) doc =
      removeOverlappingInner i frame (j + 1) fuel doc := by
  rw [removeOverlappingInner]
  rw [dif_pos h, if_neg hne, if_neg hov]

theorem removeOverlappingOuter_stop {i : Nat} {doc : Doc} (fuel : Nat)
    (h : (collectClass "cut-guide" doc).length ≤ i) :
    removeOverlappingOuter i fuel doc = doc := by
  cases fuel with
  | zero => rw [removeOverlappingOuter]
  | succ f =>
      rw [removeOverlappingOuter]
      rw [dif_neg (by omega)]

theorem removeOverlappingOuter_step {i fuel : Nat} {doc : Doc}
    (h : i < (collectClass "cut-guide" doc).length) :
    removeOverlappingOuter i (fuel + 1) doc =
      removeOverlappingOuter (i + 1) fuel
        (removeOverlappingInner i
          ((collectClass "cut-guide" doc).get ⟨i, h⟩).data.rect 0
          ((collectClass "cut-guide" doc).length + 1) doc) := by
  conv_lhs => rw [removeOverlappingOuter]
  rw [dif_pos h]

/-- Running `removeOverlappingCutGuides` on a document whose cut-guide
collection is exactly an overlapping pair `[a, b]` removes exactly `b`. -/
theorem removeOverlapping_two_guides {doc : Doc} {a b : Elem}
    (hnd : ((flattenData doc).map ElemData.nid).Nodup)
    (hg : collectClass "cut-guide" doc = [a, b])
    (hov : overlap a.data.rect b.data.rect = true) :
    (collectClass "cut-guide" (removeOverlappingCutGuides doc)).map Elem.data
      = [a.data] := by
  have hlen : (collectClass "cut-guide" doc).length = 2 := by rw [hg]; rfl
  have hremoved := collect_after_remove_second hnd hg
  have hlen1 : (collectClass "cut-guide"
      (removeNid b.data.nid doc)).length = 1 := by
    have := congrArg List.length hremoved
    simpa using this
  rw [removeOverlappingCutGuides]
  simp only [hlen]
  rw [if_pos (by omega)]
  -- outer iteration i = 0
  rw [show (2 + 1 : Nat) = 1 + 1 + 1 from rfl]
  rw [removeOverlappingOuter_step (by omega)]
  have hget0 : (collectClass "cut-guide" doc).get ⟨0, by omega⟩ = a := by
    simp [hg]
  rw [hget0]
  -- inner loop: fuel = length + 1 = 3
  rw [hlen]
  rw [show (2 + 1 : Nat) = 1 + 1 + 1 from rfl]
  rw [removeOverlappingInner_skip (by omega)]
  have hget1 : (collectClass "cut-guide" doc).get ⟨1, by omega⟩ = b := by
    simp [hg]
  rw [@removeOverlappingInner_hit 0 a.data.rect 1 1 doc (by omega) (by omega)
    (by rw [hget1]; exact hov)]
  rw [hget1]
  rw [removeOverlappingInner_stop _ (by omega)]
  rw [removeOverlappingOuter_stop _ (by omega)]
  exact hremoved

/-!
## Claim C1: overlapping cut-guide pairs
-/

/-- A flat cut-guide element used in concrete documents. -/
def cutGuideAt (n : Nat) (l t r bo : Int) : Elem :=
  .node { nid := n, className := "cut-guide",
          rect := { left := l, top := t, right := r, bottom := bo } } []

/-- Three mutually overlapping cut-guides. -/
def claimC1doc : Doc :=
  [cutGuideAt 1 0 0 10 10, cutGuideAt 2 5 0 15 10, cutGuideAt 3 8 0 20 10]

/-- Counterexample to claim C1 as stated: in `claimC1doc`, the cut-guides
with identities 1 and 2 have overlapping bounding rectangles, yet after
`removeOverlappingCutGuides` *neither* element of the pair remains attached
(guide 3 removes guide 1 after guide 1 removed guide 2), so it is false
that exactly one element of every overlapping pair survives. -/
theorem claimC1_counterexample :
    (collectClass "cut-guide" claimC1doc).map (fun e => e.data.nid)
      = [1, 2, 3] ∧
    overlap (Rect.mk 0 0 10 10) (Rect.mk 5 0 15 10) = true ∧
    (dataOfNid 1 claimC1doc).isSome ∧ (dataOfNid 2 claimC1doc).isSome ∧
    dataOfNid 1 (removeOverlappingCutGuides claimC1doc) = none ∧
    dataOfNid 2 (removeOverlappingCutGuides claimC1doc) = none := by
  decide

/-- Claim C1 (amended): when the two overlapping cut-guide elements are the
only cut-guides of the document, exactly one of the pair — the first in
document order — remains attached after `removeOverlappingCutGuides`.  (In
the presence of further cut-guides, an overlapping pair can also end with
zero or with two members attached, see the counterexamples for C1 and
C10.) -/
theorem claimC1_theorem (doc : Doc) (a b : Elem)
    (hnd : ((flattenData doc).map ElemData.nid).Nodup)
    (hg : collectClass "cut-guide" doc = [a, b])
    (hov : overlap a.data.rect b.data.rect = true) :
    (collectClass "cut-guide" (removeOverlappingCutGuides doc)).map Elem.data
      = [a.data] :=
  removeOverlapping_two_guides hnd hg hov

/-- A two-element overlapping pair, the only cut-guides of the document. -/
def claimC1wdoc : Doc := [cutGuideAt 4 0 0 10 10, cutGuideAt 5 5 0 15 10]

theorem claimC1_witness :
    (((flattenData claimC1wdoc).map ElemData.nid).Nodup ∧
      collectClass "cut-guide" claimC1wdoc =
        [cutGuideAt 4 0 0 10 10, cutGuideAt 5 5 0 15 10] ∧
      overlap (cutGuideAt 4 0 0 10 10).data.rect
        (cutGuideAt 5 5 0 15 10).data.rect = true) ∧
    (collectClass "cut-guide" (removeOverlappingCutGuides claimC1wdoc)).map
      Elem.data = [(cutGuideAt 4 0 0 10 10).data] :=
  ⟨⟨by decide, rfl, by decide⟩,
    claimC1_theorem claimC1wdoc _ _ (by decide) rfl (by decide)⟩

/-!
## Claim C10: boundary-touching rectangles count as overlapping
-/

/-- Six cut-guides: 10 properly overlaps 12 and 13; 14 and 15 merely touch
along the edge `x = 210`; no other pair meets. -/
def claimC10doc : Doc :=
  [cutGuideAt 10 0 0 10 10, cutGuideAt 11 100 0 101 10,
   cutGuideAt 12 1 0 2 10, cutGuideAt 13 3 0 4 10,
   cutGuideAt 14 200 0 210 10, cutGuideAt 15 210 0 220 10]

/-- Counterexample to claim C10 as stated: guides 14 and 15 of `claimC10doc`
merely touch along an edge, and the test classifies them as overlapping,
but `removeOverlappingCutGuides` removes *neither* of them (removals among
the other guides shift the live collection so that both escape every scan),
so "removes one of the pair" fails. -/
theorem claimC10_counterexample :
    (Rect.mk 200 0 210 10).right = (Rect.mk 210 0 220 10).left ∧
    overlap (Rect.mk 200 0 210 10) (Rect.mk 210 0 220 10) = true ∧
    (collectClass "cut-guide" (removeOverlappingCutGuides claimC10doc)).map
      (fun e => e.data.nid) = [11, 14, 15] ∧
    (dataOfNid 14 (removeOverlappingCutGuides claimC10doc)).isSome ∧
    (dataOfNid 15 (removeOverlappingCutGuides claimC10doc)).isSome := by
  decide

/-- Claim C10 (amended): the overlap test uses strict inequalities, so a
pair of cut-guides whose rectangles merely touch along an edge (here
`a.right = b.left` with meeting vertical ranges) is classified as
overlapping; consequently, when such a pair are the only cut-guides of the
document, one of the pair (the second in document order) is removed.  (With
further cut-guides present, both members may survive, as the counterexample
shows.) -/
theorem claimC10_theorem :
    (∀ a b : Rect, a.right = b.left → a.left ≤ b.right → a.top ≤ b.bottom →
      b.top ≤ a.bottom → overlap a b = true) ∧
    (∀ (doc : Doc) (a b : Elem),
      ((flattenData doc).map ElemData.nid).Nodup →
      collectClass "cut-guide" doc = [a, b] →
      a.data.rect.right = b.data.rect.left →
      a.data.rect.left ≤ b.data.rect.right →
      a.data.rect.top ≤ b.data.rect.bottom →
      b.data.rect.top ≤ a.data.rect.bottom →
      (collectClass "cut-guide"
        (removeOverlappingCutGuides doc)).map Elem.data = [a.data]) := by
  have hov : ∀ a b : Rect, a.right = b.left → a.left ≤ b.right →
      a.top ≤ b.bottom → b.top ≤ a.bottom → overlap a b = true := by
    intro a b h1 h2 h3 h4
    simp only [overlap, Bool.not_eq_true', Bool.or_eq_false_iff,
      decide_eq_false_iff_not, not_lt]
    omega
  exact ⟨hov, fun doc a b hnd hg h1 h2 h3 h4 =>
    removeOverlapping_two_guides hnd hg
      (hov _ _ h1 h2 h3 h4)⟩

/-- A touching pair, the only cut-guides of the document. -/
def claimC10wdoc : Doc :=
  [cutGuideAt 6 200 0 210 10, cutGuideAt 7 210 0 220 10]

theorem claimC10_witness :
    overlap (Rect.mk 200 0 210 10) (Rect.mk 210 0 220 10) = true ∧
    (collectClass "cut-guide" (removeOverlappingCutGuides claimC10wdoc)).map
      Elem.data = [(cutGuideAt 6 200 0 210 10).data] :=
  ⟨claimC10_theorem.1 _ _ (by decide) (by decide) (by decide) (by decide),
   claimC10_theorem.2 claimC10wdoc _ _ (by decide) rfl (by decide) (by decide)
     (by decide) (by decide)⟩

/-!
## Folded style updates

`toggleVisibility` and `toggleDisplay` fold a per-element style update over
the (snapshot) collection; these lemmas describe such folds generically.
-/

/-- Fold a fixed data update over a list of node identities. -/
def foldUpdate (f : ElemData → ElemData) (L : List Nat) (doc : Doc) : Doc :=
  L.foldl (fun dc n => updateDataAt n f dc) doc

@[simp] theorem foldUpdate_nil (f : ElemData → ElemData) (doc : Doc) :
    foldUpdate f [] doc = doc := rfl

@[simp] theorem foldUpdate_cons (f : ElemData → ElemData) (n : Nat)
    (L : List Nat) (doc : Doc) :
    foldUpdate f (n :: L) doc = foldUpdate f L (updateDataAt n f doc) := rfl

theorem flattenNids_foldUpdate {f : ElemData → ElemData}
    (hn : ∀ d, (f d).nid = d.nid) :
    ∀ (L : List Nat) (doc : Doc),
      (flattenData (foldUpdate f L doc)).map ElemData.nid =
        (flattenData doc).map ElemData.nid := by
  intro L
  induction L with
  | nil => intro doc; rfl
  | cons n L ih =>
      intro doc
      rw [foldUpdate_cons, ih, flattenData_updateDataAt, List.map_map]
      congr 1
      funext d
      by_cases h : d.nid = n <;> simp [h, hn]

theorem collectNids_foldUpdate {f : ElemData → ElemData}
    (hn : ∀ d, (f d).nid = d.nid)
    (hcn : ∀ d, (f d).className = d.className) (cls : String) :
    ∀ (L : List Nat) (doc : Doc),
      (collectClass cls (foldUpdate f L doc)).map (fun e => e.data.nid) =
        (collectClass cls doc).map (fun e => e.data.nid) := by
  intro L
  induction L with
  | nil => intro doc; rfl
  | cons n L ih =>
      intro doc
      rw [foldUpdate_cons, ih, collectClass_updateDataAt hcn, List.map_map]
      congr 1
      funext e
      by_cases h : e.data.nid = n <;> simp [h, hn]

theorem dataOfNid_foldUpdate {f : ElemData → ElemData}
    (hn : ∀ d, (f d).nid = d.nid) :
    ∀ (L : List Nat), L.Nodup → ∀ (doc : Doc) (m : Nat),
      dataOfNid m (foldUpdate f L doc) =
        if m ∈ L then (dataOfNid m doc).map f else dataOfNid m doc := by
  intro L
  induction L with
  | nil => intro _ doc m; simp
  | cons n L ih =>
      intro hnd doc m
      rw [foldUpdate_cons, ih hnd.of_cons]
      by_cases hm : m ∈ n :: L
      · rw [if_pos hm]
        rcases List.mem_cons.mp hm with hmn | hmL
        · subst hmn
          have hnotL : m ∉ L := (List.nodup_cons.mp hnd).1
          rw [if_neg hnotL, dataOfNid_updateDataAt hn]
          cases hd : dataOfNid m doc with
          | none => simp
          | some d =>
              have : d.nid = m := by
                rw [dataOfNid] at hd
                cases hf : findNid m doc with
                | none => rw [hf] at hd; simp at hd
                | some e =>
                    rw [hf] at hd
                    simp at hd
                    rw [← hd]
                    exact findNid_nid hf
              simp [this]
        · have hmn : m ≠ n := by
            intro hv
            subst hv
            exact (List.nodup_cons.mp hnd).1 hmL
          rw [if_pos hmL, dataOfNid_updateDataAt hn]
          cases hd : dataOfNid m doc with
          | none => simp
          | some d =>
              have hdm : d.nid = m := by
                rw [dataOfNid] at hd
                cases hf : findNid m doc with
                | none => rw [hf] at hd; simp at hd
                | some e =>
                    rw [hf] at hd
                    simp at hd
                    rw [← hd]
                    exact findNid_nid hf
              simp [hdm, hmn]
      · rw [if_neg hm]
        have hmn : ¬ m ∈ L := fun h => hm (List.mem_cons_of_mem _ h)
        have hmne : m ≠ n := fun h => hm (h ▸ List.mem_cons_self _ _)
        rw [if_neg hmn, dataOfNid_updateDataAt hn]
        cases hd : dataOfNid m doc with
        | none => simp
        | some d =>
            have hdm : d.nid = m := by
              rw [dataOfNid] at hd
              cases hf : findNid m doc with
              | none => rw [hf] at hd; simp at hd
              | some e =>
                  rw [hf] at hd
                  simp at hd
                  rw [← hd]
                  exact findNid_nid hf
            simp [hdm, hmne]

theorem dataOfNid_some_nid {m : Nat} {doc : Doc} {d : ElemData}
    (hd : dataOfNid m doc = some d) : d.nid = m := by
  rw [dataOfNid] at hd
  cases hf : findNid m doc with
  | none => rw [hf] at hd; simp at hd
  | some e =>
      rw [hf] at hd
      simp at hd
      rw [← hd]
      exact findNid_nid hf

/-- The per-element update performed by `toggleVisibility`. -/
def visFlip (d : ElemData) : ElemData :=
  { d with style := { d.style with visibility :=
      if d.style.visibility = "" || d.style.visibility = "visible" then
        "hidden"
      else "visible" } }

theorem toggleVisibilityStep_eq (doc : Doc) (n : Nat) :
    toggleVisibilityStep doc n = updateDataAt n visFlip doc := rfl

theorem toggleVisibility_fst {cls : String} {doc : Doc}
    (h : collectClass cls doc ≠ []) :
    (toggleVisibility cls doc).1 =
      foldUpdate visFlip ((collectClass cls doc).map (fun e => e.data.nid))
        doc := by
  obtain ⟨e0, rest, hE⟩ := List.exists_cons_of_ne_nil h
  rw [toggleVisibility]
  rw [hE]
  simp only [foldUpdate, List.foldl_map]
  rfl

/-- The nids appearing in a class collection are distinct when the document
has distinct nids. -/
theorem collectNids_nodup {cls : String} {doc : Doc}
    (hnd : ((flattenData doc).map ElemData.nid).Nodup) :
    ((collectClass cls doc).map (fun e => e.data.nid)).Nodup := by
  have h1 : (collectClass cls doc).map (fun e => e.data.nid) =
      ((collectClass cls doc).map Elem.data).map ElemData.nid := by
    rw [List.map_map]; rfl
  rw [h1, collectClass_data]
  exact ((List.filter_sublist _).map ElemData.nid).nodup hnd

/-!
## Claim C7: double `toggleVisibility`
-/

/-- One `page-footer` element whose `visibility` style is initially unset. -/
def claimC7doc : Doc := [.node { nid := 1, className := "page-footer" } []]

/-- Counterexample to claim C7 as stated: an element with initially *unset*
visibility (the empty style value) ends with the style value `"visible"`
after two `toggleVisibility('page-footer')` calls — visually equivalent,
but not the original style value. -/
theorem claimC7_counterexample :
    (dataOfNid 1 claimC7doc).map (fun d => d.style.visibility) = some "" ∧
    (dataOfNid 1 ((toggleVisibility "page-footer"
        ((toggleVisibility "page-footer" claimC7doc).1)).1)).map
      (fun d => d.style.visibility) = some "visible" := by
  decide

/-- Claim C7 (amended): two successive `toggleVisibility('page-footer')`
calls restore the complete original data of every matched element whose
initial visibility style value is `"visible"` or `"hidden"`; a matched
element with initially unset visibility instead ends with the value
`"visible"` (visually equivalent, but a different style value). -/
theorem visFlip_visFlip_restores (d : ElemData)
    (h : d.style.visibility = "visible" ∨ d.style.visibility = "hidden") :
    visFlip (visFlip d) = d := by
  obtain ⟨n, ia, cn, st, ih, rc⟩ := d
  obtain ⟨sv, sd, so, sp⟩ := st
  simp only [Style.visibility] at h
  rcases h with h | h <;> subst h <;> simp [visFlip]

theorem visFlip_visFlip_unset (d : ElemData) (h : d.style.visibility = "") :
    visFlip (visFlip d) =
      { d with style := { d.style with visibility := "visible" } } := by
  obtain ⟨n, ia, cn, st, ih, rc⟩ := d
  obtain ⟨sv, sd, so, sp⟩ := st
  simp only [Style.visibility] at h
  subst h
  simp [visFlip]

theorem claimC7_theorem (doc : Doc)
    (hnd : ((flattenData doc).map ElemData.nid).Nodup)
    (e : Elem) (he : e ∈ collectClass "page-footer" doc) :
    (e.data.style.visibility = "visible" ∨ e.data.style.visibility = "hidden" →
      dataOfNid e.data.nid
        ((toggleVisibility "page-footer"
          ((toggleVisibility "page-footer" doc).1)).1) = some e.data) ∧
    (e.data.style.visibility = "" →
      dataOfNid e.data.nid
        ((toggleVisibility "page-footer"
          ((toggleVisibility "page-footer" doc).1)).1) =
        some { e.data with style :=
          { e.data.style with visibility := "visible" } }) := by
  have hne : collectClass "page-footer" doc ≠ [] :=
    fun h => by rw [h] at he; exact absurd he (List.not_mem_nil e)
  have hvn : ∀ d : ElemData, (visFlip d).nid = d.nid := fun d => rfl
  have hvc : ∀ d : ElemData, (visFlip d).className = d.className := fun d => rfl
  set L := (collectClass "page-footer" doc).map (fun e => e.data.nid) with hL
  have hLnd : L.Nodup := collectNids_nodup hnd
  have hmem : e.data.nid ∈ L := by
    rw [hL]; exact List.mem_map_of_mem _ he
  have h1 : (toggleVisibility "page-footer" doc).1 = foldUpdate visFlip L doc :=
    toggleVisibility_fst hne
  have hcol1 : (collectClass "page-footer" (foldUpdate visFlip L doc)).map
      (fun e => e.data.nid) = L := by
    rw [collectNids_foldUpdate hvn hvc]
  have hne1 : collectClass "page-footer" (foldUpdate visFlip L doc) ≠ [] := by
    intro h
    rw [h] at hcol1
    simp only [List.map_nil] at hcol1
    rw [← hcol1] at hmem
    exact absurd hmem (List.not_mem_nil _)
  have h2 : (toggleVisibility "page-footer" (foldUpdate visFlip L doc)).1 =
      foldUpdate visFlip L (foldUpdate visFlip L doc) := by
    rw [toggleVisibility_fst hne1, hcol1]
  have hdata : dataOfNid e.data.nid doc = some e.data := by
    rw [dataOfNid, findNid_of_collect hnd he]; rfl
  have hfinal : dataOfNid e.data.nid
      (foldUpdate visFlip L (foldUpdate visFlip L doc)) =
      some (visFlip (visFlip e.data)) := by
    rw [dataOfNid_foldUpdate hvn L hLnd, if_pos hmem,
      dataOfNid_foldUpdate hvn L hLnd, if_pos hmem, hdata]
    rfl
  rw [h1, h2, hfinal]
  exact ⟨fun hv => by rw [visFlip_visFlip_restores e.data hv],
    fun hv => by rw [visFlip_visFlip_unset e.data hv]⟩

/-- A `page-footer` element whose visibility is initially `"visible"`. -/
def claimC7welem : Elem :=
  .node { nid := 2, className := "page-footer",
          style := { visibility := "visible" } } []

def claimC7wdoc : Doc := [claimC7welem]

theorem claimC7_witness :
    (((flattenData claimC7wdoc).map ElemData.nid).Nodup ∧
      claimC7welem ∈ collectClass "page-footer" claimC7wdoc) ∧
    dataOfNid 2 ((toggleVisibility "page-footer"
        ((toggleVisibility "page-footer" claimC7wdoc).1)).1) =
      some claimC7welem.data :=
  ⟨⟨by decide, by rw [claimC7wdoc]; exact List.mem_singleton.mpr rfl⟩,
    (claimC7_theorem claimC7wdoc (by decide) claimC7welem
      (by rw [claimC7wdoc]; exact List.mem_singleton.mpr rfl)).1
      (Or.inl rfl)⟩

/-!
## Claim C6: `removeEmptyFooterTags`
-/

/-- Whether a data record is an empty (after trimming) footer-content
element. -/
def emptyFooter (d : ElemData) : Bool :=
  hasClassToken d.className "page-footer-content" && (jsTrim d.innerHTML == "")

/-- Coherence of `innerHTML` with the children list: an element whose inner
HTML trims to the empty string has no children.  (In a real DOM document
element children are serialised into `innerHTML`, so this always holds.) -/
def leafCoherent (doc : Doc) : Prop :=
  ∀ e ∈ collectClass "page-footer-content" doc,
    jsTrim e.data.innerHTML = "" → e.children = []

theorem mem_collect_cons_of_children {cls : String} {d : ElemData}
    {cs es : List Elem} {e : Elem} (h : e ∈ collectClass cls cs) :
    e ∈ collectClass cls (.node d cs :: es) := by
  rw [collectClass_cons]
  by_cases hcl : hasClassToken d.className cls <;> simp [hcl, h]

theorem mem_collect_cons_of_rest {cls : String} {d : ElemData}
    {cs es : List Elem} {e : Elem} (h : e ∈ collectClass cls es) :
    e ∈ collectClass cls (.node d cs :: es) := by
  rw [collectClass_cons]
  by_cases hcl : hasClassToken d.className cls <;> simp [hcl, h]

theorem leafCoherent_removeNid (n : Nat) :
    ∀ doc : Doc, leafCoherent doc → leafCoherent (removeNid n doc) := by
  refine forestInd (by intro _; simp [leafCoherent]) ?_
  intro d cs es ihc ihe H
  rw [removeNid_cons]
  by_cases h : d.nid = n
  · rw [if_pos h]
    intro e he hemp
    exact H e (mem_collect_cons_of_rest he) hemp
  · rw [if_neg h]
    intro e he hemp
    have Hcs : leafCoherent cs := fun e' he' =>
      H e' (mem_collect_cons_of_children he')
    have Hes : leafCoherent es := fun e' he' =>
      H e' (mem_collect_cons_of_rest he')
    rw [collectClass_cons] at he
    by_cases hcl : hasClassToken d.className "page-footer-content"
    · rw [if_pos hcl] at he
      simp only [List.singleton_append, List.mem_cons, List.mem_append] at he
      rcases he with hhead | hincs | hines
      · subst hhead
        simp only [Elem.data_node] at hemp
        have horig : (Elem.node d cs).children = [] := by
          refine H (.node d cs) ?_ (by simpa using hemp)
          rw [collectClass_cons, if_pos hcl]
          simp
        simp only [Elem.children_node] at horig
        subst horig
        simp
      · exact ihc Hcs e hincs hemp
      · exact ihe Hes e hines hemp
    · rw [if_neg hcl] at he
      simp only [List.nil_append, List.mem_append] at he
      rcases he with hincs | hines
      · exact ihc Hcs e hincs hemp
      · exact ihe Hes e hines hemp

theorem flattenDataT_eq (e : Elem) :
    flattenDataT e = e.data :: flattenData e.children := by
  cases e with
  | node d cs => rw [flattenDataT]; rfl

theorem footerLoop_spec :
    ∀ (i : Nat) (doc : Doc),
      ((flattenData doc).map ElemData.nid).Nodup →
      leafCoherent doc →
      i ≤ (collectClass "page-footer-content" doc).length →
      flattenData (removeEmptyFooterLoop i doc) =
        (flattenData doc).filter (fun d =>
          !(emptyFooter d &&
            decide (d.nid ∈ ((collectClass "page-footer-content" doc).take i).map
              (fun e => e.data.nid)))) := by
  intro i
  induction i with
  | zero =>
      intro doc hnd hlc hle
      rw [removeEmptyFooterLoop]
      symm
      rw [List.filter_eq_self]
      intro d hd
      simp
  | succ i ih =>
      intro doc hnd hlc hle
      have hlt : i < (collectClass "page-footer-content" doc).length := hle
      have hget : (collectClass "page-footer-content" doc).get? i =
          some ((collectClass "page-footer-content" doc).get ⟨i, hlt⟩) :=
        List.get?_eq_get hlt
      set fi := (collectClass "page-footer-content" doc).get ⟨i, hlt⟩ with hfi
      have hfimem : fi ∈ collectClass "page-footer-content" doc :=
        List.get_mem _ _ _
      have hficls : hasClassToken fi.data.className "page-footer-content"
          = true := (mem_flattenData_of_mem_collect hfimem).2
      have htakeSucc : (collectClass "page-footer-content" doc).take (i + 1)
          = (collectClass "page-footer-content" doc).take i ++ [fi] := by
        rw [List.take_succ]
        congr
        rw [← List.get?_eq_getElem?, hget]
        rfl
      rw [removeEmptyFooterLoop, hget]
      dsimp only
      by_cases hEmp : jsTrim fi.data.innerHTML = ""
      · rw [if_pos hEmp]
        have hleaf : fi.children = [] := hlc fi hfimem hEmp
        have hfind : findNid fi.data.nid doc = some fi :=
          findNid_of_collect hnd hfimem
        obtain ⟨pre, post, hsplit, hrem⟩ := removeNid_decomp hnd hfind
        have hfiT : flattenDataT fi = [fi.data] := by
          rw [flattenDataT_eq, hleaf]
          rfl
        rw [hfiT] at hsplit
        have hnd' : ((flattenData (removeNid fi.data.nid doc)).map
            ElemData.nid).Nodup :=
          ((flattenData_removeNid_sublist _ _).map ElemData.nid).nodup hnd
        have hlc' : leafCoherent (removeNid fi.data.nid doc) :=
          leafCoherent_removeNid _ doc hlc
        have hcolData : (collectClass "page-footer-content" doc).map Elem.data
            = pre.filter (fun d => hasClassToken d.className
                "page-footer-content") ++ fi.data ::
              post.filter (fun d => hasClassToken d.className
                "page-footer-content") := by
          rw [collectClass_data, hsplit]
          rw [List.filter_append, List.filter_append]
          simp [hficls]
        have hcolData' : (collectClass "page-footer-content"
            (removeNid fi.data.nid doc)).map Elem.data
            = pre.filter (fun d => hasClassToken d.className
                "page-footer-content") ++
              post.filter (fun d => hasClassToken d.className
                "page-footer-content") := by
          rw [collectClass_data, hrem, List.filter_append]
        have hColNodup : (((collectClass "page-footer-content" doc).map
            Elem.data).map ElemData.nid).Nodup := by
          rw [collectClass_data]
          exact ((List.filter_sublist _).map ElemData.nid).nodup hnd
        have hprelen : (pre.filter (fun d => hasClassToken d.className
            "page-footer-content")).length = i := by
          have hpos1 : ((collectClass "page-footer-content" doc).map
              Elem.data).get? i = some fi.data := by
            rw [List.get?_map, hget]
            rfl
          have hpos2 : ((collectClass "page-footer-content" doc).map
              Elem.data).get? (pre.filter (fun d => hasClassToken d.className
                "page-footer-content")).length = some fi.data := by
            rw [hcolData]
            rw [List.get?_append_right (Nat.le_refl _)]
            simp
          have hlen2 : (pre.filter (fun d => hasClassToken d.className
              "page-footer-content")).length <
              ((collectClass "page-footer-content" doc).map Elem.data).length := by
            rw [hcolData]
            simp
          exact List.get?_inj hlen2 (List.Nodup.of_map _ hColNodup)
            (hpos2.trans hpos1.symm)
        have htakeNids : ∀ dc : Doc,
            ((collectClass "page-footer-content" dc).take i).map
              (fun e => e.data.nid) =
            (((collectClass "page-footer-content" dc).map Elem.data).take i).map
              ElemData.nid := by
          intro dc
          rw [List.map_take, List.map_take, List.map_map]
          rfl
        have htake : ((collectClass "page-footer-content" doc).take i).map
            (fun e => e.data.nid) =
            (pre.filter (fun d => hasClassToken d.className
              "page-footer-content")).map ElemData.nid := by
          rw [htakeNids, hcolData, List.take_append_of_le_length (by omega)]
          rw [List.take_of_length_le (by omega)]
        have htake' : ((collectClass "page-footer-content"
            (removeNid fi.data.nid doc)).take i).map (fun e => e.data.nid) =
            (pre.filter (fun d => hasClassToken d.className
              "page-footer-content")).map ElemData.nid := by
          rw [htakeNids, hcolData', List.take_append_of_le_length (by omega)]
          rw [List.take_of_length_le (by omega)]
        have hlen' : i ≤ (collectClass "page-footer-content"
            (removeNid fi.data.nid doc)).length := by
          have := congrArg List.length hcolData'
          simp only [List.length_map, List.length_append] at this
          omega
        -- split off: `fi.data.nid` occurs in neither `pre` nor `post`
        have hndflat : ((pre.map ElemData.nid) ++ fi.data.nid ::
            (post.map ElemData.nid)).Nodup := by
          have h0 := hnd
          rw [hsplit] at h0
          simpa using h0
        have hnotin : fi.data.nid ∉ pre.map ElemData.nid ++
            post.map ElemData.nid := by
          have hmid : (fi.data.nid :: (pre.map ElemData.nid ++
              post.map ElemData.nid)).Nodup := List.nodup_middle.mp hndflat
          exact (List.nodup_cons.mp hmid).1
        have hnotpre : fi.data.nid ∉ pre.map ElemData.nid := fun h =>
          hnotin (List.mem_append.mpr (Or.inl h))
        have hnotpost : fi.data.nid ∉ post.map ElemData.nid := fun h =>
          hnotin (List.mem_append.mpr (Or.inr h))
        rw [ih (removeNid fi.data.nid doc) hnd' hlc' hlen']
        rw [htake', hrem, hsplit, htakeSucc]
        simp only [List.filter_append]
        have hmide : List.filter (fun d =>
            !(emptyFooter d && decide (d.nid ∈
              (((collectClass "page-footer-content" doc).take i) ++ [fi]).map
                (fun e => e.data.nid)))) [fi.data] = [] := by
          rw [List.filter_cons]
          have hef : emptyFooter fi.data = true := by
            rw [emptyFooter, hficls]
            simp [hEmp]
          simp [hef]
        rw [hmide]
        have hcongr : ∀ L : List ElemData,
            (∀ d ∈ L, d.nid ≠ fi.data.nid) →
            List.filter (fun d => !(emptyFooter d && decide (d.nid ∈
              (((collectClass "page-footer-content" doc).take i) ++ [fi]).map
                (fun e => e.data.nid)))) L =
            List.filter (fun d => !(emptyFooter d && decide (d.nid ∈
              ((pre.filter (fun x => hasClassToken x.className
                "page-footer-content")).map ElemData.nid)))) L := by
          intro L hL
          apply List.filter_congr
          intro d hd
          have hdne : d.nid ≠ fi.data.nid := hL d hd
          have hiff : (d.nid ∈ (((collectClass "page-footer-content" doc).take i)
              ++ [fi]).map (fun e => e.data.nid)) ↔
              (d.nid ∈ ((pre.filter (fun x => hasClassToken x.className
                "page-footer-content")).map ElemData.nid)) := by
            rw [List.map_append]
            simp only [List.map_cons, List.map_nil, List.mem_append,
              List.mem_singleton, htake]
            constructor
            · rintro (h | h)
              · exact h
              · exact absurd h hdne
            · intro h; exact Or.inl h
          simp only [hiff]
        rw [hcongr pre (fun d hd hv =>
          hnotpre (by rw [← hv]; exact List.mem_map_of_mem _ hd))]
        rw [hcongr post (fun d hd hv =>
          hnotpost (by rw [← hv]; exact List.mem_map_of_mem _ hd))]
        simp
      · rw [if_neg hEmp]
        rw [ih doc hnd hlc (by omega)]
        apply List.filter_congr
        intro d hd
        rw [htakeSucc]
        by_cases hdne : d.nid = fi.data.nid
        · have hdfi : d = fi.data := by
            have hfidmem : fi.data ∈ flattenData doc :=
              (mem_flattenData_of_mem_collect hfimem).1
            exact List.inj_on_of_nodup_map hnd hd hfidmem hdne
          rw [hdfi]
          have hef : emptyFooter fi.data = false := by
            rw [emptyFooter]
            have hb : (jsTrim fi.data.innerHTML == "") = false := by
              rw [beq_eq_false_iff_ne]
              exact hEmp
            simp [hb]
          simp [hef]
        · have hiff : (d.nid ∈ (((collectClass "page-footer-content" doc).take i)
              ++ [fi]).map (fun e => e.data.nid)) ↔
              (d.nid ∈ ((collectClass "page-footer-content" doc).take i).map
                (fun e => e.data.nid)) := by
            rw [List.map_append]
            simp only [List.map_cons, List.map_nil, List.mem_append,
              List.mem_singleton]
            constructor
            · rintro (h | h)
              · exact h
              · exact absurd h hdne
            · intro h; exact Or.inl h
          simp only [hiff]

/-- Claim C6: `removeEmptyFooterTags` removes exactly the
`page-footer-content` elements whose trimmed inner HTML is empty and
retains everything else, whatever the original ordering (the scan itself
walks the live collection in reverse index order). -/
theorem claimC6_theorem (doc : Doc)
    (hnd : ((flattenData doc).map ElemData.nid).Nodup)
    (hlc : leafCoherent doc) :
    flattenData (removeEmptyFooterTags doc) =
      (flattenData doc).filter (fun d => !(emptyFooter d)) := by
  simp only [removeEmptyFooterTags]
  by_cases h : (collectClass "page-footer-content" doc).length > 0
  · rw [if_pos h]
    rw [footerLoop_spec _ doc hnd hlc (Nat.le_refl _)]
    apply List.filter_congr
    intro d hd
    by_cases hef : emptyFooter d = true
    · have hdcls : hasClassToken d.className "page-footer-content" = true := by
        simp only [emptyFooter, Bool.and_eq_true] at hef
        exact hef.1
      have hdmem : d ∈ (collectClass "page-footer-content" doc).map
          Elem.data := by
        rw [collectClass_data]
        exact List.mem_filter.mpr ⟨hd, by simpa using hdcls⟩
      obtain ⟨e, hemem, hedata⟩ := List.mem_map.mp hdmem
      have hnidmem2 : ∃ a ∈ collectClass "page-footer-content" doc,
          a.data.nid = d.nid := ⟨e, hemem, by rw [hedata]⟩
      simp [hef, List.take_length, hnidmem2]
    · have hef' : emptyFooter d = false := by
        cases hv : emptyFooter d
        · rfl
        · exact absurd hv hef
      simp [hef']
  · rw [if_neg h]
    symm
    rw [List.filter_eq_self]
    intro d hd
    have hempty : collectClass "page-footer-content" doc = [] :=
      List.eq_nil_of_length_eq_zero (by omega)
    have hdcls : hasClassToken d.className "page-footer-content" = false := by
      cases hv : hasClassToken d.className "page-footer-content"
      · rfl
      · exfalso
        have : d ∈ (collectClass "page-footer-content" doc).map Elem.data := by
          rw [collectClass_data]
          exact List.mem_filter.mpr ⟨hd, by simpa using hv⟩
        rw [hempty] at this
        simp at this
    simp [emptyFooter, hdcls]

/-- Three footer-content blocks: whitespace only, a real text, and an empty
one. -/
def claimC6wdoc : Doc :=
  [.node { nid := 1, className := "page-footer-content", innerHTML := "  " } [],
   .node { nid := 2, className := "page-footer-content",
           innerHTML := "page 1" } [],
   .node { nid := 3, className := "page-footer-content", innerHTML := "" } []]

theorem claimC6_witness :
    (((flattenData claimC6wdoc).map ElemData.nid).Nodup ∧
      leafCoherent claimC6wdoc) ∧
    flattenData (removeEmptyFooterTags claimC6wdoc) =
      [{ nid := 2, className := "page-footer-content",
         innerHTML := "page 1" }] :=
  ⟨⟨by decide, by unfold leafCoherent; decide⟩, by
    rw [claimC6_theorem claimC6wdoc (by decide) (by unfold leafCoherent; decide)]
    decide⟩

/-!
## Claim C3: behaviour on absent target elements
-/

/-- Counterexample to claim C3 as stated: `toggleButtons` dereferences the
`getElementById` results without a guard, so on a document without the
named buttons it throws a `TypeError` (modelled by `Except.error`) instead
of being a no-op returning `undefined`; `toggleFooter` propagates the
throw. -/
theorem claimC3_counterexample :
    toggleButtons "toggle-footer-on" "toggle-footer-off" true [] =
      .error [] ∧
    toggleFooter [] = .error [] := by
  constructor
  · rfl
  · rfl

/-- Claim C3 (amended): every operation of the page-view controller other
than `toggleButtons` (and the composite toggles built on it) is a no-op,
returning `undefined` where it returns anything, when its target elements
are absent; `toggleButtons` instead throws a `TypeError` when either named
button is missing. -/
theorem claimC3_theorem :
    (∀ doc : Doc, collectClass "cut-guide" doc = [] →
      removeOverlappingCutGuides doc = doc) ∧
    (∀ doc : Doc, collectClass "card-size-cover" doc = [] →
      removeCutGuidesOnCover doc = doc) ∧
    (∀ doc : Doc, collectClass "page-footer-content" doc = [] →
      removeEmptyFooterTags doc = doc) ∧
    (∀ (doc : Doc) (cls : String), collectClass cls doc = [] →
      toggleVisibility cls doc = (doc, none)) ∧
    (∀ (doc : Doc) (cls : String) (isOn : Option Bool),
      collectClass cls doc = [] → toggleDisplay cls isOn doc = (doc, none)) ∧
    (∀ (doc : Doc) (isOn : Bool), getElementById "ui-modal-help" doc = none →
      toggleHelp isOn doc = doc) ∧
    (∀ doc : Doc, collectClass "page" doc = [] →
      getElementById "ui-stats" doc = none → updatePageNumbers doc = doc) ∧
    (∀ doc : Doc, getElementById "ui-toolbar-inner" doc = none →
      disableActionsIfNecessary doc = doc) ∧
    (∀ doc : Doc, getElementById "toggle-card-backs" doc = none →
      getElementById "toggle-two-sided" doc = none →
      determineBacksToggleVisibility doc = doc) ∧
    (∀ doc : Doc, getElementById "toolbar" doc = none → revealUI doc = doc) ∧
    (∀ (doc : Doc) (buttonOn buttonOff : String) (isOn : Bool),
      getElementById buttonOn doc = none →
      toggleButtons buttonOn buttonOff isOn doc = .error doc) ∧
    (∀ doc : Doc, collectClass "page-footer" doc = [] →
      getElementById "toggle-footer-on" doc = none →
      toggleFooter doc = .error doc) := by
  refine ⟨?_, ?_, ?_, ?_, ?_, ?_, ?_, ?_, ?_, ?_, ?_, ?_⟩
  · intro doc h
    simp only [removeOverlappingCutGuides, h]
    rfl
  · intro doc h
    simp only [removeCutGuidesOnCover, h]
    rfl
  · intro doc h
    simp only [removeEmptyFooterTags, h]
    rfl
  · intro doc cls h
    simp only [toggleVisibility, h]
  · intro doc cls isOn h
    simp only [toggleDisplay, h]
  · intro doc isOn h
    simp only [toggleHelp, h]
  · intro doc hp hs
    simp [updatePageNumbers, hp, hs]
  · intro doc h
    simp only [disableActionsIfNecessary, h]
    by_cases hp : (collectClass "page" doc).length = 0 <;> simp [hp]
  · intro doc h1 h2
    simp only [determineBacksToggleVisibility, h1, h2]
    by_cases hb : (collectClass "page-backs" doc).length > 0 <;> simp [hb]
  · intro doc h
    simp only [revealUI, h]
  · intro doc buttonOn buttonOff isOn h
    simp only [toggleButtons, h]
  · intro doc hf hb
    simp only [toggleFooter, toggleVisibility, hf, toggleButtons, hb]

theorem claimC3_witness :
    removeOverlappingCutGuides [] = [] ∧
    removeCutGuidesOnCover [] = [] ∧
    removeEmptyFooterTags [] = [] ∧
    toggleVisibility "page-footer" [] = ([], none) ∧
    toggleDisplay "filler" none [] = ([], none) ∧
    toggleHelp true [] = [] ∧
    updatePageNumbers [] = [] ∧
    disableActionsIfNecessary [] = [] ∧
    determineBacksToggleVisibility [] = [] ∧
    revealUI [] = [] ∧
    toggleButtons "toggle-two-sided-on" "toggle-two-sided-off" false [] =
      .error [] ∧
    toggleFooter [] = .error [] :=
  ⟨claimC3_theorem.1 [] rfl,
   claimC3_theorem.2.1 [] rfl,
   claimC3_theorem.2.2.1 [] rfl,
   claimC3_theorem.2.2.2.1 [] "page-footer" rfl,
   claimC3_theorem.2.2.2.2.1 [] "filler" none rfl,
   claimC3_theorem.2.2.2.2.2.1 [] true rfl,
   claimC3_theorem.2.2.2.2.2.2.1 [] rfl rfl,
   claimC3_theorem.2.2.2.2.2.2.2.1 [] rfl,
   claimC3_theorem.2.2.2.2.2.2.2.2.1 [] rfl rfl,
   claimC3_theorem.2.2.2.2.2.2.2.2.2.1 [] rfl,
   claimC3_theorem.2.2.2.2.2.2.2.2.2.2.1 [] "toggle-two-sided-on"
     "toggle-two-sided-off" false rfl,
   claimC3_theorem.2.2.2.2.2.2.2.2.2.2.2 [] rfl rfl⟩

/-!
## Sequences of `innerHTML` writes

`updatePageNumbers` only ever mutates the document through `setInnerHTML`;
these lemmas describe such write sequences.
-/

/-- Apply a sequence of `innerHTML` writes (`nid`, new content) in order. -/
def writes (ws : List (Nat × String)) (doc : Doc) : Doc :=
  ws.foldl (fun dc p => setInnerHTML p.1 p.2 dc) doc

/-- The same write sequence applied inside a single subtree. -/
def applyWT (ws : List (Nat × String)) (e : Elem) : Elem :=
  ws.foldl (fun acc p =>
    updateDataAtT p.1 (fun d => { d with innerHTML := p.2 }) acc) e

@[simp] theorem writes_nil (doc : Doc) : writes [] doc = doc := rfl

@[simp] theorem writes_cons (p : Nat × String) (ws : List (Nat × String))
    (doc : Doc) :
    writes (p :: ws) doc = writes ws (setInnerHTML p.1 p.2 doc) := rfl

@[simp] theorem applyWT_nil (e : Elem) : applyWT [] e = e := rfl

@[simp] theorem applyWT_cons (p : Nat × String) (ws : List (Nat × String))
    (e : Elem) :
    applyWT (p :: ws) e =
      applyWT ws (updateDataAtT p.1 (fun d => { d with innerHTML := p.2 }) e) :=
  rfl

theorem writes_append (ws1 ws2 : List (Nat × String)) (doc : Doc) :
    writes (ws1 ++ ws2) doc = writes ws2 (writes ws1 doc) := by
  rw [writes, writes, writes, List.foldl_append]

theorem findNid_writes (ws : List (Nat × String)) :
    ∀ (doc : Doc) (m : Nat),
      findNid m (writes ws doc) = (findNid m doc).map (applyWT ws) := by
  induction ws with
  | nil =>
      intro doc m
      rw [writes_nil]
      cases findNid m doc <;> simp
  | cons p ws ih =>
      intro doc m
      rw [writes_cons, ih, setInnerHTML,
        @findNid_updateDataAt (fun d => { d with innerHTML := p.2 })
          (fun d => rfl) p.1 m doc]
      cases findNid m doc with
      | none => simp
      | some e => simp

theorem getElementById_writes (ws : List (Nat × String)) :
    ∀ (doc : Doc) (s : String),
      getElementById s (writes ws doc) =
        (getElementById s doc).map (applyWT ws) := by
  induction ws with
  | nil =>
      intro doc s
      rw [writes_nil]
      cases getElementById s doc <;> simp
  | cons p ws ih =>
      intro doc s
      rw [writes_cons, ih, setInnerHTML,
        @getElementById_updateDataAt (fun d => { d with innerHTML := p.2 })
          (fun d => rfl) p.1 s doc]
      cases getElementById s doc with
      | none => simp
      | some e => simp

theorem collectClass_writes (ws : List (Nat × String)) :
    ∀ (doc : Doc) (cls : String),
      collectClass cls (writes ws doc) =
        (collectClass cls doc).map (applyWT ws) := by
  induction ws with
  | nil =>
      intro doc cls
      rw [writes_nil, show applyWT ([] : List (Nat × String)) = fun e => e
        from rfl, List.map_id']
  | cons p ws ih =>
      intro doc cls
      rw [writes_cons, ih, setInnerHTML,
        @collectClass_updateDataAt (fun d => { d with innerHTML := p.2 })
          (fun d => rfl) p.1 cls doc]
      rw [List.map_map]
      rfl

/-- Everything but the `innerHTML` of a data record. -/
def skel (d : ElemData) : ElemData := { d with innerHTML := "" }

theorem skel_applyWT (ws : List (Nat × String)) :
    ∀ e : Elem, skel (applyWT ws e).data = skel e.data := by
  induction ws with
  | nil => intro e; rfl
  | cons p ws ih =>
      intro e
      rw [applyWT_cons, ih]
      by_cases h : e.data.nid = p.1 <;> simp [skel, h]

theorem skel_eq_parts {d d' : ElemData} (h : skel d = skel d') :
    d.nid = d'.nid ∧ d.idAttr = d'.idAttr ∧ d.className = d'.className ∧
      d.style = d'.style ∧ d.rect = d'.rect := by
  obtain ⟨n, i, c, st, ih, r⟩ := d
  obtain ⟨n', i', c', st', ih', r'⟩ := d'
  simp [skel] at h
  exact ⟨h.1, h.2.1, h.2.2.1, h.2.2.2.1, h.2.2.2.2⟩

theorem skel_rebuild {d d' : ElemData} (h : skel d = skel d') :
    d = { d' with innerHTML := d.innerHTML } := by
  obtain ⟨n, i, c, st, ih, r⟩ := d
  obtain ⟨n', i', c', st', ih', r'⟩ := d'
  simp [skel] at h
  simp [h.1, h.2.1, h.2.2.1, h.2.2.2.1, h.2.2.2.2]

theorem skel_set_innerHTML {d d' : ElemData} (h : skel d = skel d')
    (s : String) :
    ({ d with innerHTML := s } : ElemData) = { d' with innerHTML := s } := by
  obtain ⟨n, i, c, st, ih, r⟩ := d
  obtain ⟨n', i', c', st', ih', r'⟩ := d'
  simp [skel] at h
  simp [h.1, h.2.1, h.2.2.1, h.2.2.2.1, h.2.2.2.2]

theorem byClass_applyWT (ws : List (Nat × String)) :
    ∀ (e : Elem) (cls : String),
      (applyWT ws e).byClass cls = (e.byClass cls).map (applyWT ws) := by
  induction ws with
  | nil =>
      intro e cls
      rw [applyWT_nil, show applyWT ([] : List (Nat × String)) = fun e => e
        from rfl, List.map_id']
  | cons p ws ih =>
      intro e cls
      rw [applyWT_cons, ih]
      rw [Elem.byClass, updateDataAtT_children,
        @collectClass_updateDataAt (fun d => { d with innerHTML := p.2 })
          (fun d => rfl) p.1 cls e.children]
      rw [List.map_map]
      rfl

/-- Reading a nid after a write sequence: a final write at that nid wins. -/
theorem dataOfNid_writes_last (ws : List (Nat × String)) (m : Nat) (s : String)
    (doc : Doc) :
    dataOfNid m (writes (ws ++ [(m, s)]) doc) =
      (dataOfNid m doc).map (fun d => { d with innerHTML := s }) := by
  rw [writes_append]
  rw [show writes [(m, s)] (writes ws doc) =
    setInnerHTML m s (writes ws doc) from rfl]
  rw [setInnerHTML,
    @dataOfNid_updateDataAt (fun d => { d with innerHTML := s })
      (fun d => rfl) m m (writes ws doc)]
  rw [dataOfNid, findNid_writes, dataOfNid]
  cases hf : findNid m doc with
  | none => simp
  | some e =>
      have hnid : (applyWT ws e).data.nid = m := by
        have hparts := skel_eq_parts (skel_applyWT ws e)
        rw [hparts.1]
        exact findNid_nid hf
      simp only [Option.map_some', Option.map_map, Function.comp]
      rw [if_pos hnid, skel_set_innerHTML (skel_applyWT ws e) s]

/-- Reading a nid never written to. -/
theorem dataOfNid_writes_not_mem (ws : List (Nat × String)) (m : Nat)
    (doc : Doc) (h : m ∉ ws.map Prod.fst) :
    dataOfNid m (writes ws doc) = dataOfNid m doc := by
  induction ws generalizing doc with
  | nil => rfl
  | cons p ws ih =>
      simp only [List.map_cons, List.mem_cons, not_or] at h
      rw [writes_cons, ih _ h.2, setInnerHTML,
        @dataOfNid_updateDataAt (fun d => { d with innerHTML := p.2 })
          (fun d => rfl) p.1 m doc]
      cases hf : dataOfNid m doc with
      | none => simp
      | some d =>
          have hdm : d.nid = m := dataOfNid_some_nid hf
          simp [hdm, h.1]

/-- Reading a nid written exactly once. -/
theorem dataOfNid_writes_once (ws : List (Nat × String)) (m : Nat) (s : String)
    (doc : Doc) (hmem : (m, s) ∈ ws) (hnd : (ws.map Prod.fst).Nodup) :
    dataOfNid m (writes ws doc) =
      (dataOfNid m doc).map (fun d => { d with innerHTML := s }) := by
  induction ws generalizing doc with
  | nil => simp at hmem
  | cons p ws ih =>
      simp only [List.map_cons, List.nodup_cons] at hnd
      rcases List.mem_cons.mp hmem with hp | hrest
      · have hp1 : p.1 = m := by rw [← hp]
        have hp2 : p.2 = s := by rw [← hp]
        have hnotin : m ∉ ws.map Prod.fst := by
          rw [← hp1]
          exact hnd.1
        rw [writes_cons, dataOfNid_writes_not_mem ws m _ hnotin]
        rw [setInnerHTML,
          @dataOfNid_updateDataAt (fun d => { d with innerHTML := p.2 })
            (fun d => rfl) p.1 m doc]
        cases hf : dataOfNid m doc with
        | none => simp
        | some d =>
            have hdm : d.nid = m := dataOfNid_some_nid hf
            simp [hdm, hp1, hp2]
      · rw [writes_cons, ih _ hrest hnd.2]
        rw [setInnerHTML,
          @dataOfNid_updateDataAt (fun d => { d with innerHTML := p.2 })
            (fun d => rfl) p.1 m doc]
        have hmne : m ≠ p.1 := by
          intro hv
          exact hnd.1 (hv ▸ List.mem_map_of_mem Prod.fst hrest)
        cases hf : dataOfNid m doc with
        | none => simp
        | some d =>
            have hdm : d.nid = m := dataOfNid_some_nid hf
            simp [hdm, hmne]

/-!
## Characterising `updatePageNumbers`
-/

/-- The pages with `display != 'none'`, in document order. -/
def visiblePages (doc : Doc) : List Elem :=
  (collectClass "page" doc).filter (fun p => p.data.style.display ≠ "none")

/-- The card-count contribution of one visible page, as computed by the
loop body of `updatePageNumbers` over the original document. -/
def pageContribution (v : Elem) : Int :=
  if !(elementHasClass (some v.data) "page-backs") then
    if (v.byClass "card").length > 0 then
      ((v.byClass "card").length : Int) - ((v.byClass "card-size-cover").length : Int)
    else 0
  else 0

def contribSum : List Elem → Int
  | [] => 0
  | v :: vs => pageContribution v + contribSum vs

/-- The card count actually accumulated by `updatePageNumbers`: visible
non-`page-backs` pages contribute `cards - covers`, but only when they have
at least one `card` element. -/
def codeCardCount (doc : Doc) : Int := contribSum (visiblePages doc)

def visiblePageCount (doc : Doc) : Nat := (visiblePages doc).length

/-- The string written into the stats element. -/
def statsString (doc : Doc) : String :=
  (toString (codeCardCount doc) ++ " cards") ++ "<br />" ++
    (toString (visiblePageCount doc) ++ " pages")

/-- The page-number writes performed by the loop. -/
def tagWrites (total : Nat) : Nat → List Elem → List (Nat × String)
  | _, [] => []
  | k, v :: vs =>
      (match v.byClass "page-number-tag" with
       | [] => []
       | t :: _ =>
           [(t.data.nid, "Page " ++ toString (k + 1) ++ " / " ++
             toString total)]) ++ tagWrites total (k + 1) vs

/-- All the writes performed by `updatePageNumbers`. -/
def pageWrites (doc : Doc) : List (Nat × String) :=
  tagWrites (visiblePages doc).length 0 (visiblePages doc) ++
    (match getElementById "ui-stats" doc with
     | some s => [(s.data.nid, statsString doc)]
     | none => [])

theorem elementHasClass_skel {d d' : ElemData} (h : skel d = skel d')
    (cls : String) :
    elementHasClass (some d) cls = elementHasClass (some d') cls := by
  have hp := skel_eq_parts h
  simp only [elementHasClass, hp.2.2.1]

theorem pageLoop_spec (total : Nat) (doc : Doc) :
    ∀ (vs : List Elem) (k : Nat) (count : Int) (ws : List (Nat × String)),
      (∀ v ∈ vs, findNid v.data.nid doc = some v) →
      (((vs.map (fun p => p.data.nid)).enumFrom k).foldl
        (updatePageNumbersVisit total) (count, writes ws doc)) =
      (count + contribSum vs, writes (ws ++ tagWrites total k vs) doc) := by
  intro vs
  induction vs with
  | nil =>
      intro k count ws hv
      simp [contribSum, tagWrites]
  | cons v vs ih =>
      intro k count ws hv
      have hvfind : findNid v.data.nid doc = some v :=
        hv v (List.mem_cons_self _ _)
      simp only [List.map_cons, List.enumFrom_cons, List.foldl_cons]
      have hstep : updatePageNumbersVisit total (count, writes ws doc)
          (k, v.data.nid) =
          (count + pageContribution v,
            writes (ws ++ (match v.byClass "page-number-tag" with
              | [] => []
              | t :: _ => [(t.data.nid, "Page " ++ toString (k + 1) ++ " / " ++
                  toString total)])) doc) := by
        rw [updatePageNumbersVisit]
        dsimp only
        rw [findNid_writes, hvfind]
        dsimp only [Option.map_some']
        have hskel := skel_applyWT ws v
        have hcls := elementHasClass_skel hskel "page-backs"
        have hcards : ((applyWT ws v).byClass "card").length =
            (v.byClass "card").length := by
          rw [byClass_applyWT, List.length_map]
        have hcovers : ((applyWT ws v).byClass "card-size-cover").length =
            (v.byClass "card-size-cover").length := by
          rw [byClass_applyWT, List.length_map]
        have htags : (applyWT ws v).byClass "page-number-tag" =
            (v.byClass "page-number-tag").map (applyWT ws) :=
          byClass_applyWT ws v _
        rw [hcls, hcards, hcovers, htags]
        have hcount : (if !(elementHasClass (some v.data) "page-backs") then
            if (v.byClass "card").length > 0 then
              count + ((v.byClass "card").length : Int) -
                ((v.byClass "card-size-cover").length : Int)
            else count
          else count) = count + pageContribution v := by
          rw [pageContribution]
          by_cases h1 : elementHasClass (some v.data) "page-backs"
          · simp [h1]
          · simp only [h1, Bool.not_false, if_true]
            by_cases h2 : (v.byClass "card").length > 0
            · simp only [h2, if_true]
              omega
            · simp [h2]
        rw [hcount]
        cases htag : v.byClass "page-number-tag" with
        | nil => simp [writes_append]
        | cons t ts =>
            simp only [List.map_cons]
            have htnid : (applyWT ws t).data.nid = t.data.nid :=
              (skel_eq_parts (skel_applyWT ws t)).1
            rw [htnid]
            rw [writes_append]
            rfl
      rw [hstep]
      rw [ih (k + 1) (count + pageContribution v)
        (ws ++ (match v.byClass "page-number-tag" with
          | [] => []
          | t :: _ => [(t.data.nid, "Page " ++ toString (k + 1) ++ " / " ++
              toString total)]))
        (fun v' hv' => hv v' (List.mem_cons_of_mem _ hv'))]
      rw [contribSum]
      rw [tagWrites]
      rw [List.append_assoc, Int.add_assoc]

theorem getElementById_mem_flattenData {s : String} {doc : Doc} {e : Elem}
    (h : getElementById s doc = some e) :
    e.data ∈ flattenData doc ∧ e.data.idAttr = some s := by
  have hmap : (getElementById s doc).map Elem.data =
      (flattenData doc).find? (fun d => d.idAttr = some s) :=
    getElementById_data s doc
  rw [h] at hmap
  constructor
  · exact List.mem_of_find?_eq_some hmap.symm
  · have := List.find?_some hmap.symm
    simpa using this

theorem findNid_of_getElementById {s : String} :
    ∀ {doc : Doc}, ((flattenData doc).map ElemData.nid).Nodup →
      ∀ {e : Elem}, getElementById s doc = some e →
        findNid e.data.nid doc = some e := by
  intro doc
  induction doc using forestInd with
  | h0 => simp
  | h1 d cs es ihc ihe =>
      intro hnd e he
      simp only [flattenData_cons, List.map_cons, List.map_append,
        List.nodup_cons, List.nodup_append] at hnd
      obtain ⟨hd1, hcs, hes, hdisj⟩ := hnd
      rw [getElementById_cons] at he
      by_cases hid : d.idAttr = some s
      · rw [if_pos hid] at he
        cases he
        rw [findNid_cons]
        simp
      · rw [if_neg hid] at he
        cases hc : getElementById s cs with
        | some e' =>
            rw [hc] at he
            cases he
            have hmem := getElementById_mem_flattenData hc
            have hne : d.nid ≠ e.data.nid := by
              intro hv
              refine hd1 (List.mem_append.mpr (Or.inl ?_))
              rw [hv]
              exact List.mem_map.mpr ⟨e.data, hmem.1, rfl⟩
            rw [findNid_cons, if_neg hne, ihc hcs hc]
        | none =>
            rw [hc] at he
            have hmem := getElementById_mem_flattenData he
            have hne : d.nid ≠ e.data.nid := by
              intro hv
              refine hd1 (List.mem_append.mpr (Or.inr ?_))
              rw [hv]
              exact List.mem_map.mpr ⟨e.data, hmem.1, rfl⟩
            have hnone : findNid e.data.nid cs = none := by
              rw [findNid_eq_none_iff]
              intro hin
              exact hdisj hin (List.mem_map.mpr ⟨e.data, hmem.1, rfl⟩)
            rw [findNid_cons, if_neg hne, hnone, ihe hes he]

/-- `updatePageNumbers` is exactly the sequence of `innerHTML` writes
`pageWrites`: the page-number strings of the visible pages' first number
tags, followed by the stats string. -/
theorem updatePageNumbers_eq_writes (doc : Doc)
    (hnd : ((flattenData doc).map ElemData.nid).Nodup) :
    updatePageNumbers doc = writes (pageWrites doc) doc := by
  have hvfind : ∀ v ∈ visiblePages doc, findNid v.data.nid doc = some v := by
    intro v hvmem
    exact findNid_of_collect hnd (List.mem_of_mem_filter hvmem)
  have hcore : (if (collectClass "page" doc).length > 0 then
      if ((collectClass "page" doc).filter
          (fun p => p.data.style.display ≠ "none")).length > 0 then
        match (((((collectClass "page" doc).filter
              (fun p => p.data.style.display ≠ "none")).map
                (fun p => p.data.nid))).enum).foldl
            (updatePageNumbersVisit ((collectClass "page" doc).filter
              (fun p => p.data.style.display ≠ "none")).length)
            ((0 : Int), doc) with
        | (c, d) => (c, ((collectClass "page" doc).filter
            (fun p => p.data.style.display ≠ "none")).length, d)
      else ((0 : Int), 0, doc)
    else ((0 : Int), 0, doc)) =
      (codeCardCount doc, visiblePageCount doc,
        writes (tagWrites (visiblePageCount doc) 0 (visiblePages doc)) doc) := by
    by_cases hp : (collectClass "page" doc).length > 0
    · rw [if_pos hp]
      by_cases hvz : ((collectClass "page" doc).filter
          (fun p => p.data.style.display ≠ "none")).length > 0
      · rw [if_pos hvz]
        have henum : (((((collectClass "page" doc).filter
            (fun p => p.data.style.display ≠ "none")).map
              (fun p => p.data.nid))).enum) =
            (((visiblePages doc).map (fun p => p.data.nid)).enumFrom 0) := rfl
        rw [henum]
        have hfold := pageLoop_spec ((collectClass "page" doc).filter
          (fun p => p.data.style.display ≠ "none")).length doc
          (visiblePages doc) 0 0 [] hvfind
        rw [writes_nil] at hfold
        rw [hfold]
        rw [List.nil_append, Int.zero_add]
        rfl
      · rw [if_neg hvz]
        have hve : visiblePages doc = [] := by
          rw [visiblePages]
          exact List.eq_nil_of_length_eq_zero (by omega)
        rw [codeCardCount, visiblePageCount, hve]
        rfl
    · rw [if_neg hp]
      have hpe : collectClass "page" doc = [] :=
        List.eq_nil_of_length_eq_zero (by omega)
      have hve : visiblePages doc = [] := by
        rw [visiblePages, hpe]
        rfl
      rw [codeCardCount, visiblePageCount, hve]
      rfl
  simp only [updatePageNumbers]
  rw [hcore]
  rw [getElementById_writes]
  rw [pageWrites]
  cases hst : getElementById "ui-stats" doc with
  | none =>
      simp only [Option.map_none']
      rw [List.append_nil]
      rfl
  | some s =>
      simp only [Option.map_some']
      have hsnid : (applyWT (tagWrites (visiblePageCount doc) 0
          (visiblePages doc)) s).data.nid = s.data.nid :=
        (skel_eq_parts (skel_applyWT _ s)).1
      rw [hsnid]
      rw [writes_append]
      rfl

/-!
## Claim C2: the stats string
-/

/-- Modelled from the claim's words: "C = (sum of card elements on
non-page-backs pages) minus (number of card-size-cover elements on those
pages)" — with no visibility restriction and no per-page guard. -/
def claimedCardCount (doc : Doc) : Int :=
  ((collectClass "page" doc).filter
    (fun p => !(elementHasClass (some p.data) "page-backs"))).foldl
    (fun acc p => acc + ((p.byClass "card").length : Int) -
      ((p.byClass "card-size-cover").length : Int)) 0

/-- A visible page with no cards, a hidden (`display:none`) page holding
one card, and a stats element. -/
def claimC2doc : Doc :=
  [.node { nid := 1, className := "page" } [],
   .node { nid := 2, className := "page", style := { display := "none" } }
     [.node { nid := 3, className := "card" } []],
   .node { nid := 99, idAttr := some "ui-stats" } []]

/-- Counterexample to claim C2 as stated: the claim's formula counts the
card on the hidden page (C = 1), but `updatePageNumbers` only counts cards
on *visible* non-backs pages and writes `0 cards<br />1 pages`. -/
theorem claimC2_counterexample :
    (dataOfNid 99 (updatePageNumbers claimC2doc)).map (fun d => d.innerHTML)
      = some "0 cards<br />1 pages" ∧
    toString (claimedCardCount claimC2doc) ++ " cards<br />" ++
      toString (visiblePageCount claimC2doc) ++ " pages"
      = "1 cards<br />1 pages" := by
  decide

/-- Claim C2 (amended): after `updatePageNumbers`, the stats element (when
it exists) contains exactly the string `{C} cards<br />{P} pages`, where
`P` is the number of `page` elements with `display != 'none'` and `C` sums,
over the *visible* non-`page-backs` pages only, the number of `card`
descendants minus the number of `card-size-cover` descendants — the
subtraction being skipped on pages with no `card` descendants at all
(`codeCardCount`). -/
theorem claimC2_theorem (doc : Doc)
    (hnd : ((flattenData doc).map ElemData.nid).Nodup)
    (stats : Elem) (hstats : getElementById "ui-stats" doc = some stats) :
    dataOfNid stats.data.nid (updatePageNumbers doc) =
      some { stats.data with innerHTML := statsString doc } := by
  rw [updatePageNumbers_eq_writes doc hnd]
  rw [pageWrites, hstats]
  rw [dataOfNid_writes_last]
  have hfind : findNid stats.data.nid doc = some stats :=
    findNid_of_getElementById hnd hstats
  rw [dataOfNid, hfind]
  rfl

/-- Two visible non-backs pages with 2 and 1 cards (one card a cover), a
visible backs page with a card, and the stats element. -/
def claimC2wdoc : Doc :=
  [.node { nid := 1, className := "page" }
     [.node { nid := 2, className := "card" } [],
      .node { nid := 3, className := "card card-size-cover" } []],
   .node { nid := 4, className := "page" }
     [.node { nid := 5, className := "card" } []],
   .node { nid := 6, className := "page page-backs" }
     [.node { nid := 7, className := "card" } []],
   .node { nid := 8, idAttr := some "ui-stats" } []]

theorem claimC2_witness :
    (((flattenData claimC2wdoc).map ElemData.nid).Nodup ∧
      getElementById "ui-stats" claimC2wdoc =
        some (.node { nid := 8, idAttr := some "ui-stats" } [])) ∧
    dataOfNid 8 (updatePageNumbers claimC2wdoc) =
      some { nid := 8, idAttr := some "ui-stats",
             innerHTML := "2 cards<br />3 pages" } :=
  ⟨⟨by decide, by decide⟩, by
    have h := claimC2_theorem claimC2wdoc (by decide)
      (.node { nid := 8, idAttr := some "ui-stats" } []) (by decide)
    exact h⟩

/-!
## Claim C5: page numbering on 3 visible + 1 hidden pages
-/

theorem tagWrites_eq (total k : Nat) (v : Elem) (vs : List Elem) :
    tagWrites total k (v :: vs) =
      (match v.byClass "page-number-tag" with
       | [] => []
       | t :: _ => [(t.data.nid, "Page " ++ toString (k + 1) ++ " / " ++
           toString total)]) ++ tagWrites total (k + 1) vs := rfl

/-- Claim C5: on a document whose visible pages (display not `none`) are
`p1, p2, p3` in DOM order, with one further hidden page `ph`,
`updatePageNumbers` writes `Page 1 / 3`, `Page 2 / 3`, `Page 3 / 3` into the
first `page-number-tag` of the respective visible page, and a tag of the
hidden page keeps its record untouched.  Sanity hypotheses: node identities
are unique, the written tags are pairwise distinct, and the hidden page's
tag is not among the written targets. -/
theorem claimC5_theorem (doc : Doc)
    (hnd : ((flattenData doc).map ElemData.nid).Nodup)
    (p1 p2 p3 ph : Elem)
    (hvis : visiblePages doc = [p1, p2, p3])
    (hph : ph ∈ collectClass "page" doc)
    (hphHidden : ph.data.style.display = "none")
    (t1 t2 t3 th : Elem) (r1 r2 r3 : List Elem)
    (ht1 : p1.byClass "page-number-tag" = t1 :: r1)
    (ht2 : p2.byClass "page-number-tag" = t2 :: r2)
    (ht3 : p3.byClass "page-number-tag" = t3 :: r3)
    (hth : th ∈ ph.byClass "page-number-tag")
    (hwnd : ((pageWrites doc).map Prod.fst).Nodup)
    (hthNot : th.data.nid ∉ (pageWrites doc).map Prod.fst) :
    dataOfNid t1.data.nid (updatePageNumbers doc) =
      (dataOfNid t1.data.nid doc).map
        (fun d => { d with innerHTML := "Page 1 / 3" }) ∧
    dataOfNid t2.data.nid (updatePageNumbers doc) =
      (dataOfNid t2.data.nid doc).map
        (fun d => { d with innerHTML := "Page 2 / 3" }) ∧
    dataOfNid t3.data.nid (updatePageNumbers doc) =
      (dataOfNid t3.data.nid doc).map
        (fun d => { d with innerHTML := "Page 3 / 3" }) ∧
    dataOfNid th.data.nid (updatePageNumbers doc) =
      dataOfNid th.data.nid doc := by
  have hpw : pageWrites doc =
      [(t1.data.nid, "Page 1 / 3"), (t2.data.nid, "Page 2 / 3"),
       (t3.data.nid, "Page 3 / 3")] ++
      (match getElementById "ui-stats" doc with
       | some s => [(s.data.nid, statsString doc)]
       | none => []) := by
    rw [pageWrites, hvis]
    rw [show ([p1, p2, p3] : List Elem).length = 3 from rfl]
    rw [tagWrites_eq, ht1, tagWrites_eq, ht2, tagWrites_eq, ht3]
    rfl
  rw [updatePageNumbers_eq_writes doc hnd]
  refine ⟨?_, ?_, ?_, ?_⟩
  · exact dataOfNid_writes_once (pageWrites doc) t1.data.nid "Page 1 / 3" doc
      (by rw [hpw]; simp) hwnd
  · exact dataOfNid_writes_once (pageWrites doc) t2.data.nid "Page 2 / 3" doc
      (by rw [hpw]; simp) hwnd
  · exact dataOfNid_writes_once (pageWrites doc) t3.data.nid "Page 3 / 3" doc
      (by rw [hpw]; simp) hwnd
  · exact dataOfNid_writes_not_mem (pageWrites doc) th.data.nid doc hthNot

/-- A page-number tag element. -/
def c5t (tn : Nat) : Elem :=
  .node { nid := tn, className := "page-number-tag" } []

/-- A page holding a single page-number tag. -/
def c5p (n tn : Nat) (dsp : String) : Elem :=
  .node { nid := n, className := "page", style := { display := dsp } }
    [c5t tn]

def claimC5wdoc : Doc :=
  [c5p 1 11 "", c5p 2 12 "", c5p 3 13 "", c5p 4 14 "none"]

theorem claimC5_witness :
    dataOfNid 11 (updatePageNumbers claimC5wdoc) =
      (dataOfNid 11 claimC5wdoc).map
        (fun d => { d with innerHTML := "Page 1 / 3" }) ∧
    dataOfNid 12 (updatePageNumbers claimC5wdoc) =
      (dataOfNid 12 claimC5wdoc).map
        (fun d => { d with innerHTML := "Page 2 / 3" }) ∧
    dataOfNid 13 (updatePageNumbers claimC5wdoc) =
      (dataOfNid 13 claimC5wdoc).map
        (fun d => { d with innerHTML := "Page 3 / 3" }) ∧
    dataOfNid 14 (updatePageNumbers claimC5wdoc) =
      dataOfNid 14 claimC5wdoc := by
  exact claimC5_theorem claimC5wdoc (by decide)
    (c5p 1 11 "") (c5p 2 12 "") (c5p 3 13 "") (c5p 4 14 "none")
    (by decide) (by decide) (by decide)
    (c5t 11) (c5t 12) (c5t 13) (c5t 14) [] [] []
    (by decide) (by decide) (by decide) (by decide) (by decide) (by decide)

/-!
## Claim C4 toolkit: nid-stable views of the toggle pipeline

Every mutation of the script either rewrites element records in place
(`updateDataAt` folds, which keep `nid`, `idAttr` and `className`) or
rewrites `innerHTML` only (`writes`).  `nidStable doc doc'` captures what
such steps preserve: the traversal's nid sequence, id lookups up to nid,
and class collections up to nid.
-/

def nidStable (doc doc' : Doc) : Prop :=
  (flattenData doc').map ElemData.nid = (flattenData doc).map ElemData.nid ∧
  (∀ s, (getElementById s doc').map (fun e => e.data.nid) =
        (getElementById s doc).map (fun e => e.data.nid)) ∧
  (∀ cls, (collectClass cls doc').map (fun e => e.data.nid) =
        (collectClass cls doc).map (fun e => e.data.nid))

theorem nidStable_refl (doc : Doc) : nidStable doc doc :=
  ⟨rfl, fun _ => rfl, fun _ => rfl⟩

theorem nidStable_trans {a b c : Doc} (h1 : nidStable a b)
    (h2 : nidStable b c) : nidStable a c :=
  ⟨h2.1.trans h1.1, fun s => (h2.2.1 s).trans (h1.2.1 s),
    fun cls => (h2.2.2 cls).trans (h1.2.2 cls)⟩

theorem flattenNids_updateDataAt {f : ElemData → ElemData}
    (hn : ∀ d, (f d).nid = d.nid) (n : Nat) (doc : Doc) :
    (flattenData (updateDataAt n f doc)).map ElemData.nid =
      (flattenData doc).map ElemData.nid := by
  rw [flattenData_updateDataAt, List.map_map]
  congr 1
  funext d
  by_cases h : d.nid = n <;> simp [h, hn]

theorem nidStable_updateDataAt {f : ElemData → ElemData}
    (hn : ∀ d, (f d).nid = d.nid) (hi : ∀ d, (f d).idAttr = d.idAttr)
    (hcn : ∀ d, (f d).className = d.className) (n : Nat) (doc : Doc) :
    nidStable doc (updateDataAt n f doc) := by
  refine ⟨flattenNids_updateDataAt hn n doc, ?_, ?_⟩
  · intro s
    rw [getElementById_updateDataAt hi]
    cases getElementById s doc with
    | none => rfl
    | some e =>
        simp only [Option.map_some', updateDataAtT_data]
        by_cases h : e.data.nid = n <;> simp [h, hn]
  · intro cls
    rw [collectClass_updateDataAt hcn, List.map_map]
    congr 1
    funext e
    simp only [Function.comp_apply, updateDataAtT_data]
    by_cases h : e.data.nid = n <;> simp [h, hn]

theorem nidStable_foldUpdate {f : ElemData → ElemData}
    (hn : ∀ d, (f d).nid = d.nid) (hi : ∀ d, (f d).idAttr = d.idAttr)
    (hcn : ∀ d, (f d).className = d.className) :
    ∀ (L : List Nat) (doc : Doc), nidStable doc (foldUpdate f L doc) := by
  intro L
  induction L with
  | nil => intro doc; exact nidStable_refl doc
  | cons n L ih =>
      intro doc
      rw [foldUpdate_cons]
      exact nidStable_trans (nidStable_updateDataAt hn hi hcn n doc) (ih _)

theorem applyWT_data_nid (ws : List (Nat × String)) (e : Elem) :
    (applyWT ws e).data.nid = e.data.nid :=
  (skel_eq_parts (skel_applyWT ws e)).1

theorem flattenNids_writes (ws : List (Nat × String)) :
    ∀ doc : Doc, (flattenData (writes ws doc)).map ElemData.nid =
      (flattenData doc).map ElemData.nid := by
  induction ws with
  | nil => intro doc; rfl
  | cons p ws ih =>
      intro doc
      rw [writes_cons, ih, setInnerHTML, flattenData_updateDataAt, List.map_map]
      congr 1
      funext d
      by_cases h : d.nid = p.1 <;> simp [h]

theorem nidStable_writes (ws : List (Nat × String)) (doc : Doc) :
    nidStable doc (writes ws doc) := by
  refine ⟨flattenNids_writes ws doc, ?_, ?_⟩
  · intro s
    rw [getElementById_writes]
    cases getElementById s doc with
    | none => rfl
    | some e => simp [applyWT_data_nid]
  · intro cls
    rw [collectClass_writes, List.map_map]
    congr 1
    funext e
    simp [applyWT_data_nid]

theorem nidStable_updatePageNumbers (doc : Doc)
    (hnd : ((flattenData doc).map ElemData.nid).Nodup) :
    nidStable doc (updatePageNumbers doc) := by
  rw [updatePageNumbers_eq_writes doc hnd]
  exact nidStable_writes _ doc

theorem dataOfNid_style_writes (ws : List (Nat × String)) (m : Nat)
    (doc : Doc) :
    (dataOfNid m (writes ws doc)).map ElemData.style =
      (dataOfNid m doc).map ElemData.style := by
  rw [dataOfNid, dataOfNid, findNid_writes, Option.map_map, Option.map_map]
  cases findNid m doc with
  | none => rfl
  | some e =>
      simp only [Option.map_some', Function.comp_apply]
      exact congrArg some (skel_eq_parts (skel_applyWT ws e)).2.2.2.1

theorem dataOfNid_style_updatePageNumbers (doc : Doc)
    (hnd : ((flattenData doc).map ElemData.nid).Nodup) (m : Nat) :
    (dataOfNid m (updatePageNumbers doc)).map ElemData.style =
      (dataOfNid m doc).map ElemData.style := by
  rw [updatePageNumbers_eq_writes doc hnd]
  exact dataOfNid_style_writes _ m doc

theorem map_display_of_map_style {X Y : Option ElemData}
    (h : X.map ElemData.style = Y.map ElemData.style) :
    X.map (fun d => d.style.display) = Y.map (fun d => d.style.display) := by
  cases X with
  | none =>
      cases Y with
      | none => rfl
      | some d => simp at h
  | some d =>
      cases Y with
      | none => simp at h
      | some d' =>
          simp only [Option.map_some', Option.some.injEq] at h ⊢
          rw [h]

theorem map_enab_of_map_style {X Y : Option ElemData}
    (h : X.map ElemData.style = Y.map ElemData.style) :
    X.map (fun d => (d.style.opacity, d.style.pointerEvents)) =
      Y.map (fun d => (d.style.opacity, d.style.pointerEvents)) := by
  cases X with
  | none =>
      cases Y with
      | none => rfl
      | some d => simp at h
  | some d =>
      cases Y with
      | none => simp at h
      | some d' =>
          simp only [Option.map_some', Option.some.injEq] at h ⊢
          rw [h]

theorem dataOfNid_updateDataAt_ne {f : ElemData → ElemData}
    (hn : ∀ d, (f d).nid = d.nid) (n m : Nat) (hne : m ≠ n) (doc : Doc) :
    dataOfNid m (updateDataAt n f doc) = dataOfNid m doc := by
  rw [dataOfNid_updateDataAt hn]
  cases hx : dataOfNid m doc with
  | none => rfl
  | some d =>
      have hdm := dataOfNid_some_nid hx
      simp [hdm, hne]

theorem dataOfNid_display_updateDataAt {f : ElemData → ElemData}
    (hn : ∀ d, (f d).nid = d.nid)
    (hg : ∀ d, (f d).style.display = d.style.display) (n m : Nat)
    (doc : Doc) :
    (dataOfNid m (updateDataAt n f doc)).map (fun d => d.style.display) =
      (dataOfNid m doc).map (fun d => d.style.display) := by
  rw [dataOfNid_updateDataAt hn]
  cases dataOfNid m doc with
  | none => rfl
  | some d => by_cases h : d.nid = n <;> simp [h, hg]

theorem dataOfNid_isSome_of_mem {m : Nat} {doc : Doc}
    (h : m ∈ (flattenData doc).map ElemData.nid) :
    ∃ d, dataOfNid m doc = some d := by
  obtain ⟨d0, hd0, hnid⟩ := List.mem_map.mp h
  cases hf : dataOfNid m doc with
  | some d => exact ⟨d, rfl⟩
  | none =>
      rw [dataOfNid_find?] at hf
      rw [List.find?_eq_none] at hf
      exact absurd (by simpa using hnid) (by simpa using hf d0 hd0)

theorem getId_stable {doc doc' : Doc} (h : nidStable doc doc') {s : String}
    {u : Elem} (hu : getElementById s doc = some u) :
    ∃ v, getElementById s doc' = some v ∧ v.data.nid = u.data.nid := by
  have hm := h.2.1 s
  rw [hu] at hm
  cases hx : getElementById s doc' with
  | none => rw [hx] at hm; simp at hm
  | some v =>
      rw [hx] at hm
      simp only [Option.map_some', Option.some.injEq] at hm
      exact ⟨v, rfl, hm⟩

/-- The per-element update performed by `toggleDisplay` (with or without
the explicit second argument). -/
def dispFun (isOn : Option Bool) (d : ElemData) : ElemData :=
  { d with style := { d.style with display :=
      match isOn with
      | some b => if b then "block" else "none"
      | none =>
          if d.style.display = "" || d.style.display = "block" then "none"
          else "block" } }

theorem toggleDisplayStep_eq (isOn : Option Bool) (doc : Doc) (n : Nat) :
    toggleDisplayStep isOn doc n = updateDataAt n (dispFun isOn) doc := rfl

theorem toggleDisplay_empty {cls : String} {doc : Doc}
    (h : collectClass cls doc = []) (isOn : Option Bool) :
    toggleDisplay cls isOn doc = (doc, none) := by
  rw [toggleDisplay, h]

theorem toggleDisplay_fst (cls : String) (isOn : Option Bool) {doc : Doc}
    (h : collectClass cls doc ≠ []) :
    (toggleDisplay cls isOn doc).1 =
      foldUpdate (dispFun isOn)
        ((collectClass cls doc).map (fun e => e.data.nid)) doc := by
  obtain ⟨e0, rest, hE⟩ := List.exists_cons_of_ne_nil h
  rw [toggleDisplay, hE]
  simp only [foldUpdate, List.foldl_map]
  rfl

theorem nidStable_toggleDisplay (cls : String) (isOn : Option Bool)
    (doc : Doc) : nidStable doc (toggleDisplay cls isOn doc).1 := by
  cases hC : collectClass cls doc with
  | nil =>
      rw [toggleDisplay_empty hC]
      exact nidStable_refl doc
  | cons e0 rest =>
      rw [toggleDisplay_fst cls isOn (by simp [hC])]
      exact @nidStable_foldUpdate (dispFun isOn) (fun d => rfl) (fun d => rfl)
        (fun d => rfl) _ doc

theorem toggleButtons_ok {bOn bOff : String} {doc : Doc} {u v : Elem}
    (hu : getElementById bOn doc = some u)
    (hv : getElementById bOff doc = some v) (isOn : Bool) :
    toggleButtons bOn bOff isOn doc =
      .ok (setDisplay v.data.nid (if isOn then "none" else "inline")
        (setDisplay u.data.nid (if isOn then "inline" else "none") doc)) := by
  unfold toggleButtons
  rw [hu, hv]

theorem toggleTwoSided_eq (isOn : Option Bool) {doc doc1 : Doc}
    {disp : Option String}
    (h : toggleDisplay "filler" isOn doc = (doc1, disp)) :
    toggleTwoSided isOn doc =
      (match toggleButtons "toggle-two-sided-on" "toggle-two-sided-off"
          (decide (disp = some "block")) doc1 with
       | .error d => .error d
       | .ok doc2 => .ok (updatePageNumbers doc2)) := by
  unfold toggleTwoSided
  rw [h]

theorem toggleCardBacks_eq {doc doc1 : Doc} {disp : Option String}
    (h : toggleDisplay "page-backs" none doc = (doc1, disp)) :
    toggleCardBacks doc =
      (match toggleButtons "toggle-card-backs-on" "toggle-card-backs-off"
          (decide (disp = some "block")) doc1 with
       | .error d => .error d
       | .ok doc2 =>
           match toggleTwoSided (some (decide (disp = some "block"))) doc2 with
           | .error d => .error d
           | .ok doc3 =>
               .ok (updatePageNumbers
                 (match getElementById "toggle-two-sided" doc3 with
                  | some e => toggleEnability e.data.nid
                      (decide (disp = some "block")) doc3
                  | none => doc3))) := by
  unfold toggleCardBacks
  rw [h]

/-- The per-element update performed by `toggleEnability`. -/
def enabFun (isOn : Bool) (d : ElemData) : ElemData :=
  { d with style := { d.style with
      opacity := if isOn then "1" else "0.2",
      pointerEvents := if isOn then "auto" else "none" } }

theorem toggleEnability_eq (n : Nat) (isOn : Bool) (doc : Doc) :
    toggleEnability n isOn doc = updateDataAt n (enabFun isOn) doc := rfl

theorem nidStable_setDisplay (n : Nat) (v : String) (doc : Doc) :
    nidStable doc (setDisplay n v doc) :=
  @nidStable_updateDataAt
    (fun d => { d with style := { d.style with display := v } })
    (fun d => rfl) (fun d => rfl) (fun d => rfl) n doc

theorem nidStable_toggleEnability (n : Nat) (isOn : Bool) (doc : Doc) :
    nidStable doc (toggleEnability n isOn doc) :=
  @nidStable_updateDataAt (enabFun isOn)
    (fun d => rfl) (fun d => rfl) (fun d => rfl) n doc

theorem toggleTwoSided_ok {isOn : Option Bool} {doc doc1 doc2 : Doc}
    {disp : Option String}
    (h : toggleDisplay "filler" isOn doc = (doc1, disp))
    (hB : toggleButtons "toggle-two-sided-on" "toggle-two-sided-off"
      (decide (disp = some "block")) doc1 = .ok doc2) :
    toggleTwoSided isOn doc = .ok (updatePageNumbers doc2) := by
  unfold toggleTwoSided
  rw [h]
  simp only [hB]

theorem toggleCardBacks_ok {doc doc1 doc2 doc3 : Doc} {disp : Option String}
    {w : Elem}
    (h : toggleDisplay "page-backs" none doc = (doc1, disp))
    (hB : toggleButtons "toggle-card-backs-on" "toggle-card-backs-off"
      (decide (disp = some "block")) doc1 = .ok doc2)
    (hT : toggleTwoSided (some (decide (disp = some "block"))) doc2 = .ok doc3)
    (hw : getElementById "toggle-two-sided" doc3 = some w) :
    toggleCardBacks doc =
      .ok (updatePageNumbers
        (toggleEnability w.data.nid (decide (disp = some "block")) doc3)) := by
  unfold toggleCardBacks
  rw [h]
  simp only [hB, hT, hw]

/-- Claim C4 (amended): `toggleCardBacks` cascades in *both* directions.
With all five controls present (`toggle-card-backs-on/off`,
`toggle-two-sided-on/off`, `toggle-two-sided`), and `b` the direction the
`page-backs` toggle resolves to, the call returns normally and afterwards
every `filler` element (not aliased with the two-sided buttons) has display
`block` when `b = true` and `none` when `b = false` — i.e. toggling backs
*on* forces two-sided printing on, contrary to the original claim — and the
`toggle-two-sided` control is enabled (`opacity 1`, `pointer-events auto`)
when `b = true` and disabled (`opacity 0.2`, `pointer-events none`) when
`b = false`. -/
theorem claimC4_theorem (doc : Doc) (b : Bool)
    (hnd : ((flattenData doc).map ElemData.nid).Nodup)
    (uOnB uOffB uOn2 uOff2 uCtrl : Elem)
    (hOnB : getElementById "toggle-card-backs-on" doc = some uOnB)
    (hOffB : getElementById "toggle-card-backs-off" doc = some uOffB)
    (hOn2 : getElementById "toggle-two-sided-on" doc = some uOn2)
    (hOff2 : getElementById "toggle-two-sided-off" doc = some uOff2)
    (hCtrl : getElementById "toggle-two-sided" doc = some uCtrl)
    (hb : (toggleDisplay "page-backs" none doc).2 =
      some (if b then "block" else "none")) :
    ∃ docF, toggleCardBacks doc = .ok docF ∧
      (∀ fe ∈ collectClass "filler" doc,
        fe.data.nid ≠ uOn2.data.nid → fe.data.nid ≠ uOff2.data.nid →
        (dataOfNid fe.data.nid docF).map (fun d => d.style.display) =
          some (if b then "block" else "none")) ∧
      (dataOfNid uCtrl.data.nid docF).map
          (fun d => (d.style.opacity, d.style.pointerEvents)) =
        some (if b then ("1", "auto") else ("0.2", "none")) := by
  obtain ⟨doc1, disp, hTD⟩ :
      ∃ d1 ds, toggleDisplay "page-backs" none doc = (d1, ds) := ⟨_, _, rfl⟩
  have hdisp : disp = some (if b then "block" else "none") := by
    rw [← hb, hTD]
  have hton : decide (disp = some "block") = b := by
    rw [hdisp]
    cases b <;> decide
  have hS1 : nidStable doc doc1 := by
    have h := nidStable_toggleDisplay "page-backs" none doc
    rw [hTD] at h
    exact h
  obtain ⟨u1, hu1, hu1n⟩ := getId_stable hS1 hOnB
  obtain ⟨v1, hv1, hv1n⟩ := getId_stable hS1 hOffB
  set doc2 := setDisplay v1.data.nid (if b then "none" else "inline")
    (setDisplay u1.data.nid (if b then "inline" else "none") doc1)
    with hdoc2def
  have hTB1 : toggleButtons "toggle-card-backs-on" "toggle-card-backs-off"
      b doc1 = .ok doc2 := by
    rw [hdoc2def]
    exact toggleButtons_ok hu1 hv1 b
  have hS2 : nidStable doc doc2 := by
    rw [hdoc2def]
    exact nidStable_trans hS1
      (nidStable_trans (nidStable_setDisplay _ _ _) (nidStable_setDisplay _ _ _))
  obtain ⟨doc2a, disp2, hTD2⟩ :
      ∃ d ds, toggleDisplay "filler" (some b) doc2 = (d, ds) := ⟨_, _, rfl⟩
  have hS2a : nidStable doc doc2a := by
    have h := nidStable_toggleDisplay "filler" (some b) doc2
    rw [hTD2] at h
    exact nidStable_trans hS2 h
  obtain ⟨u2, hu2, hu2n⟩ := getId_stable hS2a hOn2
  obtain ⟨v2, hv2, hv2n⟩ := getId_stable hS2a hOff2
  set b2 := decide (disp2 = some "block") with hb2def
  set doc2b := setDisplay v2.data.nid (if b2 then "none" else "inline")
    (setDisplay u2.data.nid (if b2 then "inline" else "none") doc2a)
    with hdoc2bdef
  have hTB2 : toggleButtons "toggle-two-sided-on" "toggle-two-sided-off"
      b2 doc2a = .ok doc2b := by
    rw [hdoc2bdef]
    exact toggleButtons_ok hu2 hv2 b2
  have hS2b : nidStable doc doc2b := by
    rw [hdoc2bdef]
    exact nidStable_trans hS2a
      (nidStable_trans (nidStable_setDisplay _ _ _) (nidStable_setDisplay _ _ _))
  have hnd2b : ((flattenData doc2b).map ElemData.nid).Nodup := by
    rw [hS2b.1]
    exact hnd
  have hTT : toggleTwoSided (some b) doc2 = .ok (updatePageNumbers doc2b) :=
    toggleTwoSided_ok hTD2 hTB2
  have hS3 : nidStable doc (updatePageNumbers doc2b) :=
    nidStable_trans hS2b (nidStable_updatePageNumbers doc2b hnd2b)
  obtain ⟨w, hw, hwn⟩ := getId_stable hS3 hCtrl
  have hS3b : nidStable doc
      (toggleEnability w.data.nid b (updatePageNumbers doc2b)) :=
    nidStable_trans hS3 (nidStable_toggleEnability _ _ _)
  have hnd3b : ((flattenData
      (toggleEnability w.data.nid b (updatePageNumbers doc2b))).map
        ElemData.nid).Nodup := by
    rw [hS3b.1]
    exact hnd
  have hTB1' : toggleButtons "toggle-card-backs-on" "toggle-card-backs-off"
      (decide (disp = some "block")) doc1 = .ok doc2 := by
    rw [hton]
    exact hTB1
  have hTT' : toggleTwoSided (some (decide (disp = some "block"))) doc2 =
      .ok (updatePageNumbers doc2b) := by
    rw [hton]
    exact hTT
  have hstep := toggleCardBacks_ok hTD hTB1' hTT' hw
  rw [hton] at hstep
  refine ⟨_, hstep, ?_, ?_⟩
  · intro fe hfe hne1 hne2
    have hmemdoc : fe.data.nid ∈
        (collectClass "filler" doc).map (fun e => e.data.nid) :=
      List.mem_map_of_mem _ hfe
    have hmem2 : fe.data.nid ∈
        (collectClass "filler" doc2).map (fun e => e.data.nid) := by
      rw [hS2.2.2]
      exact hmemdoc
    have hCne : collectClass "filler" doc2 ≠ [] := by
      intro hE
      rw [hE] at hmem2
      simp at hmem2
    have hdoc2a : doc2a = foldUpdate (dispFun (some b))
        ((collectClass "filler" doc2).map (fun e => e.data.nid)) doc2 := by
      have h1 : (toggleDisplay "filler" (some b) doc2).1 = doc2a := by
        rw [hTD2]
      rw [← h1, toggleDisplay_fst "filler" (some b) hCne]
    have hnd2 : ((flattenData doc2).map ElemData.nid).Nodup := by
      rw [hS2.1]
      exact hnd
    have hfnd : ((collectClass "filler" doc2).map
        (fun e => e.data.nid)).Nodup := collectNids_nodup hnd2
    have hval : dataOfNid fe.data.nid doc2a =
        (dataOfNid fe.data.nid doc2).map (dispFun (some b)) := by
      rw [hdoc2a, @dataOfNid_foldUpdate (dispFun (some b)) (fun d => rfl) _
        hfnd doc2 fe.data.nid, if_pos hmem2]
    have hmemflat2 : fe.data.nid ∈ (flattenData doc2).map ElemData.nid := by
      rw [hS2.1]
      exact List.mem_map_of_mem _ (mem_flattenData_of_mem_collect hfe).1
    obtain ⟨dm, hdm⟩ := dataOfNid_isSome_of_mem hmemflat2
    have hdisp2a : (dataOfNid fe.data.nid doc2a).map
        (fun d => d.style.display) = some (if b then "block" else "none") := by
      rw [hval, hdm]
      rfl
    have h2b : dataOfNid fe.data.nid doc2b = dataOfNid fe.data.nid doc2a := by
      rw [hdoc2bdef]
      have e1 := @dataOfNid_updateDataAt_ne
        (fun d => { d with style := { d.style with display :=
          if b2 then "none" else "inline" } })
        (fun d => rfl) v2.data.nid fe.data.nid
        (by rw [hv2n]; exact hne2)
        (setDisplay u2.data.nid (if b2 then "inline" else "none") doc2a)
      have e2 := @dataOfNid_updateDataAt_ne
        (fun d => { d with style := { d.style with display :=
          if b2 then "inline" else "none" } })
        (fun d => rfl) u2.data.nid fe.data.nid
        (by rw [hu2n]; exact hne1) doc2a
      exact e1.trans e2
    have h3 := map_display_of_map_style
      (dataOfNid_style_updatePageNumbers doc2b hnd2b fe.data.nid)
    have h3b := @dataOfNid_display_updateDataAt (enabFun b)
      (fun d => rfl) (fun d => rfl) w.data.nid fe.data.nid
      (updatePageNumbers doc2b)
    have hF := map_display_of_map_style
      (dataOfNid_style_updatePageNumbers
        (toggleEnability w.data.nid b (updatePageNumbers doc2b)) hnd3b
        fe.data.nid)
    exact hF.trans (h3b.trans (h3.trans
      ((congrArg (Option.map (fun d => d.style.display)) h2b).trans hdisp2a)))
  · have hcmem : uCtrl.data.nid ∈ (flattenData doc).map ElemData.nid :=
      List.mem_map_of_mem _ (getElementById_mem_flattenData hCtrl).1
    have hcmem3 : uCtrl.data.nid ∈
        (flattenData (updatePageNumbers doc2b)).map ElemData.nid := by
      rw [hS3.1]
      exact hcmem
    obtain ⟨cd, hcd⟩ := dataOfNid_isSome_of_mem hcmem3
    have hcnid : cd.nid = uCtrl.data.nid := dataOfNid_some_nid hcd
    have h3bset : dataOfNid uCtrl.data.nid
        (toggleEnability w.data.nid b (updatePageNumbers doc2b)) =
          some (enabFun b cd) := by
      rw [toggleEnability_eq, hwn,
        @dataOfNid_updateDataAt (enabFun b) (fun d => rfl) uCtrl.data.nid
          uCtrl.data.nid (updatePageNumbers doc2b), hcd]
      simp [hcnid]
    have hFstyle := map_enab_of_map_style
      (dataOfNid_style_updatePageNumbers
        (toggleEnability w.data.nid b (updatePageNumbers doc2b)) hnd3b
        uCtrl.data.nid)
    refine hFstyle.trans ?_
    rw [h3bset]
    cases b <;> rfl

/-- A toolbar button element. -/
def c4btn (n : Nat) (idv : String) (dsp : String) : Elem :=
  .node { nid := n, idAttr := some idv, style := { display := dsp } } []

/-- Backs hidden, filler hidden, all five controls present. -/
def claimC4doc : Doc :=
  [.node { nid := 1, className := "page" }
     [.node { nid := 2, className := "card" } []],
   .node { nid := 10, className := "page page-backs",
           style := { display := "none" } } [],
   .node { nid := 20, className := "filler",
           style := { display := "none" } } [],
   c4btn 31 "toggle-card-backs-on" "none",
   c4btn 32 "toggle-card-backs-off" "",
   c4btn 33 "toggle-two-sided-on" "none",
   c4btn 34 "toggle-two-sided-off" "",
   c4btn 35 "toggle-two-sided" ""]

/-- `claimC4doc` after the `page-backs` display toggle. -/
def c4s1 : Doc :=
  [.node { nid := 1, className := "page" }
     [.node { nid := 2, className := "card" } []],
   .node { nid := 10, className := "page page-backs",
           style := { display := "block" } } [],
   .node { nid := 20, className := "filler",
           style := { display := "none" } } [],
   c4btn 31 "toggle-card-backs-on" "none",
   c4btn 32 "toggle-card-backs-off" "",
   c4btn 33 "toggle-two-sided-on" "none",
   c4btn 34 "toggle-two-sided-off" "",
   c4btn 35 "toggle-two-sided" ""]

/-- `c4s1` after the card-backs button swap. -/
def c4s2 : Doc :=
  [.node { nid := 1, className := "page" }
     [.node { nid := 2, className := "card" } []],
   .node { nid := 10, className := "page page-backs",
           style := { display := "block" } } [],
   .node { nid := 20, className := "filler",
           style := { display := "none" } } [],
   c4btn 31 "toggle-card-backs-on" "inline",
   c4btn 32 "toggle-card-backs-off" "none",
   c4btn 33 "toggle-two-sided-on" "none",
   c4btn 34 "toggle-two-sided-off" "",
   c4btn 35 "toggle-two-sided" ""]

/-- `c4s2` after the forced `filler` display toggle. -/
def c4s3 : Doc :=
  [.node { nid := 1, className := "page" }
     [.node { nid := 2, className := "card" } []],
   .node { nid := 10, className := "page page-backs",
           style := { display := "block" } } [],
   .node { nid := 20, className := "filler",
           style := { display := "block" } } [],
   c4btn 31 "toggle-card-backs-on" "inline",
   c4btn 32 "toggle-card-backs-off" "none",
   c4btn 33 "toggle-two-sided-on" "none",
   c4btn 34 "toggle-two-sided-off" "",
   c4btn 35 "toggle-two-sided" ""]

/-- `c4s3` after the two-sided button swap. -/
def c4s4 : Doc :=
  [.node { nid := 1, className := "page" }
     [.node { nid := 2, className := "card" } []],
   .node { nid := 10, className := "page page-backs",
           style := { display := "block" } } [],
   .node { nid := 20, className := "filler",
           style := { display := "block" } } [],
   c4btn 31 "toggle-card-backs-on" "inline",
   c4btn 32 "toggle-card-backs-off" "none",
   c4btn 33 "toggle-two-sided-on" "inline",
   c4btn 34 "toggle-two-sided-off" "none",
   c4btn 35 "toggle-two-sided" ""]

/-- `c4s4` after the two-sided control is re-enabled: the final document. -/
def c4docF : Doc :=
  [.node { nid := 1, className := "page" }
     [.node { nid := 2, className := "card" } []],
   .node { nid := 10, className := "page page-backs",
           style := { display := "block" } } [],
   .node { nid := 20, className := "filler",
           style := { display := "block" } } [],
   c4btn 31 "toggle-card-backs-on" "inline",
   c4btn 32 "toggle-card-backs-off" "none",
   c4btn 33 "toggle-two-sided-on" "inline",
   c4btn 34 "toggle-two-sided-off" "none",
   .node { nid := 35, idAttr := some "toggle-two-sided",
           style := { opacity := "1", pointerEvents := "auto" } } []]

/-- Counterexample to claim C4 as stated: with backs and filler initially
hidden, `toggleCardBacks` toggles backs *on* (display `block`) and also
forces the filler page from `none` to `block` — two-sided printing *is*
forced on, contradicting "does not force two-sided printing on". -/
theorem claimC4_counterexample :
    toggleCardBacks claimC4doc = .ok c4docF ∧
    (dataOfNid 20 claimC4doc).map (fun d => d.style.display) = some "none" ∧
    (dataOfNid 10 c4docF).map (fun d => d.style.display) = some "block" ∧
    (dataOfNid 20 c4docF).map (fun d => d.style.display) = some "block" := by
  have h1 : toggleDisplay "page-backs" none claimC4doc =
      (c4s1, some "block") := by decide
  have h2a : getElementById "toggle-card-backs-on" c4s1 =
      some (c4btn 31 "toggle-card-backs-on" "none") := by decide
  have h2b : getElementById "toggle-card-backs-off" c4s1 =
      some (c4btn 32 "toggle-card-backs-off" "") := by decide
  have h2 : toggleButtons "toggle-card-backs-on" "toggle-card-backs-off"
      true c4s1 = .ok c4s2 :=
    (toggleButtons_ok h2a h2b true).trans (congrArg Except.ok (by decide))
  have h3 : toggleDisplay "filler" (some true) c4s2 =
      (c4s3, some "block") := by decide
  have h4a : getElementById "toggle-two-sided-on" c4s3 =
      some (c4btn 33 "toggle-two-sided-on" "none") := by decide
  have h4b : getElementById "toggle-two-sided-off" c4s3 =
      some (c4btn 34 "toggle-two-sided-off" "") := by decide
  have h4 : toggleButtons "toggle-two-sided-on" "toggle-two-sided-off"
      true c4s3 = .ok c4s4 :=
    (toggleButtons_ok h4a h4b true).trans (congrArg Except.ok (by decide))
  have hT : toggleTwoSided (some true) c4s2 =
      .ok (updatePageNumbers c4s4) := toggleTwoSided_ok h3 h4
  have h5 : updatePageNumbers c4s4 = c4s4 := by
    rw [updatePageNumbers_eq_writes c4s4 (by decide)]
    have hpw : pageWrites c4s4 = [] := by decide
    rw [hpw]
    rfl
  rw [h5] at hT
  have hw : getElementById "toggle-two-sided" c4s4 =
      some (c4btn 35 "toggle-two-sided" "") := by decide
  have hstep := toggleCardBacks_ok h1 h2 hT hw
  have h7 : updatePageNumbers c4docF = c4docF := by
    rw [updatePageNumbers_eq_writes c4docF (by decide)]
    have hpw : pageWrites c4docF = [] := by decide
    rw [hpw]
    rfl
  have he : toggleEnability (c4btn 35 "toggle-two-sided" "").data.nid
      (decide ((some "block" : Option String) = some "block")) c4s4 =
      c4docF := by decide
  rw [he, h7] at hstep
  exact ⟨hstep, by decide, by decide, by decide⟩

def claimC4wdoc : Doc :=
  [.node { nid := 1, className := "page" }
     [.node { nid := 2, className := "card" } []],
   .node { nid := 10, className := "page page-backs",
           style := { display := "none" } } [],
   .node { nid := 20, className := "filler",
           style := { display := "none" } } [],
   c4btn 41 "toggle-card-backs-on" "none",
   c4btn 42 "toggle-card-backs-off" "",
   c4btn 43 "toggle-two-sided-on" "none",
   c4btn 44 "toggle-two-sided-off" "",
   c4btn 45 "toggle-two-sided" ""]

theorem claimC4_witness :
    ∃ docF, toggleCardBacks claimC4wdoc = .ok docF ∧
      (∀ fe ∈ collectClass "filler" claimC4wdoc,
        fe.data.nid ≠ 43 → fe.data.nid ≠ 44 →
        (dataOfNid fe.data.nid docF).map (fun d => d.style.display) =
          some "block") ∧
      (dataOfNid 45 docF).map
          (fun d => (d.style.opacity, d.style.pointerEvents)) =
        some ("1", "auto") :=
  claimC4_theorem claimC4wdoc true (by decide)
    (c4btn 41 "toggle-card-backs-on" "none")
    (c4btn 42 "toggle-card-backs-off" "")
    (c4btn 43 "toggle-two-sided-on" "none")
    (c4btn 44 "toggle-two-sided-off" "")
    (c4btn 45 "toggle-two-sided" "")
    (by decide) (by decide) (by decide) (by decide) (by decide) (by decide)

/-!
## Sublist lemmas: every removal pass only drops traversal records
-/

theorem removeOverlappingInner_sublist (i : Nat) (frame : Rect) :
    ∀ (fuel j : Nat) (doc : Doc),
      List.Sublist (flattenData (removeOverlappingInner i frame j fuel doc)) (flattenData doc) := by
  intro fuel
  induction fuel with
  | zero =>
      intro j doc
      rw [removeOverlappingInner_zero]
  | succ fuel ih =>
      intro j doc
      by_cases h : j < (collectClass "cut-guide" doc).length
      · by_cases hij : i = j
        · subst hij
          rw [removeOverlappingInner_skip h]
          exact ih _ _
        · by_cases hov : overlap frame
              ((collectClass "cut-guide" doc).get ⟨j, h⟩).data.rect = true
          · rw [removeOverlappingInner_hit h hij hov]
            exact (ih _ _).trans (flattenData_removeNid_sublist _ _)
          · rw [removeOverlappingInner_miss h hij hov]
            exact ih _ _
      · rw [removeOverlappingInner_stop _ (by omega)]

theorem removeOverlappingOuter_sublist :
    ∀ (fuel i : Nat) (doc : Doc),
      List.Sublist (flattenData (removeOverlappingOuter i fuel doc)) (flattenData doc) := by
  intro fuel
  induction fuel with
  | zero =>
      intro i doc
      rw [removeOverlappingOuter]
  | succ fuel ih =>
      intro i doc
      by_cases h : i < (collectClass "cut-guide" doc).length
      · rw [removeOverlappingOuter_step h]
        exact (ih _ _).trans (removeOverlappingInner_sublist _ _ _ _ _)
      · rw [removeOverlappingOuter_stop _ (by omega)]

theorem removeOverlappingCutGuides_sublist (doc : Doc) :
    List.Sublist (flattenData (removeOverlappingCutGuides doc)) (flattenData doc) := by
  rw [removeOverlappingCutGuides]
  by_cases h : (collectClass "cut-guide" doc).length > 0
  · rw [if_pos h]
    exact removeOverlappingOuter_sublist _ _ _
  · rw [if_neg h]

theorem removeGuidesWhile_sublist (cnid : Nat) :
    ∀ (fuel : Nat) (doc : Doc),
      List.Sublist (flattenData (removeGuidesWhile cnid fuel doc)) (flattenData doc) := by
  intro fuel
  induction fuel with
  | zero =>
      intro doc
      rw [removeGuidesWhile]
  | succ fuel ih =>
      intro doc
      rw [removeGuidesWhile]
      cases hf : findNid cnid doc with
      | none => simp only [hf]; exact List.Sublist.refl _
      | some cover =>
          simp only [hf]
          cases hb : cover.byClass "cut-guide" with
          | nil => simp only [hb]; exact List.Sublist.refl _
          | cons g rest =>
              simp only [hb]
              exact (ih _).trans (flattenData_removeNid_sublist _ _)

theorem removeCutGuidesOnCoverLoop_stop {i : Nat} {doc : Doc} (fuel : Nat)
    (h : (collectClass "card-size-cover" doc).length ≤ i) :
    removeCutGuidesOnCoverLoop i fuel doc = doc := by
  cases fuel with
  | zero => rw [removeCutGuidesOnCoverLoop]
  | succ f =>
      rw [removeCutGuidesOnCoverLoop]
      rw [dif_neg (by omega)]

theorem removeCutGuidesOnCoverLoop_step {i fuel : Nat} {doc : Doc}
    (h : i < (collectClass "card-size-cover" doc).length) :
    removeCutGuidesOnCoverLoop i (fuel + 1) doc =
      removeCutGuidesOnCoverLoop (i + 1) fuel
        (removeGuidesWhile
          ((collectClass "card-size-cover" doc).get ⟨i, h⟩).data.nid
          ((collectClass "cut-guide" doc).length + 1) doc) := by
  conv_lhs => rw [removeCutGuidesOnCoverLoop]
  rw [dif_pos h]

theorem removeCutGuidesOnCoverLoop_sublist :
    ∀ (fuel i : Nat) (doc : Doc),
      List.Sublist (flattenData (removeCutGuidesOnCoverLoop i fuel doc)) (flattenData doc) := by
  intro fuel
  induction fuel with
  | zero =>
      intro i doc
      rw [removeCutGuidesOnCoverLoop]
  | succ fuel ih =>
      intro i doc
      by_cases h : i < (collectClass "card-size-cover" doc).length
      · rw [removeCutGuidesOnCoverLoop_step h]
        exact (ih _ _).trans (removeGuidesWhile_sublist _ _ _)
      · rw [removeCutGuidesOnCoverLoop_stop _ (by omega)]

theorem removeCutGuidesOnCover_sublist (doc : Doc) :
    List.Sublist (flattenData (removeCutGuidesOnCover doc)) (flattenData doc) := by
  rw [removeCutGuidesOnCover]
  by_cases h : (collectClass "card-size-cover" doc).length > 0
  · rw [if_pos h]
    exact removeCutGuidesOnCoverLoop_sublist _ _ _
  · rw [if_neg h]

theorem removeEmptyFooterLoop_sublist :
    ∀ (i : Nat) (doc : Doc),
      List.Sublist (flattenData (removeEmptyFooterLoop i doc)) (flattenData doc) := by
  intro i
  induction i with
  | zero =>
      intro doc
      rw [removeEmptyFooterLoop]
  | succ i ih =>
      intro doc
      rw [removeEmptyFooterLoop]
      cases hg : (collectClass "page-footer-content" doc).get? i with
      | none => simp only [hg]; exact ih _
      | some fc =>
          simp only [hg]
          by_cases ht : jsTrim fc.data.innerHTML = ""
          · rw [if_pos ht]
            exact (ih _).trans (flattenData_removeNid_sublist _ _)
          · rw [if_neg ht]
            exact ih _

theorem removeEmptyFooterTags_sublist (doc : Doc) :
    List.Sublist (flattenData (removeEmptyFooterTags doc)) (flattenData doc) := by
  rw [removeEmptyFooterTags]
  by_cases h : (collectClass "page-footer-content" doc).length > 0
  · rw [if_pos h]
    exact removeEmptyFooterLoop_sublist _ _
  · rw [if_neg h]

/-!
## Claim C9: the on/off button-pair invariant

`pairInv onId offId doc` states that at most one element carrying either
id of a button pair is visible (`display ≠ "none"`).  Removals only drop
records, most updates leave `display` untouched, and `toggleButtons`
re-establishes the invariant for its own pair while skipping the elements
of every other pair.
-/

def pairInv (onId offId : String) (doc : Doc) : Prop :=
  ∀ du ∈ flattenData doc, ∀ dv ∈ flattenData doc,
    du.idAttr = some onId → dv.idAttr = some offId →
    du.style.display = "none" ∨ dv.style.display = "none"

/-- Every non-`none` id attribute occurs on at most one element record. -/
def uniqueIds (doc : Doc) : Prop :=
  ∀ d1 ∈ flattenData doc, ∀ d2 ∈ flattenData doc,
    d1.idAttr ≠ none → d1.idAttr = d2.idAttr → d1 = d2

/-- Elements carrying either pair id do not carry the class `cls` (so a
class-wide display toggle cannot touch them). -/
def pairClassFree (onId offId cls : String) (doc : Doc) : Prop :=
  ∀ d ∈ flattenData doc, (d.idAttr = some onId ∨ d.idAttr = some offId) →
    hasClassToken d.className cls = false

theorem pairInv_sublist {onId offId : String} {doc doc' : Doc}
    (hsub : List.Sublist (flattenData doc') (flattenData doc))
    (h : pairInv onId offId doc) : pairInv onId offId doc' := by
  intro du hdu dv hdv h1 h2
  exact h du (hsub.subset hdu) dv (hsub.subset hdv) h1 h2

theorem pairInv_updateDataAt_pres {onId offId : String}
    {f : ElemData → ElemData}
    (hi : ∀ d, (f d).idAttr = d.idAttr)
    (hdisp : ∀ d, (f d).style.display = d.style.display)
    (n : Nat) {doc : Doc} (h : pairInv onId offId doc) :
    pairInv onId offId (updateDataAt n f doc) := by
  intro du hdu dv hdv h1 h2
  rw [flattenData_updateDataAt] at hdu hdv
  obtain ⟨du0, hdu0, hdu0e⟩ := List.mem_map.mp hdu
  obtain ⟨dv0, hdv0, hdv0e⟩ := List.mem_map.mp hdv
  subst hdu0e
  subst hdv0e
  have hid1 : du0.idAttr = some onId := by
    by_cases hc : du0.nid = n <;> simp [hc, hi] at h1 <;> exact h1
  have hid2 : dv0.idAttr = some offId := by
    by_cases hc : dv0.nid = n <;> simp [hc, hi] at h2 <;> exact h2
  have hd := h du0 hdu0 dv0 hdv0 hid1 hid2
  by_cases hc1 : du0.nid = n <;> by_cases hc2 : dv0.nid = n <;>
    simp only [hc1, hc2, if_true, if_false, hdisp] <;> exact hd

theorem pairInv_updateDataAt_skip {onId offId : String}
    {f : ElemData → ElemData}
    (hi : ∀ d, (f d).idAttr = d.idAttr) (n : Nat) {doc : Doc}
    (hskip : ∀ d ∈ flattenData doc,
      (d.idAttr = some onId ∨ d.idAttr = some offId) → d.nid ≠ n)
    (h : pairInv onId offId doc) :
    pairInv onId offId (updateDataAt n f doc) := by
  intro du hdu dv hdv h1 h2
  rw [flattenData_updateDataAt] at hdu hdv
  obtain ⟨du0, hdu0, hdu0e⟩ := List.mem_map.mp hdu
  obtain ⟨dv0, hdv0, hdv0e⟩ := List.mem_map.mp hdv
  subst hdu0e
  subst hdv0e
  have hid1 : du0.idAttr = some onId := by
    by_cases hc : du0.nid = n <;> simp [hc, hi] at h1 <;> exact h1
  have hid2 : dv0.idAttr = some offId := by
    by_cases hc : dv0.nid = n <;> simp [hc, hi] at h2 <;> exact h2
  have hn1 : du0.nid ≠ n := hskip du0 hdu0 (Or.inl hid1)
  have hn2 : dv0.nid ≠ n := hskip dv0 hdv0 (Or.inr hid2)
  rw [if_neg hn1, if_neg hn2]
  exact h du0 hdu0 dv0 hdv0 hid1 hid2

theorem pairInv_foldUpdate_pres {onId offId : String}
    {f : ElemData → ElemData}
    (hi : ∀ d, (f d).idAttr = d.idAttr)
    (hdisp : ∀ d, (f d).style.display = d.style.display) :
    ∀ (L : List Nat) {doc : Doc}, pairInv onId offId doc →
      pairInv onId offId (foldUpdate f L doc) := by
  intro L
  induction L with
  | nil => intro doc h; exact h
  | cons n L ih =>
      intro doc h
      rw [foldUpdate_cons]
      exact ih (pairInv_updateDataAt_pres hi hdisp n h)

theorem pairInv_writes {onId offId : String} (ws : List (Nat × String)) :
    ∀ {doc : Doc}, pairInv onId offId doc →
      pairInv onId offId (writes ws doc) := by
  induction ws with
  | nil => intro doc h; exact h
  | cons p ws ih =>
      intro doc h
      rw [writes_cons]
      exact ih (@pairInv_updateDataAt_pres _ _
        (fun d => { d with innerHTML := p.2 }) (fun d => rfl) (fun d => rfl)
        p.1 doc h)

theorem pairInv_updatePageNumbers {onId offId : String} {doc : Doc}
    (hnd : ((flattenData doc).map ElemData.nid).Nodup)
    (h : pairInv onId offId doc) :
    pairInv onId offId (updatePageNumbers doc) := by
  rw [updatePageNumbers_eq_writes doc hnd]
  exact pairInv_writes _ h

theorem toggleVisibility_empty {cls : String} {doc : Doc}
    (h : collectClass cls doc = []) :
    toggleVisibility cls doc = (doc, none) := by
  rw [toggleVisibility, h]

theorem pairInv_toggleVisibility {onId offId : String} (cls : String)
    {doc : Doc} (h : pairInv onId offId doc) :
    pairInv onId offId (toggleVisibility cls doc).1 := by
  cases hC : collectClass cls doc with
  | nil =>
      rw [toggleVisibility_empty hC]
      exact h
  | cons e0 rest =>
      rw [toggleVisibility_fst (by simp [hC])]
      exact @pairInv_foldUpdate_pres _ _ visFlip (fun d => rfl) (fun d => rfl)
        _ _ h

theorem nidStable_toggleVisibility (cls : String) (doc : Doc) :
    nidStable doc (toggleVisibility cls doc).1 := by
  cases hC : collectClass cls doc with
  | nil =>
      rw [toggleVisibility_empty hC]
      exact nidStable_refl doc
  | cons e0 rest =>
      rw [toggleVisibility_fst (by simp [hC])]
      exact @nidStable_foldUpdate visFlip (fun d => rfl) (fun d => rfl)
        (fun d => rfl) _ doc

/-- Two distinct data records of a nid-distinct document have distinct
nids. -/
theorem flattenData_nid_inj {doc : Doc}
    (hnd : ((flattenData doc).map ElemData.nid).Nodup) {d1 d2 : ElemData}
    (h1 : d1 ∈ flattenData doc) (h2 : d2 ∈ flattenData doc)
    (h : d1.nid = d2.nid) : d1 = d2 :=
  List.inj_on_of_nodup_map hnd h1 h2 h

theorem pairInv_foldUpdate_skip {onId offId : String}
    {f : ElemData → ElemData}
    (hi : ∀ d, (f d).idAttr = d.idAttr) (hn : ∀ d, (f d).nid = d.nid) :
    ∀ (L : List Nat) {doc : Doc},
      (∀ d ∈ flattenData doc,
        (d.idAttr = some onId ∨ d.idAttr = some offId) → d.nid ∉ L) →
      pairInv onId offId doc → pairInv onId offId (foldUpdate f L doc) := by
  intro L
  induction L with
  | nil => intro doc _ h; exact h
  | cons n L ih =>
      intro doc hfree h
      rw [foldUpdate_cons]
      refine ih ?_ (pairInv_updateDataAt_skip hi n
        (fun d hd hp he => hfree d hd hp
          (by rw [he]; exact List.mem_cons_self n L)) h)
      intro d' hd' hp'
      rw [flattenData_updateDataAt] at hd'
      obtain ⟨d0, hd0, hde⟩ := List.mem_map.mp hd'
      subst hde
      have hp0 : d0.idAttr = some onId ∨ d0.idAttr = some offId := by
        by_cases hc : d0.nid = n <;> simp [hc, hi] at hp' <;> exact hp'
      have hnotin := hfree d0 hd0 hp0
      have hnid : (if d0.nid = n then f d0 else d0).nid = d0.nid := by
        by_cases hc : d0.nid = n <;> simp [hc, hn]
      rw [hnid]
      intro hmem
      exact hnotin (List.mem_cons_of_mem _ hmem)

theorem pairInv_toggleDisplay {onId offId cls : String} (isOn : Option Bool)
    {doc : Doc} (hnd : ((flattenData doc).map ElemData.nid).Nodup)
    (hfree : pairClassFree onId offId cls doc)
    (h : pairInv onId offId doc) :
    pairInv onId offId (toggleDisplay cls isOn doc).1 := by
  cases hC : collectClass cls doc with
  | nil =>
      rw [toggleDisplay_empty hC]
      exact h
  | cons e0 rest =>
      rw [toggleDisplay_fst cls isOn (by simp [hC])]
      refine @pairInv_foldUpdate_skip _ _ (dispFun isOn) (fun d => rfl)
        (fun d => rfl) _ _ ?_ h
      intro d hd hp hmem
      obtain ⟨e, he, hen⟩ := List.mem_map.mp hmem
      have hde : d = e.data :=
        flattenData_nid_inj hnd hd (mem_flattenData_of_mem_collect he).1
          hen.symm
      have hcls := (mem_flattenData_of_mem_collect he).2
      rw [← hde] at hcls
      rw [hfree d hd hp] at hcls
      exact Bool.false_ne_true hcls

/-- A skip step at the nid of an element whose id attribute differs from
both pair ids. -/
theorem pairInv_setDisplay_otherId {onId offId s : String} {doc : Doc}
    {u : Elem} (hnd : ((flattenData doc).map ElemData.nid).Nodup)
    (hu : getElementById s doc = some u)
    (hs1 : s ≠ onId) (hs2 : s ≠ offId) (v : String)
    (h : pairInv onId offId doc) :
    pairInv onId offId (setDisplay u.data.nid v doc) := by
  refine @pairInv_updateDataAt_skip _ _
    (fun d => { d with style := { d.style with display := v } })
    (fun d => rfl) u.data.nid _ ?_ h
  intro d hd hp he
  have hmem := getElementById_mem_flattenData hu
  have hde : d = u.data := flattenData_nid_inj hnd hd hmem.1 he
  rcases hp with hp | hp
  · rw [hde, hmem.2] at hp
    exact hs1 (Option.some.inj hp)
  · rw [hde, hmem.2] at hp
    exact hs2 (Option.some.inj hp)

theorem uniqueIds_updateDataAt {f : ElemData → ElemData}
    (hi : ∀ d, (f d).idAttr = d.idAttr) (n : Nat) {doc : Doc}
    (h : uniqueIds doc) : uniqueIds (updateDataAt n f doc) := by
  intro d1 hd1 d2 hd2 hne hattr
  rw [flattenData_updateDataAt] at hd1 hd2
  obtain ⟨a, ha, hae⟩ := List.mem_map.mp hd1
  obtain ⟨b, hb, hbe⟩ := List.mem_map.mp hd2
  subst hae
  subst hbe
  have haid : (if a.nid = n then f a else a).idAttr = a.idAttr := by
    by_cases hc : a.nid = n <;> simp [hc, hi]
  have hbid : (if b.nid = n then f b else b).idAttr = b.idAttr := by
    by_cases hc : b.nid = n <;> simp [hc, hi]
  rw [haid] at hne
  rw [haid, hbid] at hattr
  rw [h a ha b hb hne hattr]

theorem uniqueIds_foldUpdate {f : ElemData → ElemData}
    (hi : ∀ d, (f d).idAttr = d.idAttr) :
    ∀ (L : List Nat) {doc : Doc}, uniqueIds doc →
      uniqueIds (foldUpdate f L doc) := by
  intro L
  induction L with
  | nil => intro doc h; exact h
  | cons n L ih =>
      intro doc h
      rw [foldUpdate_cons]
      exact ih (uniqueIds_updateDataAt hi n h)

theorem uniqueIds_toggleDisplay (cls : String) (isOn : Option Bool)
    {doc : Doc} (h : uniqueIds doc) :
    uniqueIds (toggleDisplay cls isOn doc).1 := by
  cases hC : collectClass cls doc with
  | nil =>
      rw [toggleDisplay_empty hC]
      exact h
  | cons e0 rest =>
      rw [toggleDisplay_fst cls isOn (by simp [hC])]
      exact @uniqueIds_foldUpdate (dispFun isOn) (fun d => rfl) _ _ h

theorem uniqueIds_toggleVisibility (cls : String) {doc : Doc}
    (h : uniqueIds doc) : uniqueIds (toggleVisibility cls doc).1 := by
  cases hC : collectClass cls doc with
  | nil =>
      rw [toggleVisibility_empty hC]
      exact h
  | cons e0 rest =>
      rw [toggleVisibility_fst (by simp [hC])]
      exact @uniqueIds_foldUpdate visFlip (fun d => rfl) _ _ h

theorem pairClassFree_updateDataAt {onId offId cls : String}
    {f : ElemData → ElemData}
    (hi : ∀ d, (f d).idAttr = d.idAttr)
    (hcn : ∀ d, (f d).className = d.className) (n : Nat) {doc : Doc}
    (h : pairClassFree onId offId cls doc) :
    pairClassFree onId offId cls (updateDataAt n f doc) := by
  intro d hd hp
  rw [flattenData_updateDataAt] at hd
  obtain ⟨a, ha, hae⟩ := List.mem_map.mp hd
  subst hae
  have hp0 : a.idAttr = some onId ∨ a.idAttr = some offId := by
    by_cases hc : a.nid = n <;> simp [hc, hi] at hp <;> exact hp
  have hcls := h a ha hp0
  by_cases hc : a.nid = n <;> simp [hc, hcn] <;> exact hcls

theorem pairClassFree_foldUpdate {onId offId cls : String}
    {f : ElemData → ElemData}
    (hi : ∀ d, (f d).idAttr = d.idAttr)
    (hcn : ∀ d, (f d).className = d.className) :
    ∀ (L : List Nat) {doc : Doc}, pairClassFree onId offId cls doc →
      pairClassFree onId offId cls (foldUpdate f L doc) := by
  intro L
  induction L with
  | nil => intro doc h; exact h
  | cons n L ih =>
      intro doc h
      rw [foldUpdate_cons]
      exact ih (pairClassFree_updateDataAt hi hcn n h)

theorem pairClassFree_toggleDisplay {onId offId cls cls' : String}
    (isOn : Option Bool) {doc : Doc}
    (h : pairClassFree onId offId cls doc) :
    pairClassFree onId offId cls (toggleDisplay cls' isOn doc).1 := by
  cases hC : collectClass cls' doc with
  | nil =>
      rw [toggleDisplay_empty hC]
      exact h
  | cons e0 rest =>
      rw [toggleDisplay_fst cls' isOn (by simp [hC])]
      exact @pairClassFree_foldUpdate _ _ _ (dispFun isOn) (fun d => rfl)
        (fun d => rfl) _ _ h

theorem toggleButtons_ok_inv {bOn bOff : String} {isOn : Bool}
    {doc doc' : Doc}
    (hok : toggleButtons bOn bOff isOn doc = .ok doc') :
    ∃ u v, getElementById bOn doc = some u ∧
      getElementById bOff doc = some v ∧
      doc' = setDisplay v.data.nid (if isOn then "none" else "inline")
        (setDisplay u.data.nid (if isOn then "inline" else "none") doc) := by
  unfold toggleButtons at hok
  cases hu : getElementById bOn doc with
  | none => rw [hu] at hok; simp at hok
  | some u =>
      cases hv : getElementById bOff doc with
      | none => rw [hu, hv] at hok; simp at hok
      | some v =>
          rw [hu, hv] at hok
          simp only [Except.ok.injEq] at hok
          exact ⟨u, v, rfl, rfl, hok.symm⟩

theorem nidStable_toggleButtons_ok {bOn bOff : String} {isOn : Bool}
    {doc doc' : Doc}
    (hok : toggleButtons bOn bOff isOn doc = .ok doc') :
    nidStable doc doc' := by
  obtain ⟨u, v, _, _, hd⟩ := toggleButtons_ok_inv hok
  subst hd
  exact nidStable_trans (nidStable_setDisplay _ _ _) (nidStable_setDisplay _ _ _)

theorem uniqueIds_toggleButtons_ok {bOn bOff : String} {isOn : Bool}
    {doc doc' : Doc}
    (hok : toggleButtons bOn bOff isOn doc = .ok doc')
    (h : uniqueIds doc) : uniqueIds doc' := by
  obtain ⟨u, v, _, _, hd⟩ := toggleButtons_ok_inv hok
  subst hd
  exact @uniqueIds_updateDataAt
    (fun d => { d with style := { d.style with display :=
      if isOn then "none" else "inline" } }) (fun d => rfl) v.data.nid _
    (@uniqueIds_updateDataAt
      (fun d => { d with style := { d.style with display :=
        if isOn then "inline" else "none" } }) (fun d => rfl) u.data.nid _ h)

theorem pairClassFree_toggleButtons_ok {onId offId cls bOn bOff : String}
    {isOn : Bool} {doc doc' : Doc}
    (hok : toggleButtons bOn bOff isOn doc = .ok doc')
    (h : pairClassFree onId offId cls doc) :
    pairClassFree onId offId cls doc' := by
  obtain ⟨u, v, _, _, hd⟩ := toggleButtons_ok_inv hok
  subst hd
  exact @pairClassFree_updateDataAt _ _ _
    (fun d => { d with style := { d.style with display :=
      if isOn then "none" else "inline" } }) (fun d => rfl) (fun d => rfl)
    v.data.nid _
    (@pairClassFree_updateDataAt _ _ _
      (fun d => { d with style := { d.style with display :=
        if isOn then "inline" else "none" } }) (fun d => rfl) (fun d => rfl)
      u.data.nid _ h)

theorem pairInv_toggleButtons_other {onId offId bOn bOff : String}
    {isOn : Bool} {doc doc' : Doc}
    (hnd : ((flattenData doc).map ElemData.nid).Nodup)
    (h1 : bOn ≠ onId) (h2 : bOn ≠ offId) (h3 : bOff ≠ onId)
    (h4 : bOff ≠ offId)
    (hok : toggleButtons bOn bOff isOn doc = .ok doc')
    (h : pairInv onId offId doc) : pairInv onId offId doc' := by
  obtain ⟨u, v, hu, hv, hd⟩ := toggleButtons_ok_inv hok
  subst hd
  have hstep1 : pairInv onId offId
      (setDisplay u.data.nid (if isOn then "inline" else "none") doc) :=
    pairInv_setDisplay_otherId hnd hu h1 h2 _ h
  have hS : nidStable doc
      (setDisplay u.data.nid (if isOn then "inline" else "none") doc) :=
    nidStable_setDisplay _ _ _
  have hnd1 : ((flattenData
      (setDisplay u.data.nid (if isOn then "inline" else "none") doc)).map
        ElemData.nid).Nodup := by
    rw [hS.1]
    exact hnd
  obtain ⟨v1, hv1, hv1n⟩ := getId_stable hS hv
  have hres := pairInv_setDisplay_otherId hnd1 hv1 h3 h4
    (if isOn then "none" else "inline") hstep1
  rw [hv1n] at hres
  exact hres

/-- Membership in the traversal of a `setDisplay` result, pulled back to
the original traversal. -/
theorem mem_flatten_setDisplay {doc : Doc} {n : Nat} {w : String}
    {d : ElemData} (hd : d ∈ flattenData (setDisplay n w doc)) :
    ∃ d0 ∈ flattenData doc,
      d = if d0.nid = n
        then { d0 with style := { d0.style with display := w } } else d0 := by
  rw [setDisplay, flattenData_updateDataAt] at hd
  obtain ⟨d0, hd0, he⟩ := List.mem_map.mp hd
  exact ⟨d0, hd0, he.symm⟩

theorem idAttr_dispIf (n : Nat) (w : String) (d : ElemData) :
    (if d.nid = n
      then { d with style := { d.style with display := w } }
      else d).idAttr = d.idAttr := by
  by_cases hc : d.nid = n <;> simp [hc]

/-- `toggleButtons` on its own pair re-establishes the invariant, whatever
held before. -/
theorem pairInv_toggleButtons_self {onId offId : String} {isOn : Bool}
    {doc doc' : Doc} (hne : onId ≠ offId)
    (hnd : ((flattenData doc).map ElemData.nid).Nodup)
    (huniq : uniqueIds doc)
    (hok : toggleButtons onId offId isOn doc = .ok doc') :
    pairInv onId offId doc' := by
  obtain ⟨u, v, hu, hv, hd⟩ := toggleButtons_ok_inv hok
  subst hd
  have humem := getElementById_mem_flattenData hu
  have hvmem := getElementById_mem_flattenData hv
  have huv : u.data.nid ≠ v.data.nid := by
    intro he
    have heq := flattenData_nid_inj hnd humem.1 hvmem.1 he
    rw [heq, hvmem.2] at humem
    exact hne (Option.some.inj humem.2).symm
  have hvu : v.data.nid ≠ u.data.nid := fun he => huv he.symm
  intro du hdu dv hdv h1 h2
  obtain ⟨a1, ha1, he1⟩ := mem_flatten_setDisplay hdu
  obtain ⟨a0, ha0, he0⟩ := mem_flatten_setDisplay ha1
  obtain ⟨b1, hb1, hf1⟩ := mem_flatten_setDisplay hdv
  obtain ⟨b0, hb0, hf0⟩ := mem_flatten_setDisplay hb1
  have hida : a0.idAttr = some onId := by
    have t1 : du.idAttr = a1.idAttr := by rw [he1, idAttr_dispIf]
    have t2 : a1.idAttr = a0.idAttr := by rw [he0, idAttr_dispIf]
    rw [← t2, ← t1]
    exact h1
  have hidb : b0.idAttr = some offId := by
    have t1 : dv.idAttr = b1.idAttr := by rw [hf1, idAttr_dispIf]
    have t2 : b1.idAttr = b0.idAttr := by rw [hf0, idAttr_dispIf]
    rw [← t2, ← t1]
    exact h2
  have ha0u : a0 = u.data :=
    huniq a0 ha0 u.data humem.1 (by rw [hida]; simp)
      (by rw [hida, humem.2])
  have hb0v : b0 = v.data :=
    huniq b0 hb0 v.data hvmem.1 (by rw [hidb]; simp)
      (by rw [hidb, hvmem.2])
  have hduval : du = { u.data with style := { u.data.style with
      display := if isOn then "inline" else "none" } } := by
    rw [he1, he0, ha0u]
    simp [huv]
  have hdvval : dv = { v.data with style := { v.data.style with
      display := if isOn then "none" else "inline" } } := by
    rw [hf1, hf0, hb0v]
    simp [hvu]
  cases isOn with
  | false =>
      left
      rw [hduval]
      rfl
  | true =>
      right
      rw [hdvval]
      rfl


theorem pairInv_toggleEnability {onId offId : String} (n : Nat) (isOn : Bool)
    {doc : Doc} (h : pairInv onId offId doc) :
    pairInv onId offId (toggleEnability n isOn doc) :=
  @pairInv_updateDataAt_pres _ _ (enabFun isOn) (fun d => rfl) (fun d => rfl)
    n _ h

theorem pairInv_toggleHelp {onId offId : String} (isOn : Bool) {doc : Doc}
    (hnd : ((flattenData doc).map ElemData.nid).Nodup)
    (h1 : "ui-modal-help" ≠ onId) (h2 : "ui-modal-help" ≠ offId)
    (h : pairInv onId offId doc) :
    pairInv onId offId (toggleHelp isOn doc) := by
  unfold toggleHelp
  cases hm : getElementById "ui-modal-help" doc with
  | none => simp only [hm]; exact h
  | some m =>
      simp only [hm]
      exact pairInv_setDisplay_otherId hnd hm h1 h2 _ h

theorem pairInv_revealUI {onId offId : String} {doc : Doc}
    (h : pairInv onId offId doc) :
    pairInv onId offId (revealUI doc) := by
  unfold revealUI
  cases ht : getElementById "toolbar" doc with
  | none => simp only [ht]; exact h
  | some tb =>
      simp only [ht]
      exact @pairInv_updateDataAt_pres _ _
        (fun d => { d with className :=
          "ui-toolbar ui-toolbar-revealed do-not-print" })
        (fun d => rfl) (fun d => rfl) tb.data.nid _ h

theorem pairInv_disableActions {onId offId : String} {doc : Doc}
    (h : pairInv onId offId doc) :
    pairInv onId offId (disableActionsIfNecessary doc) := by
  unfold disableActionsIfNecessary
  by_cases hlen : (collectClass "page" doc).length = 0
  · rw [if_pos hlen]
    cases hg : getElementById "ui-toolbar-inner" doc with
    | none => simp only [hg]; exact h
    | some tb =>
        simp only [hg]
        have heq : (tb.byClass "ui-action").foldl
            (fun dc actionElement =>
              toggleEnability actionElement.data.nid false dc) doc =
            foldUpdate (enabFun false)
              ((tb.byClass "ui-action").map (fun e => e.data.nid)) doc := by
          rw [foldUpdate, List.foldl_map]
          rfl
        rw [heq]
        exact @pairInv_foldUpdate_pres _ _ (enabFun false) (fun d => rfl)
          (fun d => rfl) _ _ h
  · rw [if_neg hlen]
    exact h

theorem pairInv_determineBacks {onId offId : String} {doc : Doc}
    (hnd : ((flattenData doc).map ElemData.nid).Nodup)
    (h1 : "toggle-card-backs" ≠ onId) (h2 : "toggle-card-backs" ≠ offId)
    (h3 : "toggle-two-sided" ≠ onId) (h4 : "toggle-two-sided" ≠ offId)
    (h : pairInv onId offId doc) :
    pairInv onId offId (determineBacksToggleVisibility doc) := by
  unfold determineBacksToggleVisibility
  by_cases hb : (collectClass "page-backs" doc).length > 0
  · rw [if_neg (by simp [hb])]
    exact h
  · rw [if_pos (by simp [hb])]
    cases hg1 : getElementById "toggle-card-backs" doc with
    | none =>
        simp only [hg1]
        cases hg2 : getElementById "toggle-two-sided" doc with
        | none => simp only [hg2]; exact h
        | some e2 =>
            simp only [hg2]
            exact pairInv_setDisplay_otherId hnd hg2 h3 h4 _ h
    | some e1 =>
        simp only [hg1]
        cases hg2 : getElementById "toggle-two-sided" doc with
        | none =>
            simp only [hg2]
            exact pairInv_setDisplay_otherId hnd hg1 h1 h2 _ h
        | some e2 =>
            simp only [hg2]
            have hstep1 : pairInv onId offId
                (setDisplay e1.data.nid "none" doc) :=
              pairInv_setDisplay_otherId hnd hg1 h1 h2 _ h
            have hS : nidStable doc (setDisplay e1.data.nid "none" doc) :=
              nidStable_setDisplay _ _ _
            have hnd1 : ((flattenData
                (setDisplay e1.data.nid "none" doc)).map
                  ElemData.nid).Nodup := by
              rw [hS.1]
              exact hnd
            obtain ⟨e2', he2', he2n⟩ := getId_stable hS hg2
            have hres := pairInv_setDisplay_otherId hnd1 he2' h3 h4 "none"
              hstep1
            rw [he2n] at hres
            exact hres

theorem pairInv_toggleTwoSided_ok {onId offId : String} {isOn : Option Bool}
    {doc doc' : Doc}
    (hnd : ((flattenData doc).map ElemData.nid).Nodup)
    (huniq : uniqueIds doc)
    (hff : pairClassFree onId offId "filler" doc)
    (hself : onId = "toggle-two-sided-on" ∧ offId = "toggle-two-sided-off" ∨
      ("toggle-two-sided-on" ≠ onId ∧ "toggle-two-sided-on" ≠ offId ∧
       "toggle-two-sided-off" ≠ onId ∧ "toggle-two-sided-off" ≠ offId))
    (hok : toggleTwoSided isOn doc = .ok doc')
    (h : pairInv onId offId doc) : pairInv onId offId doc' := by
  have h' : (match toggleButtons "toggle-two-sided-on" "toggle-two-sided-off"
      (decide ((toggleDisplay "filler" isOn doc).2 = some "block"))
      ((toggleDisplay "filler" isOn doc).1) with
    | .error d => (Except.error d : Except Doc Doc)
    | .ok doc2 => .ok (updatePageNumbers doc2)) = .ok doc' := hok
  cases hTB : toggleButtons "toggle-two-sided-on" "toggle-two-sided-off"
      (decide ((toggleDisplay "filler" isOn doc).2 = some "block"))
      ((toggleDisplay "filler" isOn doc).1) with
  | error d => rw [hTB] at h'; simp at h'
  | ok d2 =>
      rw [hTB] at h'
      simp at h'
      subst h'
      have hSD := nidStable_toggleDisplay "filler" isOn doc
      have hndD : ((flattenData ((toggleDisplay "filler" isOn doc).1)).map
          ElemData.nid).Nodup := by
        rw [hSD.1]
        exact hnd
      have huniqD := uniqueIds_toggleDisplay "filler" isOn huniq
      have hinvD := pairInv_toggleDisplay isOn hnd hff h
      have hinv2 : pairInv onId offId d2 := by
        rcases hself with ⟨hA, hB⟩ | ⟨hA, hB, hC, hD⟩
        · subst hA
          subst hB
          exact pairInv_toggleButtons_self (by decide) hndD huniqD hTB
        · exact pairInv_toggleButtons_other hndD hA hB hC hD hTB hinvD
      have hnd2 : ((flattenData d2).map ElemData.nid).Nodup := by
        rw [(nidStable_toggleButtons_ok hTB).1, hSD.1]
        exact hnd
      exact pairInv_updatePageNumbers hnd2 hinv2

theorem nidStable_toggleTwoSided_ok {isOn : Option Bool} {doc doc' : Doc}
    (hnd : ((flattenData doc).map ElemData.nid).Nodup)
    (hok : toggleTwoSided isOn doc = .ok doc') :
    nidStable doc doc' := by
  have h' : (match toggleButtons "toggle-two-sided-on" "toggle-two-sided-off"
      (decide ((toggleDisplay "filler" isOn doc).2 = some "block"))
      ((toggleDisplay "filler" isOn doc).1) with
    | .error d => (Except.error d : Except Doc Doc)
    | .ok doc2 => .ok (updatePageNumbers doc2)) = .ok doc' := hok
  cases hTB : toggleButtons "toggle-two-sided-on" "toggle-two-sided-off"
      (decide ((toggleDisplay "filler" isOn doc).2 = some "block"))
      ((toggleDisplay "filler" isOn doc).1) with
  | error d => rw [hTB] at h'; simp at h'
  | ok d2 =>
      rw [hTB] at h'
      simp at h'
      subst h'
      have hSD := nidStable_toggleDisplay "filler" isOn doc
      have hST := nidStable_toggleButtons_ok hTB
      have hnd2 : ((flattenData d2).map ElemData.nid).Nodup := by
        rw [hST.1, hSD.1]
        exact hnd
      exact nidStable_trans hSD (nidStable_trans hST
        (nidStable_updatePageNumbers _ hnd2))

theorem pairInv_toggleFooter_ok {onId offId : String} {doc doc' : Doc}
    (hnd : ((flattenData doc).map ElemData.nid).Nodup)
    (huniq : uniqueIds doc)
    (hself : onId = "toggle-footer-on" ∧ offId = "toggle-footer-off" ∨
      ("toggle-footer-on" ≠ onId ∧ "toggle-footer-on" ≠ offId ∧
       "toggle-footer-off" ≠ onId ∧ "toggle-footer-off" ≠ offId))
    (hok : toggleFooter doc = .ok doc')
    (h : pairInv onId offId doc) : pairInv onId offId doc' := by
  have h' : toggleButtons "toggle-footer-on" "toggle-footer-off"
      (decide ((toggleVisibility "page-footer" doc).2 = some "visible"))
      ((toggleVisibility "page-footer" doc).1) = .ok doc' := hok
  have hSV := nidStable_toggleVisibility "page-footer" doc
  have hndV : ((flattenData ((toggleVisibility "page-footer" doc).1)).map
      ElemData.nid).Nodup := by
    rw [hSV.1]
    exact hnd
  have huniqV := uniqueIds_toggleVisibility "page-footer" huniq
  have hinvV := pairInv_toggleVisibility "page-footer" h
  rcases hself with ⟨hA, hB⟩ | ⟨hA, hB, hC, hD⟩
  · subst hA
    subst hB
    exact pairInv_toggleButtons_self (by decide) hndV huniqV h'
  · exact pairInv_toggleButtons_other hndV hA hB hC hD h' hinvV

theorem pairInv_toggleCutGuides_ok {onId offId : String} {doc doc' : Doc}
    (hnd : ((flattenData doc).map ElemData.nid).Nodup)
    (huniq : uniqueIds doc)
    (hself : onId = "toggle-cut-guides-on" ∧ offId = "toggle-cut-guides-off" ∨
      ("toggle-cut-guides-on" ≠ onId ∧ "toggle-cut-guides-on" ≠ offId ∧
       "toggle-cut-guides-off" ≠ onId ∧ "toggle-cut-guides-off" ≠ offId))
    (hok : toggleCutGuides doc = .ok doc')
    (h : pairInv onId offId doc) : pairInv onId offId doc' := by
  have h' : toggleButtons "toggle-cut-guides-on" "toggle-cut-guides-off"
      (decide ((toggleVisibility "cut-guide" doc).2 = some "visible"))
      ((toggleVisibility "cut-guide" doc).1) = .ok doc' := hok
  have hSV := nidStable_toggleVisibility "cut-guide" doc
  have hndV : ((flattenData ((toggleVisibility "cut-guide" doc).1)).map
      ElemData.nid).Nodup := by
    rw [hSV.1]
    exact hnd
  have huniqV := uniqueIds_toggleVisibility "cut-guide" huniq
  have hinvV := pairInv_toggleVisibility "cut-guide" h
  rcases hself with ⟨hA, hB⟩ | ⟨hA, hB, hC, hD⟩
  · subst hA
    subst hB
    exact pairInv_toggleButtons_self (by decide) hndV huniqV h'
  · exact pairInv_toggleButtons_other hndV hA hB hC hD h' hinvV

theorem pairInv_toggleCardBacks_ok {onId offId : String} {doc doc' : Doc}
    (hnd : ((flattenData doc).map ElemData.nid).Nodup)
    (huniq : uniqueIds doc)
    (hfb : pairClassFree onId offId "page-backs" doc)
    (hff : pairClassFree onId offId "filler" doc)
    (hselfB : onId = "toggle-card-backs-on" ∧ offId = "toggle-card-backs-off" ∨
      ("toggle-card-backs-on" ≠ onId ∧ "toggle-card-backs-on" ≠ offId ∧
       "toggle-card-backs-off" ≠ onId ∧ "toggle-card-backs-off" ≠ offId))
    (hselfT : onId = "toggle-two-sided-on" ∧ offId = "toggle-two-sided-off" ∨
      ("toggle-two-sided-on" ≠ onId ∧ "toggle-two-sided-on" ≠ offId ∧
       "toggle-two-sided-off" ≠ onId ∧ "toggle-two-sided-off" ≠ offId))
    (hok : toggleCardBacks doc = .ok doc')
    (h : pairInv onId offId doc) : pairInv onId offId doc' := by
  have h' : (match toggleButtons "toggle-card-backs-on"
      "toggle-card-backs-off"
      (decide ((toggleDisplay "page-backs" none doc).2 = some "block"))
      ((toggleDisplay "page-backs" none doc).1) with
    | .error d => (Except.error d : Except Doc Doc)
    | .ok doc2 =>
        match toggleTwoSided
            (some (decide ((toggleDisplay "page-backs" none doc).2 =
              some "block"))) doc2 with
        | .error d => .error d
        | .ok doc3 =>
            .ok (updatePageNumbers
              (match getElementById "toggle-two-sided" doc3 with
               | some e => toggleEnability e.data.nid
                   (decide ((toggleDisplay "page-backs" none doc).2 =
                     some "block")) doc3
               | none => doc3))) = .ok doc' := hok
  cases hTB : toggleButtons "toggle-card-backs-on" "toggle-card-backs-off"
      (decide ((toggleDisplay "page-backs" none doc).2 = some "block"))
      ((toggleDisplay "page-backs" none doc).1) with
  | error d => rw [hTB] at h'; simp at h'
  | ok d2 =>
      rw [hTB] at h'
      simp only [] at h'
      cases hTT : toggleTwoSided
          (some (decide ((toggleDisplay "page-backs" none doc).2 =
            some "block"))) d2 with
      | error d => rw [hTT] at h'; simp at h'
      | ok d3 =>
          rw [hTT] at h'
          simp at h'
          subst h'
          have hSD := nidStable_toggleDisplay "page-backs" none doc
          have hndD : ((flattenData
              ((toggleDisplay "page-backs" none doc).1)).map
                ElemData.nid).Nodup := by
            rw [hSD.1]
            exact hnd
          have huniqD := uniqueIds_toggleDisplay "page-backs" none huniq
          have hinvD := pairInv_toggleDisplay none hnd hfb h
          have hffD : pairClassFree onId offId "filler"
              ((toggleDisplay "page-backs" none doc).1) :=
            pairClassFree_toggleDisplay none hff
          have hinv2 : pairInv onId offId d2 := by
            rcases hselfB with ⟨hA, hB⟩ | ⟨hA, hB, hC, hD⟩
            · subst hA
              subst hB
              exact pairInv_toggleButtons_self (by decide) hndD huniqD hTB
            · exact pairInv_toggleButtons_other hndD hA hB hC hD hTB hinvD
          have hST := nidStable_toggleButtons_ok hTB
          have hnd2 : ((flattenData d2).map ElemData.nid).Nodup := by
            rw [hST.1, hSD.1]
            exact hnd
          have huniq2 := uniqueIds_toggleButtons_ok hTB huniqD
          have hff2 := pairClassFree_toggleButtons_ok hTB hffD
          have hinv3 : pairInv onId offId d3 :=
            pairInv_toggleTwoSided_ok hnd2 huniq2 hff2 hselfT hTT hinv2
          have hS23 := nidStable_toggleTwoSided_ok hnd2 hTT
          have hnd3 : ((flattenData d3).map ElemData.nid).Nodup := by
            rw [hS23.1, hST.1, hSD.1]
            exact hnd
          cases hge : getElementById "toggle-two-sided" d3 with
          | none =>
              exact pairInv_updatePageNumbers hnd3 hinv3
          | some e =>
              have hinv3b : pairInv onId offId (toggleEnability e.data.nid
                  (decide ((toggleDisplay "page-backs" none doc).2 =
                    some "block")) d3) :=
                pairInv_toggleEnability _ _ hinv3
              have hnd3b : ((flattenData (toggleEnability e.data.nid
                  (decide ((toggleDisplay "page-backs" none doc).2 =
                    some "block")) d3)).map ElemData.nid).Nodup := by
                rw [(nidStable_toggleEnability _ _ _).1]
                exact hnd3
              exact pairInv_updatePageNumbers hnd3b hinv3b

/-- Claim C9: for each of the four on/off toggle-button pairs, at most one
element carrying either pair id is visible (`display ≠ "none"`) at a time,
and every operation of the page-view controller preserves this invariant:
the removal passes only drop elements, visibility/enability/innerHTML
updates leave `display` untouched, the class-wide display toggles skip the
pair's buttons (which carry neither the `page-backs` nor the `filler`
class), `toggleButtons` re-establishes the invariant for its own pair and
only touches its own named elements, and the composite toggles chain these
facts.  Sanity hypotheses: node identities are distinct and id attributes
are unique. -/
theorem claimC9_theorem (doc : Doc) (onId offId : String)
    (hnd : ((flattenData doc).map ElemData.nid).Nodup)
    (huniq : uniqueIds doc)
    (hp : (onId, offId) = ("toggle-footer-on", "toggle-footer-off") ∨
      (onId, offId) = ("toggle-cut-guides-on", "toggle-cut-guides-off") ∨
      (onId, offId) = ("toggle-card-backs-on", "toggle-card-backs-off") ∨
      (onId, offId) = ("toggle-two-sided-on", "toggle-two-sided-off"))
    (hfb : pairClassFree onId offId "page-backs" doc)
    (hff : pairClassFree onId offId "filler" doc)
    (hinv : pairInv onId offId doc) :
    pairInv onId offId (removeOverlappingCutGuides doc) ∧
    pairInv onId offId (removeCutGuidesOnCover doc) ∧
    pairInv onId offId (removeEmptyFooterTags doc) ∧
    (∀ cls, pairInv onId offId (toggleVisibility cls doc).1) ∧
    (∀ isOn, pairInv onId offId (toggleDisplay "page-backs" isOn doc).1) ∧
    (∀ isOn, pairInv onId offId (toggleDisplay "filler" isOn doc).1) ∧
    (∀ n isOn, pairInv onId offId (toggleEnability n isOn doc)) ∧
    (∀ isOn doc', toggleButtons onId offId isOn doc = .ok doc' →
      pairInv onId offId doc') ∧
    (∀ doc', toggleFooter doc = .ok doc' → pairInv onId offId doc') ∧
    (∀ doc', toggleCutGuides doc = .ok doc' → pairInv onId offId doc') ∧
    (∀ isOn doc', toggleTwoSided isOn doc = .ok doc' →
      pairInv onId offId doc') ∧
    (∀ doc', toggleCardBacks doc = .ok doc' → pairInv onId offId doc') ∧
    (∀ isOn, pairInv onId offId (toggleHelp isOn doc)) ∧
    pairInv onId offId (disableActionsIfNecessary doc) ∧
    pairInv onId offId (determineBacksToggleVisibility doc) ∧
    pairInv onId offId (updatePageNumbers doc) ∧
    pairInv onId offId (revealUI doc) := by
  rcases hp with hp | hp | hp | hp <;>
    rw [Prod.mk.injEq] at hp <;> obtain ⟨rfl, rfl⟩ := hp
  · exact ⟨pairInv_sublist (removeOverlappingCutGuides_sublist doc) hinv,
      pairInv_sublist (removeCutGuidesOnCover_sublist doc) hinv,
      pairInv_sublist (removeEmptyFooterTags_sublist doc) hinv,
      fun cls => pairInv_toggleVisibility cls hinv,
      fun isOn => pairInv_toggleDisplay isOn hnd hfb hinv,
      fun isOn => pairInv_toggleDisplay isOn hnd hff hinv,
      fun n isOn => pairInv_toggleEnability n isOn hinv,
      fun isOn doc' hok =>
        pairInv_toggleButtons_self (by decide) hnd huniq hok,
      fun doc' hok => pairInv_toggleFooter_ok hnd huniq
        (Or.inl ⟨rfl, rfl⟩) hok hinv,
      fun doc' hok => pairInv_toggleCutGuides_ok hnd huniq
        (Or.inr ⟨by decide, by decide, by decide, by decide⟩) hok hinv,
      fun isOn doc' hok => pairInv_toggleTwoSided_ok hnd huniq hff
        (Or.inr ⟨by decide, by decide, by decide, by decide⟩) hok hinv,
      fun doc' hok => pairInv_toggleCardBacks_ok hnd huniq hfb hff
        (Or.inr ⟨by decide, by decide, by decide, by decide⟩)
        (Or.inr ⟨by decide, by decide, by decide, by decide⟩) hok hinv,
      fun isOn => pairInv_toggleHelp isOn hnd (by decide) (by decide) hinv,
      pairInv_disableActions hinv,
      pairInv_determineBacks hnd (by decide) (by decide) (by decide)
        (by decide) hinv,
      pairInv_updatePageNumbers hnd hinv,
      pairInv_revealUI hinv⟩
  · exact ⟨pairInv_sublist (removeOverlappingCutGuides_sublist doc) hinv,
      pairInv_sublist (removeCutGuidesOnCover_sublist doc) hinv,
      pairInv_sublist (removeEmptyFooterTags_sublist doc) hinv,
      fun cls => pairInv_toggleVisibility cls hinv,
      fun isOn => pairInv_toggleDisplay isOn hnd hfb hinv,
      fun isOn => pairInv_toggleDisplay isOn hnd hff hinv,
      fun n isOn => pairInv_toggleEnability n isOn hinv,
      fun isOn doc' hok =>
        pairInv_toggleButtons_self (by decide) hnd huniq hok,
      fun doc' hok => pairInv_toggleFooter_ok hnd huniq
        (Or.inr ⟨by decide, by decide, by decide, by decide⟩) hok hinv,
      fun doc' hok => pairInv_toggleCutGuides_ok hnd huniq
        (Or.inl ⟨rfl, rfl⟩) hok hinv,
      fun isOn doc' hok => pairInv_toggleTwoSided_ok hnd huniq hff
        (Or.inr ⟨by decide, by decide, by decide, by decide⟩) hok hinv,
      fun doc' hok => pairInv_toggleCardBacks_ok hnd huniq hfb hff
        (Or.inr ⟨by decide, by decide, by decide, by decide⟩)
        (Or.inr ⟨by decide, by decide, by decide, by decide⟩) hok hinv,
      fun isOn => pairInv_toggleHelp isOn hnd (by decide) (by decide) hinv,
      pairInv_disableActions hinv,
      pairInv_determineBacks hnd (by decide) (by decide) (by decide)
        (by decide) hinv,
      pairInv_updatePageNumbers hnd hinv,
      pairInv_revealUI hinv⟩
  · exact ⟨pairInv_sublist (removeOverlappingCutGuides_sublist doc) hinv,
      pairInv_sublist (removeCutGuidesOnCover_sublist doc) hinv,
      pairInv_sublist (removeEmptyFooterTags_sublist doc) hinv,
      fun cls => pairInv_toggleVisibility cls hinv,
      fun isOn => pairInv_toggleDisplay isOn hnd hfb hinv,
      fun isOn => pairInv_toggleDisplay isOn hnd hff hinv,
      fun n isOn => pairInv_toggleEnability n isOn hinv,
      fun isOn doc' hok =>
        pairInv_toggleButtons_self (by decide) hnd huniq hok,
      fun doc' hok => pairInv_toggleFooter_ok hnd huniq
        (Or.inr ⟨by decide, by decide, by decide, by decide⟩) hok hinv,
      fun doc' hok => pairInv_toggleCutGuides_ok hnd huniq
        (Or.inr ⟨by decide, by decide, by decide, by decide⟩) hok hinv,
      fun isOn doc' hok => pairInv_toggleTwoSided_ok hnd huniq hff
        (Or.inr ⟨by decide, by decide, by decide, by decide⟩) hok hinv,
      fun doc' hok => pairInv_toggleCardBacks_ok hnd huniq hfb hff
        (Or.inl ⟨rfl, rfl⟩)
        (Or.inr ⟨by decide, by decide, by decide, by decide⟩) hok hinv,
      fun isOn => pairInv_toggleHelp isOn hnd (by decide) (by decide) hinv,
      pairInv_disableActions hinv,
      pairInv_determineBacks hnd (by decide) (by decide) (by decide)
        (by decide) hinv,
      pairInv_updatePageNumbers hnd hinv,
      pairInv_revealUI hinv⟩
  · exact ⟨pairInv_sublist (removeOverlappingCutGuides_sublist doc) hinv,
      pairInv_sublist (removeCutGuidesOnCover_sublist doc) hinv,
      pairInv_sublist (removeEmptyFooterTags_sublist doc) hinv,
      fun cls => pairInv_toggleVisibility cls hinv,
      fun isOn => pairInv_toggleDisplay isOn hnd hfb hinv,
      fun isOn => pairInv_toggleDisplay isOn hnd hff hinv,
      fun n isOn => pairInv_toggleEnability n isOn hinv,
      fun isOn doc' hok =>
        pairInv_toggleButtons_self (by decide) hnd huniq hok,
      fun doc' hok => pairInv_toggleFooter_ok hnd huniq
        (Or.inr ⟨by decide, by decide, by decide, by decide⟩) hok hinv,
      fun doc' hok => pairInv_toggleCutGuides_ok hnd huniq
        (Or.inr ⟨by decide, by decide, by decide, by decide⟩) hok hinv,
      fun isOn doc' hok => pairInv_toggleTwoSided_ok hnd huniq hff
        (Or.inl ⟨rfl, rfl⟩) hok hinv,
      fun doc' hok => pairInv_toggleCardBacks_ok hnd huniq hfb hff
        (Or.inr ⟨by decide, by decide, by decide, by decide⟩)
        (Or.inl ⟨rfl, rfl⟩) hok hinv,
      fun isOn => pairInv_toggleHelp isOn hnd (by decide) (by decide) hinv,
      pairInv_disableActions hinv,
      pairInv_determineBacks hnd (by decide) (by decide) (by decide)
        (by decide) hinv,
      pairInv_updatePageNumbers hnd hinv,
      pairInv_revealUI hinv⟩

def claimC9wdoc : Doc :=
  [.node { nid := 1, className := "page" } [],
   c4btn 61 "toggle-footer-on" "",
   c4btn 62 "toggle-footer-off" "none",
   c4btn 63 "toggle-cut-guides-on" "",
   c4btn 64 "toggle-cut-guides-off" "none",
   c4btn 65 "toggle-card-backs-on" "",
   c4btn 66 "toggle-card-backs-off" "none",
   c4btn 67 "toggle-two-sided-on" "",
   c4btn 68 "toggle-two-sided-off" "none",
   c4btn 69 "toggle-two-sided" "",
   c4btn 70 "toggle-card-backs" ""]

theorem claimC9_witness :
    pairInv "toggle-footer-on" "toggle-footer-off"
      (removeOverlappingCutGuides claimC9wdoc) ∧
    pairInv "toggle-footer-on" "toggle-footer-off"
      (removeCutGuidesOnCover claimC9wdoc) ∧
    pairInv "toggle-footer-on" "toggle-footer-off"
      (removeEmptyFooterTags claimC9wdoc) ∧
    (∀ cls, pairInv "toggle-footer-on" "toggle-footer-off"
      (toggleVisibility cls claimC9wdoc).1) ∧
    (∀ isOn, pairInv "toggle-footer-on" "toggle-footer-off"
      (toggleDisplay "page-backs" isOn claimC9wdoc).1) ∧
    (∀ isOn, pairInv "toggle-footer-on" "toggle-footer-off"
      (toggleDisplay "filler" isOn claimC9wdoc).1) ∧
    (∀ n isOn, pairInv "toggle-footer-on" "toggle-footer-off"
      (toggleEnability n isOn claimC9wdoc)) ∧
    (∀ isOn doc', toggleButtons "toggle-footer-on" "toggle-footer-off"
      isOn claimC9wdoc = .ok doc' →
      pairInv "toggle-footer-on" "toggle-footer-off" doc') ∧
    (∀ doc', toggleFooter claimC9wdoc = .ok doc' →
      pairInv "toggle-footer-on" "toggle-footer-off" doc') ∧
    (∀ doc', toggleCutGuides claimC9wdoc = .ok doc' →
      pairInv "toggle-footer-on" "toggle-footer-off" doc') ∧
    (∀ isOn doc', toggleTwoSided isOn claimC9wdoc = .ok doc' →
      pairInv "toggle-footer-on" "toggle-footer-off" doc') ∧
    (∀ doc', toggleCardBacks claimC9wdoc = .ok doc' →
      pairInv "toggle-footer-on" "toggle-footer-off" doc') ∧
    (∀ isOn, pairInv "toggle-footer-on" "toggle-footer-off"
      (toggleHelp isOn claimC9wdoc)) ∧
    pairInv "toggle-footer-on" "toggle-footer-off"
      (disableActionsIfNecessary claimC9wdoc) ∧
    pairInv "toggle-footer-on" "toggle-footer-off"
      (determineBacksToggleVisibility claimC9wdoc) ∧
    pairInv "toggle-footer-on" "toggle-footer-off"
      (updatePageNumbers claimC9wdoc) ∧
    pairInv "toggle-footer-on" "toggle-footer-off"
      (revealUI claimC9wdoc) :=
  claimC9_theorem claimC9wdoc "toggle-footer-on" "toggle-footer-off"
    (by decide) (by unfold uniqueIds; decide) (Or.inl rfl)
    (by unfold pairClassFree; decide) (by unfold pairClassFree; decide)
    (by unfold pairInv; decide)

/-!
## Claim C8: structural lemmas for `removeCutGuidesOnCover`
-/

mutual
/-- Data records of the cut-guide elements that have no `card-size-cover`
ancestor inside this subtree; the flag records whether a cover lies
above. -/
def freeGuidesT (b : Bool) : Elem → List ElemData
  | .node d cs =>
      (if !b && hasClassToken d.className "cut-guide" then [d] else []) ++
        freeGuides (b || hasClassToken d.className "card-size-cover") cs

/-- Forest version of `freeGuidesT`. -/
def freeGuides (b : Bool) : Doc → List ElemData
  | [] => []
  | e :: es => freeGuidesT b e ++ freeGuides b es
end

/-- Every cut-guide element is a leaf (true of generated documents, where
guides are empty positioned markers). -/
def guideLeaf (doc : Doc) : Prop :=
  ∀ g ∈ collectClass "cut-guide" doc, g.children = []

@[simp] theorem freeGuides_nil (b : Bool) : freeGuides b [] = [] := rfl

@[simp] theorem freeGuides_cons (b : Bool) (e : Elem) (es : Doc) :
    freeGuides b (e :: es) = freeGuidesT b e ++ freeGuides b es := by
  rw [freeGuides]

@[simp] theorem freeGuidesT_node (b : Bool) (d : ElemData) (cs : List Elem) :
    freeGuidesT b (.node d cs) =
      (if !b && hasClassToken d.className "cut-guide" then [d] else []) ++
        freeGuides (b || hasClassToken d.className "card-size-cover") cs := by
  rw [freeGuidesT]

/-- Below a cover, nothing is a free guide. -/
theorem freeGuides_true : ∀ doc : Doc, freeGuides true doc = [] := by
  refine forestInd rfl ?_
  intro d cs es ihc ihe
  simp [ihc, ihe]

theorem freeGuides_subset_flattenData :
    ∀ doc : Doc, ∀ (b : Bool), ∀ x ∈ freeGuides b doc, x ∈ flattenData doc := by
  refine forestInd (by simp) ?_
  intro d cs es ihc ihe
  intro b x hx
  rw [freeGuides_cons, freeGuidesT_node] at hx
  rw [flattenData_cons]
  rcases List.mem_append.mp hx with hx | hx
  · rcases List.mem_append.mp hx with hx | hx
    · by_cases hc : !b && hasClassToken d.className "cut-guide"
      · rw [if_pos hc] at hx
        simp at hx
        simp [hx]
      · rw [if_neg hc] at hx
        simp at hx
    · have := ihc _ x hx
      simp [this]
  · have := ihe _ x hx
    simp [this]

/-- The subtree of a collected element lies inside the document
traversal. -/
theorem mem_flattenData_of_mem_collect_subtree {cls : String} :
    ∀ {doc : Doc} {e : Elem}, e ∈ collectClass cls doc →
      ∀ {x : ElemData}, x ∈ flattenDataT e → x ∈ flattenData doc := by
  intro doc
  induction doc using forestInd with
  | h0 => simp
  | h1 d cs es ihc ihe =>
      intro e he x hx
      rw [collectClass_cons] at he
      rw [flattenData_cons]
      rcases List.mem_append.mp he with he | he
      · by_cases hcl : hasClassToken d.className cls
        · rw [if_pos hcl] at he
          simp at he
          subst he
          rw [flattenDataT_eq] at hx
          simp only [Elem.data_node, Elem.children_node] at hx
          rcases (by simpa using hx : x = d ∨ x ∈ flattenData cs) with hx | hx
          · simp [hx]
          · simp [hx]
        · rw [if_neg hcl] at he
          simp at he
      · rcases List.mem_append.mp he with he | he
        · have := ihc he hx
          simp [this]
        · have := ihe he hx
          simp [this]

/-- An attached element with the class is collected. -/
theorem mem_collect_of_findNid {cls : String} :
    ∀ {doc : Doc} {m : Nat} {e : Elem}, findNid m doc = some e →
      hasClassToken e.data.className cls = true →
      e ∈ collectClass cls doc := by
  intro doc
  induction doc using forestInd with
  | h0 => simp
  | h1 d cs es ihc ihe =>
      intro m e he hcls
      rw [findNid_cons] at he
      by_cases hd : d.nid = m
      · rw [if_pos hd] at he
        have he' := he
        simp at he'
        subst he'
        rw [collectClass_cons, if_pos (by simpa using hcls)]
        simp
      · rw [if_neg hd] at he
        cases hc : findNid m cs with
        | some e1 =>
            rw [hc] at he
            simp at he
            subst he
            exact mem_collect_cons_of_children (ihc hc hcls)
        | none =>
            rw [hc] at he
            exact mem_collect_cons_of_rest (ihe he hcls)

/-- A member of a subtree collection is a member of the document
collection. -/
theorem mem_collect_of_findNid_children {cls : String} :
    ∀ {doc : Doc} {m : Nat} {c : Elem}, findNid m doc = some c →
      ∀ {g : Elem}, g ∈ collectClass cls c.children →
        g ∈ collectClass cls doc := by
  intro doc
  induction doc using forestInd with
  | h0 => simp
  | h1 d cs es ihc ihe =>
      intro m c hc g hg
      rw [findNid_cons] at hc
      by_cases hd : d.nid = m
      · rw [if_pos hd] at hc
        have hc' := hc
        simp at hc'
        subst hc'
        exact mem_collect_cons_of_children (by simpa using hg)
      · rw [if_neg hd] at hc
        cases hcc : findNid m cs with
        | some e1 =>
            rw [hcc] at hc
            simp at hc
            subst hc
            exact mem_collect_cons_of_children (ihc hcc hg)
        | none =>
            rw [hcc] at hc
            exact mem_collect_cons_of_rest (ihe hc hg)

/-- Removing a node maps each collected element of the result to a
collected element of the original (itself, or itself with the removal
applied inside). -/
theorem mem_collect_removeNid {cls : String} (n : Nat) :
    ∀ {doc : Doc} {e : Elem}, e ∈ collectClass cls (removeNid n doc) →
      ∃ e0 ∈ collectClass cls doc, e = e0 ∨ e = removeNidT n e0 := by
  intro doc
  induction doc using forestInd with
  | h0 => simp
  | h1 d cs es ihc ihe =>
      intro e he
      rw [removeNid_cons] at he
      by_cases hd : d.nid = n
      · rw [if_pos hd] at he
        exact ⟨e, mem_collect_cons_of_rest he, Or.inl rfl⟩
      · rw [if_neg hd] at he
        rw [collectClass_cons] at he
        rcases List.mem_append.mp he with he | he
        · by_cases hcl : hasClassToken d.className cls
          · rw [if_pos hcl] at he
            simp at he
            subst he
            refine ⟨.node d cs, ?_, Or.inr ?_⟩
            · rw [collectClass_cons, if_pos hcl]
              simp
            · rw [removeNidT]
          · rw [if_neg hcl] at he
            simp at he
        · rcases List.mem_append.mp he with he | he
          · obtain ⟨e0, he0, hor⟩ := ihc he
            exact ⟨e0, mem_collect_cons_of_children he0, hor⟩
          · obtain ⟨e0, he0, hor⟩ := ihe he
            exact ⟨e0, mem_collect_cons_of_rest he0, hor⟩

theorem guideLeaf_removeNid (n : Nat) {doc : Doc} (h : guideLeaf doc) :
    guideLeaf (removeNid n doc) := by
  intro g hg
  obtain ⟨g0, hg0, hor⟩ := mem_collect_removeNid n hg
  rcases hor with h1 | h1
  · rw [h1]
    exact h g0 hg0
  · have hleaf := h g0 hg0
    rw [h1]
    cases g0 with
    | node d cs =>
        rw [removeNidT]
        simp only [Elem.children_node] at hleaf ⊢
        rw [hleaf]
        rfl

/-- A collection is empty exactly when no traversal record carries the
class. -/
theorem collect_eq_nil_iff {cls : String} {doc : Doc} :
    collectClass cls doc = [] ↔
      ∀ d ∈ flattenData doc, hasClassToken d.className cls = false := by
  constructor
  · intro h d hd
    by_contra hcl
    rw [Bool.not_eq_false] at hcl
    have hmap := collectClass_data cls doc
    rw [h] at hmap
    have : d ∈ (flattenData doc).filter
        (fun d => hasClassToken d.className cls) :=
      List.mem_filter.mpr ⟨hd, by simp [hcl]⟩
    rw [← hmap] at this
    simp at this
  · intro h
    have hmap := collectClass_data cls doc
    have hfil : (flattenData doc).filter
        (fun d => hasClassToken d.className cls) = [] := by
      rw [List.filter_eq_nil]
      intro d hd
      simp [h d hd]
    rw [hfil] at hmap
    exact List.map_eq_nil.mp hmap

theorem mem_nids_of_findNid_some {m : Nat} {doc : Doc} {e : Elem}
    (h : findNid m doc = some e) :
    m ∈ (flattenData doc).map ElemData.nid := by
  by_contra hm
  rw [findNid_eq_none_iff.mpr hm] at h
  simp at h

/-- The subtree of an attached element lies inside the document
traversal. -/
theorem mem_flattenData_of_findNid_subtree :
    ∀ {doc : Doc} {m : Nat} {e : Elem}, findNid m doc = some e →
      ∀ {x : ElemData}, x ∈ flattenDataT e → x ∈ flattenData doc := by
  intro doc
  induction doc using forestInd with
  | h0 => simp
  | h1 d cs es ihc ihe =>
      intro m e he x hx
      rw [findNid_cons] at he
      rw [flattenData_cons]
      by_cases hd : d.nid = m
      · rw [if_pos hd] at he
        have he' := he
        simp at he'
        subst he'
        rw [flattenDataT_eq] at hx
        simp only [Elem.data_node, Elem.children_node] at hx
        rcases (by simpa using hx : x = d ∨ x ∈ flattenData cs) with hx | hx
        · simp [hx]
        · simp [hx]
      · rw [if_neg hd] at he
        cases hc : findNid m cs with
        | some e1 =>
            rw [hc] at he
            simp at he
            subst he
            have := ihc hc hx
            simp [this]
        | none =>
            rw [hc] at he
            have := ihe he hx
            simp [this]

/-- Free guides never sit below a collected cover element. -/
theorem freeGuides_not_under_cover :
    ∀ {doc : Doc}, ((flattenData doc).map ElemData.nid).Nodup →
      ∀ (b : Bool) {cv : Elem}, cv ∈ collectClass "card-size-cover" doc →
        ∀ {x : ElemData}, x ∈ flattenData cv.children →
          x ∉ freeGuides b doc := by
  intro doc
  induction doc using forestInd with
  | h0 => simp
  | h1 d cs es ihc ihe =>
      intro hnd b cv hcv x hx hfree
      simp only [flattenData_cons, List.map_cons, List.map_append,
        List.nodup_cons, List.nodup_append] at hnd
      obtain ⟨hd1, hcs, hes, hdisj⟩ := hnd
      rw [freeGuides_cons, freeGuidesT_node] at hfree
      have hxcs_of_cv_cs : cv ∈ collectClass "card-size-cover" cs →
          x ∈ flattenData cs := by
        intro hincs
        refine mem_flattenData_of_mem_collect_subtree hincs ?_
        rw [flattenDataT_eq]
        exact List.mem_cons_of_mem _ hx
      have hxes_of_cv_es : cv ∈ collectClass "card-size-cover" es →
          x ∈ flattenData es := by
        intro hines
        refine mem_flattenData_of_mem_collect_subtree hines ?_
        rw [flattenDataT_eq]
        exact List.mem_cons_of_mem _ hx
      have hnotd_cs : x ∈ flattenData cs →
          x ∉ (if !b && hasClassToken d.className "cut-guide"
            then [d] else []) := by
        intro hxcs hmem
        by_cases hg : !b && hasClassToken d.className "cut-guide"
        · rw [if_pos hg] at hmem
          simp at hmem
          subst hmem
          exact hd1 (List.mem_append.mpr (Or.inl
            (List.mem_map.mpr ⟨x, hxcs, rfl⟩)))
        · rw [if_neg hg] at hmem
          simp at hmem
      have hnotd_es : x ∈ flattenData es →
          x ∉ (if !b && hasClassToken d.className "cut-guide"
            then [d] else []) := by
        intro hxes hmem
        by_cases hg : !b && hasClassToken d.className "cut-guide"
        · rw [if_pos hg] at hmem
          simp at hmem
          subst hmem
          exact hd1 (List.mem_append.mpr (Or.inr
            (List.mem_map.mpr ⟨x, hxes, rfl⟩)))
        · rw [if_neg hg] at hmem
          simp at hmem
      rw [collectClass_cons] at hcv
      rcases List.mem_append.mp hcv with hcv | hcv
      · by_cases hcl : hasClassToken d.className "card-size-cover"
        · rw [if_pos hcl] at hcv
          simp at hcv
          subst hcv
          simp only [Elem.children_node] at hx
          rcases List.mem_append.mp hfree with hfree | hfree
          · rcases List.mem_append.mp hfree with hfree | hfree
            · exact hnotd_cs hx hfree
            · rw [hcl, Bool.or_true, freeGuides_true] at hfree
              simp at hfree
          · have hxes := freeGuides_subset_flattenData es b x hfree
            exact hdisj (List.mem_map.mpr ⟨x, hx, rfl⟩)
              (List.mem_map.mpr ⟨x, hxes, rfl⟩)
        · rw [if_neg hcl] at hcv
          simp at hcv
      · rcases List.mem_append.mp hcv with hcv | hcv
        · have hxcs := hxcs_of_cv_cs hcv
          rcases List.mem_append.mp hfree with hfree | hfree
          · rcases List.mem_append.mp hfree with hfree | hfree
            · exact hnotd_cs hxcs hfree
            · exact ihc hcs _ hcv hx hfree
          · have hxes := freeGuides_subset_flattenData es b x hfree
            exact hdisj (List.mem_map.mpr ⟨x, hxcs, rfl⟩)
              (List.mem_map.mpr ⟨x, hxes, rfl⟩)
        · have hxes := hxes_of_cv_es hcv
          rcases List.mem_append.mp hfree with hfree | hfree
          · rcases List.mem_append.mp hfree with hfree | hfree
            · exact hnotd_es hxes hfree
            · have hxcs := freeGuides_subset_flattenData cs _ x hfree
              exact hdisj (List.mem_map.mpr ⟨x, hxcs, rfl⟩)
                (List.mem_map.mpr ⟨x, hxes, rfl⟩)
          · exact ihe hes _ hcv hx hfree

/-- A surviving element after a removal is the original element with the
removal applied inside its subtree. -/
theorem findNid_removeNid_surv (n : Nat) :
    ∀ {doc : Doc}, ((flattenData doc).map ElemData.nid).Nodup →
      ∀ {m : Nat} {e e' : Elem}, findNid m doc = some e →
        findNid m (removeNid n doc) = some e' →
        e' = removeNidT n e := by
  intro doc
  induction doc using forestInd with
  | h0 => simp
  | h1 d cs es ihc ihe =>
      intro hnd m e e' he he'
      simp only [flattenData_cons, List.map_cons, List.map_append,
        List.nodup_cons, List.nodup_append] at hnd
      obtain ⟨hd1, hcs, hes, hdisj⟩ := hnd
      rw [removeNid_cons] at he'
      rw [findNid_cons] at he
      by_cases hdn : d.nid = n
      · rw [if_pos hdn] at he'
        by_cases hdm : d.nid = m
        · exfalso
          have hmem := mem_nids_of_findNid_some he'
          rw [← hdm] at hmem
          exact hd1 (List.mem_append.mpr (Or.inr hmem))
        · rw [if_neg hdm] at he
          cases hc : findNid m cs with
          | some e1 =>
              exfalso
              have hm1 : m ∈ (flattenData cs).map ElemData.nid :=
                mem_nids_of_findNid_some hc
              have hm2 : m ∈ (flattenData es).map ElemData.nid :=
                mem_nids_of_findNid_some he'
              exact hdisj hm1 hm2
          | none =>
              rw [hc] at he
              have he2 : findNid m es = some e := he
              have hee : e = e' := by
                rw [he2] at he'
                exact Option.some.inj he'
              have hnsub : n ∉ (flattenData e.children).map ElemData.nid := by
                intro hmem
                obtain ⟨y, hy, hyn⟩ := List.mem_map.mp hmem
                have hyT : y ∈ flattenDataT e := by
                  rw [flattenDataT_eq]
                  exact List.mem_cons_of_mem _ hy
                have hyes := mem_flattenData_of_findNid_subtree he2 hyT
                refine hd1 (List.mem_append.mpr (Or.inr ?_))
                rw [hdn, ← hyn]
                exact List.mem_map.mpr ⟨y, hyes, rfl⟩
              cases e with
              | node ed ecs =>
                  rw [removeNidT]
                  rw [removeNid_not_attached (by simpa using hnsub)]
                  exact hee.symm
      · rw [if_neg hdn] at he'
        rw [findNid_cons] at he'
        by_cases hdm : d.nid = m
        · rw [if_pos hdm] at he he'
          have he2 := he
          have he2' := he'
          simp at he2 he2'
          subst he2
          subst he2'
          rw [removeNidT]
        · rw [if_neg hdm] at he he'
          cases hc' : findNid m (removeNid n cs) with
          | some e1' =>
              rw [hc'] at he'
              simp at he'
              subst he'
              have hmem : m ∈ (flattenData cs).map ElemData.nid :=
                ((flattenData_removeNid_sublist n cs).map ElemData.nid).subset
                  (mem_nids_of_findNid_some hc')
              cases hc : findNid m cs with
              | none =>
                  exfalso
                  rw [findNid_eq_none_iff] at hc
                  exact hc hmem
              | some e1 =>
                  rw [hc] at he
                  simp at he
                  subst he
                  exact ihc hcs hc hc'
          | none =>
              rw [hc'] at he'
              have he2' : findNid m (removeNid n es) = some e' := he'
              cases hc : findNid m cs with
              | some e1 =>
                  exfalso
                  have hm1 : m ∈ (flattenData cs).map ElemData.nid :=
                    mem_nids_of_findNid_some hc
                  have hm2 : m ∈ (flattenData es).map ElemData.nid :=
                    ((flattenData_removeNid_sublist n es).map
                      ElemData.nid).subset (mem_nids_of_findNid_some he2')
                  exact hdisj hm1 hm2
              | none =>
                  rw [hc] at he
                  have he2 : findNid m es = some e := he
                  exact ihe hes he2 he2'

theorem flattenDataT_removeNidT_sublist (n : Nat) (e : Elem) :
    List.Sublist (flattenDataT (removeNidT n e)) (flattenDataT e) := by
  cases e with
  | node d cs =>
      rw [removeNidT, flattenDataT_eq, flattenDataT_eq]
      simp only [Elem.data_node, Elem.children_node]
      exact List.Sublist.cons₂ d (flattenData_removeNid_sublist n cs)

/-- Subtree tracking: every element attached in the evolved document was
attached in the original, with a (data-wise) smaller subtree. -/
def docTrack (doc0 doc1 : Doc) : Prop :=
  ∀ m e', findNid m doc1 = some e' →
    ∃ e, findNid m doc0 = some e ∧
      List.Sublist (flattenDataT e') (flattenDataT e)

theorem docTrack_refl (doc : Doc) : docTrack doc doc :=
  fun _ e' h => ⟨e', h, List.Sublist.refl _⟩

theorem docTrack_removeNid {doc0 doc1 : Doc} (n : Nat)
    (hnd1 : ((flattenData doc1).map ElemData.nid).Nodup)
    (ht : docTrack doc0 doc1) :
    docTrack doc0 (removeNid n doc1) := by
  intro m e'' h''
  have hmem1 : m ∈ (flattenData doc1).map ElemData.nid :=
    ((flattenData_removeNid_sublist n doc1).map ElemData.nid).subset
      (mem_nids_of_findNid_some h'')
  cases h' : findNid m doc1 with
  | none =>
      exfalso
      rw [findNid_eq_none_iff] at h'
      exact h' hmem1
  | some e' =>
      have he'' := findNid_removeNid_surv n hnd1 h' h''
      obtain ⟨e, he, hsub⟩ := ht m e' h'
      refine ⟨e, he, ?_⟩
      rw [he'']
      exact (flattenDataT_removeNidT_sublist n e').trans hsub

theorem docTrack_trans {a b c : Doc} (h1 : docTrack a b) (h2 : docTrack b c) :
    docTrack a c := by
  intro m e2 h
  obtain ⟨e1, he1, hs2⟩ := h2 m e2 h
  obtain ⟨e0, he0, hs1⟩ := h1 m e1 he1
  exact ⟨e0, he0, hs2.trans hs1⟩

/-- The subtree traversal of an attached element is a sublist of the
document traversal. -/
theorem flattenDataT_sublist_of_findNid :
    ∀ {doc : Doc} {m : Nat} {e : Elem}, findNid m doc = some e →
      List.Sublist (flattenDataT e) (flattenData doc) := by
  intro doc
  induction doc using forestInd with
  | h0 => simp
  | h1 d cs es ihc ihe =>
      intro m e he
      rw [findNid_cons] at he
      rw [flattenData_cons]
      by_cases hd : d.nid = m
      · rw [if_pos hd] at he
        have he' := he
        simp at he'
        subst he'
        rw [flattenDataT_eq]
        simp only [Elem.data_node, Elem.children_node]
        exact List.Sublist.cons₂ d (List.sublist_append_left _ _)
      · rw [if_neg hd] at he
        cases hc : findNid m cs with
        | some e1 =>
            rw [hc] at he
            simp at he
            subst he
            exact ((ihc hc).trans (List.sublist_append_left _ _)).cons _
        | none =>
            rw [hc] at he
            exact ((ihe he).trans (List.sublist_append_right _ _)).cons _

/-- Every free guide record carries the cut-guide class. -/
theorem freeGuides_class :
    ∀ doc : Doc, ∀ (b : Bool) {x : ElemData}, x ∈ freeGuides b doc →
      hasClassToken x.className "cut-guide" = true := by
  refine forestInd (by simp) ?_
  intro d cs es ihc ihe b x hx
  rw [freeGuides_cons, freeGuidesT_node] at hx
  rcases List.mem_append.mp hx with hx | hx
  · rcases List.mem_append.mp hx with hx | hx
    · by_cases hg : !b && hasClassToken d.className "cut-guide"
      · rw [if_pos hg] at hx
        simp at hx
        subst hx
        rw [Bool.and_eq_true] at hg
        exact hg.2
      · rw [if_neg hg] at hx
        simp at hx
    · exact ihc _ hx
  · exact ihe _ hx

theorem collect_length_filter (cls : String) (L : Doc) :
    (collectClass cls L).length =
      ((flattenData L).filter
        (fun d => hasClassToken d.className cls)).length := by
  rw [← collectClass_data]
  exact (List.length_map _ _).symm

/-- In a nid-distinct document, a traversal record is recovered by its
node identity. -/
theorem dataOfNid_of_mem_flattenData {doc : Doc}
    (hnd : ((flattenData doc).map ElemData.nid).Nodup)
    {d : ElemData} (hd : d ∈ flattenData doc) :
    dataOfNid d.nid doc = some d := by
  rw [dataOfNid_find?]
  cases hf : (flattenData doc).find? (fun x => x.nid = d.nid) with
  | none =>
      exfalso
      rw [List.find?_eq_none] at hf
      exact absurd (by simp) (hf d hd)
  | some d1 =>
      have hmem := List.mem_of_find?_eq_some hf
      have hp := List.find?_some hf
      have hnid : d1.nid = d.nid := by simpa using hp
      rw [flattenData_nid_inj hnd hmem hd hnid]

/-- The inner `while` loop of `removeCutGuidesOnCover`: with enough fuel it
empties the cover's cut-guide collection, shrinks the traversal, keeps
guides leaves, tracks subtrees, preserves everything outside the cover's
subtree, and keeps the cover data list intact. -/
theorem removeGuidesWhile_spec (cnid : Nat) :
    ∀ (fuel : Nat) (doc1 : Doc),
      ((flattenData doc1).map ElemData.nid).Nodup →
      guideLeaf doc1 →
      (∀ d ∈ flattenData doc1,
        (hasClassToken d.className "cut-guide" &&
          hasClassToken d.className "card-size-cover") = false) →
      ∀ (c : Elem), findNid cnid doc1 = some c →
      (c.byClass "cut-guide").length < fuel →
      List.Sublist (flattenData (removeGuidesWhile cnid fuel doc1))
          (flattenData doc1) ∧
      guideLeaf (removeGuidesWhile cnid fuel doc1) ∧
      docTrack doc1 (removeGuidesWhile cnid fuel doc1) ∧
      (∃ c', findNid cnid (removeGuidesWhile cnid fuel doc1) = some c' ∧
        c'.data = c.data ∧ c'.byClass "cut-guide" = []) ∧
      (∀ x ∈ flattenData doc1, x ∉ flattenDataT c →
        x ∈ flattenData (removeGuidesWhile cnid fuel doc1)) ∧
      (collectClass "card-size-cover"
          (removeGuidesWhile cnid fuel doc1)).map Elem.data =
        (collectClass "card-size-cover" doc1).map Elem.data := by
  intro fuel
  induction fuel with
  | zero =>
      intro doc1 _ _ _ c _ hlt
      exact absurd hlt (Nat.not_lt_zero _)
  | succ fuel ih =>
      intro doc1 hnd hleaf hdist c hc hlt
      cases hB : c.byClass "cut-guide" with
      | nil =>
          have hstep : removeGuidesWhile cnid (fuel + 1) doc1 = doc1 := by
            simp only [removeGuidesWhile, hc, hB]
          rw [hstep]
          exact ⟨List.Sublist.refl _, hleaf, docTrack_refl doc1,
            ⟨c, hc, rfl, hB⟩, fun x hx _ => hx, rfl⟩
      | cons g gs =>
          have hstep : removeGuidesWhile cnid (fuel + 1) doc1 =
              removeGuidesWhile cnid fuel (removeNid g.data.nid doc1) := by
            simp only [removeGuidesWhile, hc, hB]
          have hcd_nid : c.data.nid = cnid := findNid_nid hc
          have hgmemc : g ∈ collectClass "cut-guide" c.children := by
            have h1 : g ∈ c.byClass "cut-guide" := by
              rw [hB]
              exact List.mem_cons_self _ _
            rw [Elem.byClass] at h1
            exact h1
          have hgdoc : g ∈ collectClass "cut-guide" doc1 :=
            mem_collect_of_findNid_children hc hgmemc
          have hgleaf : g.children = [] := hleaf g hgdoc
          have hgdata := mem_flattenData_of_mem_collect hgmemc
          have hsubT : List.Sublist (flattenDataT c) (flattenData doc1) :=
            flattenDataT_sublist_of_findNid hc
          have hndT : ((flattenDataT c).map ElemData.nid).Nodup :=
            (hsubT.map ElemData.nid).nodup hnd
          rw [flattenDataT_eq, List.map_cons] at hndT
          have hndT' := List.nodup_cons.mp hndT
          have hhead : c.data.nid ∉
              (flattenData c.children).map ElemData.nid := hndT'.1
          have hndch : ((flattenData c.children).map ElemData.nid).Nodup :=
            hndT'.2
          have hne_cn : cnid ≠ g.data.nid := by
            intro h
            apply hhead
            rw [hcd_nid, h]
            exact List.mem_map.mpr ⟨g.data, hgdata.1, rfl⟩
          have hfind_g : findNid g.data.nid doc1 = some g :=
            findNid_of_collect hnd hgdoc
          obtain ⟨pre, post, hsplit, hrem⟩ := removeNid_decomp hnd hfind_g
          have hgT : flattenDataT g = [g.data] := by
            rw [flattenDataT_eq, hgleaf, flattenData_nil]
          rw [hgT] at hsplit
          have hnd2 : ((flattenData
              (removeNid g.data.nid doc1)).map ElemData.nid).Nodup :=
            ((flattenData_removeNid_sublist _ _).map ElemData.nid).nodup hnd
          have hleaf2 := guideLeaf_removeNid g.data.nid hleaf
          have hsub2 : List.Sublist
              (flattenData (removeNid g.data.nid doc1))
              (flattenData doc1) := flattenData_removeNid_sublist _ _
          have hdist2 : ∀ d ∈ flattenData (removeNid g.data.nid doc1),
              (hasClassToken d.className "cut-guide" &&
                hasClassToken d.className "card-size-cover") = false :=
            fun d hd => hdist d (hsub2.subset hd)
          have hneq : c.data ≠ g.data := by
            intro h
            exact hne_cn (by rw [← hcd_nid, h])
          have hcmem2 : c.data ∈ flattenData
              (removeNid g.data.nid doc1) := by
            have hcm : c.data ∈ flattenData doc1 := by
              refine mem_flattenData_of_findNid_subtree hc ?_
              rw [flattenDataT_eq]
              exact List.mem_cons_self _ _
            rw [hsplit] at hcm
            rw [hrem]
            rcases List.mem_append.mp hcm with hcm | hcm
            · rcases List.mem_append.mp hcm with hcm | hcm
              · exact List.mem_append.mpr (Or.inl hcm)
              · exact absurd (List.mem_singleton.mp hcm) hneq
            · exact List.mem_append.mpr (Or.inr hcm)
          have hc2ex : ∃ c2, findNid cnid
              (removeNid g.data.nid doc1) = some c2 := by
            cases hfc : findNid cnid (removeNid g.data.nid doc1) with
            | some c2 => exact ⟨c2, rfl⟩
            | none =>
                exact absurd (List.mem_map.mpr ⟨c.data, hcmem2, hcd_nid⟩)
                  (findNid_eq_none_iff.mp hfc)
          obtain ⟨c2, hc2⟩ := hc2ex
          have hc2eq : c2 = removeNidT g.data.nid c :=
            findNid_removeNid_surv _ hnd hc hc2
          subst hc2eq
          have hc2data : (removeNidT g.data.nid c).data = c.data := by
            cases c with
            | node d0 cs0 => rfl
          have hc2ch : (removeNidT g.data.nid c).children =
              removeNid g.data.nid c.children := by
            cases c with
            | node d0 cs0 => rfl
          have hfg_ch : findNid g.data.nid c.children = some g :=
            findNid_of_collect hndch hgmemc
          obtain ⟨pre2, post2, hsplit2, hrem2⟩ :=
            removeNid_decomp hndch hfg_ch
          rw [hgT] at hsplit2
          have hfg1 : (([g.data] : List ElemData).filter
              (fun d => hasClassToken d.className "cut-guide")) =
              [g.data] := by
            simp [hgdata.2]
          have hlen : ((removeNidT g.data.nid c).byClass "cut-guide").length <
              (c.byClass "cut-guide").length := by
            rw [Elem.byClass, Elem.byClass, hc2ch, collect_length_filter,
              collect_length_filter, hrem2, hsplit2]
            simp only [List.filter_append, List.length_append, hfg1]
            simp
          have hlt2 : ((removeNidT g.data.nid c).byClass "cut-guide").length <
              fuel := by omega
          obtain ⟨ihsub, ihleaf, ihtrack, ⟨c', hc', hc'data, hc'by⟩,
            ihpres, ihstab⟩ :=
            ih (removeNid g.data.nid doc1) hnd2 hleaf2 hdist2
              (removeNidT g.data.nid c) hc2 hlt2
          have hstab1 : (collectClass "card-size-cover"
              (removeNid g.data.nid doc1)).map Elem.data =
              (collectClass "card-size-cover" doc1).map Elem.data := by
            rw [collectClass_data, collectClass_data, hrem, hsplit]
            have hgcov : hasClassToken g.data.className "card-size-cover" =
                false := by
              have hb := hdist g.data (by rw [hsplit]; simp)
              simpa [hgdata.2] using hb
            simp [List.filter_append, hgcov]
          rw [hstep]
          refine ⟨ihsub.trans hsub2, ihleaf,
            docTrack_trans (docTrack_removeNid g.data.nid hnd
              (docTrack_refl doc1)) ihtrack,
            ⟨c', hc', hc'data.trans hc2data, hc'by⟩, ?_, ihstab.trans hstab1⟩
          intro x hx hxc
          have hxg : x ≠ g.data := by
            intro h
            apply hxc
            rw [flattenDataT_eq, h]
            exact List.mem_cons_of_mem _ hgdata.1
          have hx2 : x ∈ flattenData (removeNid g.data.nid doc1) := by
            rw [hsplit] at hx
            rw [hrem]
            rcases List.mem_append.mp hx with hx | hx
            · rcases List.mem_append.mp hx with hx | hx
              · exact List.mem_append.mpr (Or.inl hx)
              · exact absurd (List.mem_singleton.mp hx) hxg
            · exact List.mem_append.mpr (Or.inr hx)
          refine ihpres x hx2 ?_
          intro hmem
          exact hxc ((flattenDataT_removeNidT_sublist g.data.nid c).subset hmem)

/-- The element attached at this record's node identity (if any) has no
cut-guide descendants. -/
def cleanedAt (doc1 : Doc) (cd : ElemData) : Prop :=
  ∀ e, findNid cd.nid doc1 = some e → e.byClass "cut-guide" = []

/-- A cleaned cover stays cleaned along subtree-shrinking evolution. -/
theorem cleanedAt_preserved {doc doc1 doc2 : Doc}
    (hnd0 : ((flattenData doc).map ElemData.nid).Nodup)
    (hdist0 : ∀ d ∈ flattenData doc,
      (hasClassToken d.className "cut-guide" &&
        hasClassToken d.className "card-size-cover") = false)
    (hsub1 : List.Sublist (flattenData doc1) (flattenData doc))
    (ht : docTrack doc1 doc2) {cd : ElemData}
    (hcd : cd ∈ flattenData doc)
    (hcov : hasClassToken cd.className "card-size-cover" = true)
    (hcl : cleanedAt doc1 cd) : cleanedAt doc2 cd := by
  intro e2 he2
  obtain ⟨e1, he1, hsubT⟩ := ht cd.nid e2 he2
  have hby := hcl e1 he1
  rw [Elem.byClass, collect_eq_nil_iff]
  intro x hx
  by_contra hcut
  rw [Bool.not_eq_false] at hcut
  have hx1 : x ∈ flattenDataT e1 := by
    refine hsubT.subset ?_
    rw [flattenDataT_eq]
    exact List.mem_cons_of_mem _ hx
  rw [flattenDataT_eq] at hx1
  rcases List.mem_cons.mp hx1 with hxx | hxx
  · have he1nid : e1.data.nid = cd.nid := findNid_nid he1
    have he1mem : e1.data ∈ flattenData doc := by
      refine hsub1.subset ?_
      refine mem_flattenData_of_findNid_subtree he1 ?_
      rw [flattenDataT_eq]
      exact List.mem_cons_self _ _
    have he1eq : e1.data = cd := flattenData_nid_inj hnd0 he1mem hcd he1nid
    have hxcd : x = cd := by rw [hxx, he1eq]
    have hb := hdist0 cd hcd
    rw [hxcd] at hcut
    rw [hcut, hcov] at hb
    simp at hb
  · rw [Elem.byClass, collect_eq_nil_iff] at hby
    have hfalse := hby x hxx
    rw [hfalse] at hcut
    simp at hcut

/-- The outer `for` loop of `removeCutGuidesOnCover`: with the cleaned
positions as invariant, it cleans every cover while keeping the free
guides attached. -/
theorem coverLoop_spec (doc : Doc)
    (hnd0 : ((flattenData doc).map ElemData.nid).Nodup)
    (hdist0 : ∀ d ∈ flattenData doc,
      (hasClassToken d.className "cut-guide" &&
        hasClassToken d.className "card-size-cover") = false) :
    ∀ (fuel i : Nat) (doc1 : Doc),
      List.Sublist (flattenData doc1) (flattenData doc) →
      guideLeaf doc1 →
      docTrack doc doc1 →
      (∀ d ∈ freeGuides false doc, d ∈ flattenData doc1) →
      (collectClass "card-size-cover" doc1).map Elem.data =
        (collectClass "card-size-cover" doc).map Elem.data →
      (∀ j, j < i → ∀ cd,
        ((collectClass "card-size-cover" doc).map Elem.data)[j]? =
          some cd → cleanedAt doc1 cd) →
      ((collectClass "card-size-cover" doc).map Elem.data).length <
        i + fuel →
      List.Sublist (flattenData (removeCutGuidesOnCoverLoop i fuel doc1))
          (flattenData doc) ∧
      (∀ cd ∈ (collectClass "card-size-cover" doc).map Elem.data,
        cleanedAt (removeCutGuidesOnCoverLoop i fuel doc1) cd) ∧
      (∀ d ∈ freeGuides false doc,
        d ∈ flattenData (removeCutGuidesOnCoverLoop i fuel doc1)) ∧
      (collectClass "card-size-cover"
          (removeCutGuidesOnCoverLoop i fuel doc1)).map Elem.data =
        (collectClass "card-size-cover" doc).map Elem.data := by
  intro fuel
  induction fuel with
  | zero =>
      intro i doc1 hsub hleafd htr hfree hstab hclean hfuel
      have hstep : removeCutGuidesOnCoverLoop i 0 doc1 = doc1 := rfl
      rw [hstep]
      refine ⟨hsub, ?_, hfree, hstab⟩
      intro cd hcd
      obtain ⟨j, hj⟩ := List.mem_iff_getElem?.mp hcd
      have hjlt : j < ((collectClass "card-size-cover" doc).map
          Elem.data).length := by
        by_contra hge
        rw [List.getElem?_eq_none (Nat.le_of_not_lt hge)] at hj
        simp at hj
      exact hclean j (by omega) cd hj
  | succ fuel ihf =>
      intro i doc1 hsub hleafd htr hfree hstab hclean hfuel
      have hnd1 : ((flattenData doc1).map ElemData.nid).Nodup :=
        (hsub.map ElemData.nid).nodup hnd0
      have hlen1 : ((collectClass "card-size-cover" doc).map
          Elem.data).length = (collectClass "card-size-cover" doc1).length := by
        rw [← hstab, List.length_map]
      by_cases hi : i < (collectClass "card-size-cover" doc1).length
      · obtain ⟨cover, hcovdef⟩ :
            ∃ cv, (collectClass "card-size-cover" doc1).get ⟨i, hi⟩ = cv :=
          ⟨_, rfl⟩
        have hstep : removeCutGuidesOnCoverLoop i (fuel + 1) doc1 =
            removeCutGuidesOnCoverLoop (i + 1) fuel
              (removeGuidesWhile cover.data.nid
                ((collectClass "cut-guide" doc1).length + 1) doc1) := by
          simp only [removeCutGuidesOnCoverLoop]
          rw [dif_pos hi, hcovdef]
        have hcovmem : cover ∈ collectClass "card-size-cover" doc1 :=
          hcovdef ▸ List.get_mem _ _ _
        have hdist1 : ∀ d ∈ flattenData doc1,
            (hasClassToken d.className "cut-guide" &&
              hasClassToken d.className "card-size-cover") = false :=
          fun d hd => hdist0 d (hsub.subset hd)
        have hfc : findNid cover.data.nid doc1 = some cover :=
          findNid_of_collect hnd1 hcovmem
        have hfW : ((cover.byClass "cut-guide").length <
            (collectClass "cut-guide" doc1).length + 1) := by
          have h2 := flattenDataT_sublist_of_findNid hfc
          rw [flattenDataT_eq] at h2
          have h1 : List.Sublist (flattenData cover.children)
              (flattenData doc1) := (List.sublist_cons_self _ _).trans h2
          have h3 : (cover.byClass "cut-guide").length ≤
              (collectClass "cut-guide" doc1).length := by
            rw [Elem.byClass, collect_length_filter, collect_length_filter]
            exact (h1.filter _).length_le
          omega
        obtain ⟨wsub, wleaf, wtrack, ⟨c', hc', hc'data, hc'by⟩,
          wpres, wstab⟩ :=
          removeGuidesWhile_spec cover.data.nid
            ((collectClass "cut-guide" doc1).length + 1) doc1
            hnd1 hleafd hdist1 cover hfc hfW
        have hfree2 : ∀ d ∈ freeGuides false doc,
            d ∈ flattenData (removeGuidesWhile cover.data.nid
              ((collectClass "cut-guide" doc1).length + 1) doc1) := by
          intro d hd
          refine wpres d (hfree d hd) ?_
          intro hdc
          obtain ⟨e0, he0, hsubT0⟩ := htr cover.data.nid cover hfc
          have hdc0 : d ∈ flattenDataT e0 := hsubT0.subset hdc
          have he0nid : e0.data.nid = cover.data.nid := findNid_nid he0
          have he0mem : e0.data ∈ flattenData doc := by
            refine mem_flattenData_of_findNid_subtree he0 ?_
            rw [flattenDataT_eq]
            exact List.mem_cons_self _ _
          have hcovd : cover.data ∈ flattenData doc :=
            hsub.subset (mem_flattenData_of_mem_collect hcovmem).1
          have he0eq : e0.data = cover.data :=
            flattenData_nid_inj hnd0 he0mem hcovd he0nid
          have he0cov : hasClassToken e0.data.className "card-size-cover" =
              true := by
            rw [he0eq]
            exact (mem_flattenData_of_mem_collect hcovmem).2
          have he0col : e0 ∈ collectClass "card-size-cover" doc :=
            mem_collect_of_findNid he0 he0cov
          rw [flattenDataT_eq] at hdc0
          rcases List.mem_cons.mp hdc0 with hdd | hdd
          · have hcut : hasClassToken d.className "cut-guide" = true :=
              freeGuides_class doc false hd
            have hcov2 : hasClassToken d.className "card-size-cover" =
                true := by
              rw [hdd]
              exact he0cov
            have hb := hdist0 d (freeGuides_subset_flattenData doc false d hd)
            rw [hcut, hcov2] at hb
            simp at hb
          · exact absurd hd (freeGuides_not_under_cover hnd0 false he0col hdd)
        have hgeti : ((collectClass "card-size-cover" doc).map
            Elem.data)[i]? = some cover.data := by
          rw [← hstab, List.getElem?_map]
          have h1 : (collectClass "card-size-cover" doc1)[i]? = some cover := by
            rw [List.getElem?_eq_getElem hi]
            exact congrArg some hcovdef
          rw [h1]
          rfl
        have hclean2 : ∀ j, j < i + 1 → ∀ cd,
            ((collectClass "card-size-cover" doc).map Elem.data)[j]? =
              some cd →
            cleanedAt (removeGuidesWhile cover.data.nid
              ((collectClass "cut-guide" doc1).length + 1) doc1) cd := by
          intro j hj cd hcd
          by_cases hj2 : j < i
          · have hcdCD : cd ∈ (collectClass "card-size-cover" doc).map
                Elem.data := List.getElem?_mem hcd
            have hcdf : cd ∈ (flattenData doc).filter
                (fun d => hasClassToken d.className "card-size-cover") := by
              rw [← collectClass_data]
              exact hcdCD
            exact cleanedAt_preserved hnd0 hdist0 hsub wtrack
              (List.mem_of_mem_filter hcdf)
              (by simpa using List.of_mem_filter hcdf)
              (hclean j hj2 cd hcd)
          · have hji : j = i := by omega
            subst hji
            rw [hgeti] at hcd
            obtain rfl : cover.data = cd := Option.some.inj hcd
            intro e he
            rw [hc'] at he
            obtain rfl : c' = e := Option.some.inj he
            exact hc'by
        obtain ⟨isub, iclean, ifree, istab⟩ :=
          ihf (i + 1) _ (wsub.trans hsub) wleaf (docTrack_trans htr wtrack)
            hfree2 (wstab.trans hstab) hclean2 (by omega)
        rw [hstep]
        exact ⟨isub, iclean, ifree, istab⟩
      · have hstep : removeCutGuidesOnCoverLoop i (fuel + 1) doc1 = doc1 := by
          simp only [removeCutGuidesOnCoverLoop]
          rw [dif_neg hi]
        rw [hstep]
        refine ⟨hsub, ?_, hfree, hstab⟩
        intro cd hcd
        obtain ⟨j, hj⟩ := List.mem_iff_getElem?.mp hcd
        have hjlt : j < ((collectClass "card-size-cover" doc).map
            Elem.data).length := by
          by_contra hge
          rw [List.getElem?_eq_none (Nat.le_of_not_lt hge)] at hj
          simp at hj
        exact hclean j (by omega) cd hj

/-- Claim C8: after `removeCutGuidesOnCover` runs, every card-size-cover
element has no cut-guide descendants, and every cut-guide element with no
card-size-cover ancestor keeps its record attached under its node
identity; proved under the sanity hypotheses that node identities are
pairwise distinct, that cut-guide elements are leaves, and that no element
carries both the cut-guide and the card-size-cover class. -/
theorem claimC8_theorem (doc : Doc)
    (hnd : ((flattenData doc).map ElemData.nid).Nodup)
    (hleaf : guideLeaf doc)
    (hdist : ∀ d ∈ flattenData doc,
      (hasClassToken d.className "cut-guide" &&
        hasClassToken d.className "card-size-cover") = false) :
    (∀ cv ∈ collectClass "card-size-cover" (removeCutGuidesOnCover doc),
      cv.byClass "cut-guide" = []) ∧
    (∀ d ∈ freeGuides false doc,
      dataOfNid d.nid (removeCutGuidesOnCover doc) = some d) := by
  by_cases h0 : (collectClass "card-size-cover" doc).length > 0
  · have hdef : removeCutGuidesOnCover doc =
        removeCutGuidesOnCoverLoop 0
          ((collectClass "card-size-cover" doc).length + 1) doc := by
      simp only [removeCutGuidesOnCover]
      rw [if_pos h0]
    rw [hdef]
    obtain ⟨fsub, fclean, ffree, fstab⟩ :=
      coverLoop_spec doc hnd hdist
        ((collectClass "card-size-cover" doc).length + 1) 0 doc
        (List.Sublist.refl _) hleaf (docTrack_refl doc)
        (fun d hd => freeGuides_subset_flattenData doc false d hd)
        rfl (fun j hj cd _ => absurd hj (Nat.not_lt_zero j))
        (by rw [List.length_map]; omega)
    refine ⟨?_, ?_⟩
    · intro cv hcv
      have hndf : ((flattenData (removeCutGuidesOnCoverLoop 0
          ((collectClass "card-size-cover" doc).length + 1) doc)).map
          ElemData.nid).Nodup := (fsub.map ElemData.nid).nodup hnd
      have hfind := findNid_of_collect hndf hcv
      have hcvCD : cv.data ∈ (collectClass "card-size-cover" doc).map
          Elem.data := by
        rw [← fstab]
        exact List.mem_map_of_mem _ hcv
      exact fclean cv.data hcvCD cv hfind
    · intro d hd
      exact dataOfNid_of_mem_flattenData
        ((fsub.map ElemData.nid).nodup hnd) (ffree d hd)
  · have hdef : removeCutGuidesOnCover doc = doc := by
      simp only [removeCutGuidesOnCover]
      rw [if_neg h0]
    rw [hdef]
    refine ⟨?_, ?_⟩
    · intro cv hcv
      exfalso
      have hz : (collectClass "card-size-cover" doc).length = 0 :=
        Nat.eq_zero_of_not_pos h0
      rw [List.length_eq_zero] at hz
      rw [hz] at hcv
      simp at hcv
    · intro d hd
      exact dataOfNid_of_mem_flattenData hnd
        (freeGuides_subset_flattenData doc false d hd)

/-- Witness scenario for C8: a cover card with two cut-guide children, a
plain card with one cut-guide child, all under one page. -/
def claimC8wdoc : Doc :=
  [.node { nid := 1, className := "page" }
     [.node { nid := 2, className := "card card-size-cover" }
        [.node { nid := 3, className := "cut-guide" } [],
         .node { nid := 4, className := "cut-guide" } []],
      .node { nid := 5, className := "card" }
        [.node { nid := 6, className := "cut-guide" } []]]]

theorem claimC8_witness :
    ((flattenData claimC8wdoc).map ElemData.nid).Nodup ∧
    guideLeaf claimC8wdoc ∧
    (∀ d ∈ flattenData claimC8wdoc,
      (hasClassToken d.className "cut-guide" &&
        hasClassToken d.className "card-size-cover") = false) ∧
    ((∀ cv ∈ collectClass "card-size-cover"
        (removeCutGuidesOnCover claimC8wdoc),
      cv.byClass "cut-guide" = []) ∧
    (∀ d ∈ freeGuides false claimC8wdoc,
      dataOfNid d.nid (removeCutGuidesOnCover claimC8wdoc) = some d)) :=
  ⟨by decide, by unfold guideLeaf; decide, by decide,
    claimC8_theorem claimC8wdoc (by decide)
      (by unfold guideLeaf; decide) (by decide)⟩
